import Mathlib

/-!
# Ray tracer core (`toha_base.hpp`): shallow embedding and verified properties

The C++ header defines `Point3`, `Ray`, the abstract `Object` with the four
variants `Sphere`, `Floor`, `Triangle`, `GeneralQuadratic`, and the globals
`objects` and `lights`.

Modelling conventions.

* `double` is modelled by a linearly ordered field `α` (with a floor function for
  the `double → int` conversions).  All definitions are generic and computable
  (for instance at `α = ℚ`); theorems are stated at `α = ℝ` with `Real.sqrt`.
  Rounding, infinities and NaN are outside the model; a division by zero has the
  value Lean gives it (`x / 0 = 0`), where C++ produces an infinity or a NaN.
  The concrete inputs used below are small integers and dyadic fractions, on
  which `double` arithmetic is exact.
* Where rounding decides the outcome (the tangent ray of a sphere), the code is
  embedded a second time with the result of every arithmetic operation passed
  through a rounding function `rnd` (`Sphere.getIntersectionTRounded` and its
  locals): `rnd = id` gives the exact model, `rnd = roundDouble` the IEEE 754
  binary64 computation (round to nearest, ties to even, one rounding per
  operation, no fused multiply-add, exponent range unbounded).
* `sqrt` is a parameter of every function that calls it.
* `double[3]` colour arrays are the structure `Color`; `co_efficients[4]` is
  `Coeffs`.
* The global `objects` vector is a `List (Object α)`; a method call
  `objects[k]->m(...)` is modelled by passing the list and the index `k`.
  `Floor::intersect` assigns to the receiver's `color`, so `intersect` returns
  the updated object list.
* `recursion_level` and the `lights` vector are globals read by the code; they
  are fields of `Env`, together with the contents of an uninitialised local
  colour array.
-/

namespace RayTracing

/-! ## Point3 and Ray -/

/-- C++ `class Point3`. -/
structure Point3 (α : Type) where
  x : α
  y : α
  z : α

/-- C++ `double color[3]`, `double current_color[3]`. -/
structure Color (α : Type) where
  c0 : α
  c1 : α
  c2 : α

/-- C++ `double co_efficients[4]`, indexed by `AMBIENT, DIFFUSE, SPECULAR, REFLECTION`. -/
structure Coeffs (α : Type) where
  ambient : α
  diffuse : α
  specular : α
  reflection : α

section Defs

variable {α : Type} [LinearOrderedField α] [FloorRing α]

namespace Point3

/-- Source function `Point3::operator+`. -/
def add (p q : Point3 α) : Point3 α := ⟨p.x + q.x, p.y + q.y, p.z + q.z⟩

/-- Source function `Point3::operator-`. -/
def sub (p q : Point3 α) : Point3 α := ⟨p.x - q.x, p.y - q.y, p.z - q.z⟩

/-- Source function `Point3::operator*(double)`. -/
def mul (p : Point3 α) (k : α) : Point3 α := ⟨p.x * k, p.y * k, p.z * k⟩

/-- Source function `Point3::operator/(double)`. -/
def div (p : Point3 α) (k : α) : Point3 α := ⟨p.x / k, p.y / k, p.z / k⟩

/-- The radicand of `Point3::normalize`: `x*x + y*y + z*z`. -/
def normSq (p : Point3 α) : α := p.x * p.x + p.y * p.y + p.z * p.z

/-- Source function `Point3::normalize`: `*this / sqrt(x*x + y*y + z*z)`. -/
def normalize (sqrt : α → α) (p : Point3 α) : Point3 α :=
  p.div (sqrt (p.x * p.x + p.y * p.y + p.z * p.z))

end Point3

/-- C++ `class Ray` (fields only). -/
structure Ray (α : Type) where
  start : Point3 α
  dir : Point3 α

/-- The constructor `Ray::Ray(start, dir)`: stores `dir.normalize()`. -/
def Ray.new (sqrt : α → α) (start dir : Point3 α) : Ray α :=
  ⟨start, dir.normalize sqrt⟩

/-- The macro `#define EPSILON 0.000001`. -/
def EPSILON : α := 1 / 1000000

/-! ## Object -/

/-- The data members of the abstract class `Object`. -/
structure Base (α : Type) where
  reference_point : Point3 α
  height : α
  width : α
  length : α
  source_factor : α
  refIdx : α
  shine : Int
  color : Color α
  co_efficients : Coeffs α

/-- The data members `A .. J` of `GeneralQuadratic`. -/
structure Quadric (α : Type) where
  A : α
  B : α
  C : α
  D : α
  E : α
  F : α
  G : α
  H : α
  I : α
  J : α

/-- The four concrete subclasses of `Object`.  A floor carries its texture
`bd` (an external `bitmap_image`, modelled by its `get_pixel` lookup giving three
`unsigned char` values) and the scaled dimensions `bdHeight`, `bdWidth`. -/
inductive Object (α : Type) where
  | sphere (base : Base α)
  | floor (base : Base α) (bd : Int → Int → Fin 256 × Fin 256 × Fin 256) (bdHeight bdWidth : α)
  | triangle (base : Base α) (a b c : Point3 α)
  | generalQuadratic (base : Base α) (q : Quadric α)

/-- The `Object` part of any variant. -/
def Object.base : Object α → Base α
  | .sphere b => b
  | .floor b _ _ _ => b
  | .triangle b _ _ _ => b
  | .generalQuadratic b _ => b

/-- Source function `Object::dotProduct`. -/
def dotProduct (a b : Point3 α) : α := a.x * b.x + a.y * b.y + a.z * b.z

/-- Source function `Object::crossProduct`. -/
def crossProduct (u v : Point3 α) : Point3 α :=
  ⟨u.y * v.z - u.z * v.y, u.z * v.x - u.x * v.z, u.x * v.y - u.y * v.x⟩

/-- Source function `Object::getReflection`. -/
def getReflection (sqrt : α → α) (ray : Ray α) (normal : Point3 α) : Point3 α :=
  let reflection := ray.dir.sub ((normal.mul 2).mul (dotProduct ray.dir normal))
  reflection.normalize sqrt

/-- Source function `Object::getRefraction`. -/
def getRefraction (sqrt : α → α) (refIdx : α) (ray : Ray α) (normal : Point3 α) : Point3 α :=
  let dot := dotProduct normal ray.dir
  let k := 1 - refIdx * refIdx * (1 - dot * dot)
  if 0 ≤ k then
    ((ray.dir.mul refIdx).sub (normal.mul (refIdx * dot + sqrt k))).normalize sqrt
  else
    ⟨0, 0, 0⟩

/-! ## getIntersectionT -/

/-- Source function `Sphere::getIntersectionT`. -/
def Sphere.getIntersectionT (sqrt : α → α) (o : Base α) (ray : Ray α) : α :=
  let start := ray.start.sub o.reference_point
  let a := dotProduct ray.dir ray.dir
  let b := 2 * dotProduct ray.dir start
  let c := dotProduct start start - o.length * o.length
  let d := b * b - 4 * a * c
  if d < 0 then -1
  else
    let t1 := (-b + sqrt d) / (2 * a)
    let t2 := (-b - sqrt d) / (2 * a)
    if t2 > t1 then t1 else t2

/-- Source function `Sphere::getNormal`. -/
def Sphere.getNormal (sqrt : α → α) (o : Base α) (intersection : Point3 α) : Point3 α :=
  (intersection.sub o.reference_point).normalize sqrt

/-- Source function `Floor::getNormal`. -/
def Floor.getNormal (sqrt : α → α) (_intersection : Point3 α) : Point3 α :=
  (⟨0, 0, 1⟩ : Point3 α).normalize sqrt

/-- Source function `Floor::getIntersectionT`. -/
def Floor.getIntersectionT (sqrt : α → α) (o : Base α) (ray : Ray α) : α :=
  let normal := Floor.getNormal sqrt o.reference_point
  dotProduct normal ray.start * (-1) / dotProduct normal ray.dir

/-- Source function `Triangle::getNormal`. -/
def Triangle.getNormal (sqrt : α → α) (a b c : Point3 α) (_intersection : Point3 α) :
    Point3 α :=
  let u := b.sub a
  let v := c.sub a
  (crossProduct u v).normalize sqrt

/-- The barycentric coordinate `u` computed by `Triangle::getIntersectionT`
(the value of the local `u`, when the code reaches it). -/
def Triangle.baryU (a b c : Point3 α) (ray : Ray α) : α :=
  let e1 := b.sub a
  let e2 := c.sub a
  let p := crossProduct ray.dir e2
  let det := dotProduct e1 p
  let inv_det := 1 / det
  let T := ray.start.sub a
  dotProduct T p * inv_det

/-- The barycentric coordinate `v` computed by `Triangle::getIntersectionT`
(the value of the local `v`, when the code reaches it). -/
def Triangle.baryV (a b c : Point3 α) (ray : Ray α) : α :=
  let e1 := b.sub a
  let e2 := c.sub a
  let p := crossProduct ray.dir e2
  let det := dotProduct e1 p
  let inv_det := 1 / det
  let T := ray.start.sub a
  let q := crossProduct T e1
  dotProduct ray.dir q * inv_det

/-- Source function `Triangle::getIntersectionT`. -/
def Triangle.getIntersectionT (a b c : Point3 α) (ray : Ray α) : α :=
  let e1 := b.sub a
  let e2 := c.sub a
  let p := crossProduct ray.dir e2
  let det := dotProduct e1 p
  if det > -EPSILON ∧ det < EPSILON then -1
  else
    let inv_det := 1 / det
    let T := ray.start.sub a
    let u := dotProduct T p * inv_det
    if u < 0 ∨ u > 1 then -1
    else
      let q := crossProduct T e1
      let v := dotProduct ray.dir q * inv_det
      if v < 0 ∨ u + v > 1 then -1
      else
        let t := dotProduct e2 q * inv_det
        if t > EPSILON then t else -1

/-- Source function `GeneralQuadratic::getNormal`. -/
def GeneralQuadratic.getNormal (sqrt : α → α) (q : Quadric α) (intersection : Point3 α) :
    Point3 α :=
  let u := 2 * q.A * intersection.x + q.D * intersection.y + q.F * intersection.z + q.G
  let v := 2 * q.B * intersection.y + q.D * intersection.x + q.E * intersection.z + q.H
  let z := 2 * q.C * intersection.z + q.E * intersection.y + q.F * intersection.x + q.I
  (⟨u, v, z⟩ : Point3 α).normalize sqrt

/-- The coefficient `a` of the quadratic solved by `GeneralQuadratic::getIntersectionT`. -/
def GeneralQuadratic.coefA (q : Quadric α) (ray : Ray α) : α :=
  q.A * ray.dir.x * ray.dir.x + q.B * ray.dir.y * ray.dir.y + q.C * ray.dir.z * ray.dir.z
    + (q.D * ray.dir.x * ray.dir.y + q.E * ray.dir.y * ray.dir.z + q.F * ray.dir.z * ray.dir.x)

/-- The coefficient `b` of the quadratic solved by `GeneralQuadratic::getIntersectionT`. -/
def GeneralQuadratic.coefB (q : Quadric α) (ray : Ray α) : α :=
  2 * (q.A * ray.start.x * ray.dir.x + q.B * ray.start.y * ray.dir.y
        + q.C * ray.start.z * ray.dir.z)
    + (q.D * (ray.start.x * ray.dir.y + ray.dir.x * ray.start.y)
        + q.E * (ray.start.y * ray.dir.z + ray.dir.y * ray.start.z)
        + q.F * (ray.start.z * ray.dir.x + ray.dir.z * ray.start.x))
    + (q.G * ray.dir.x + q.H * ray.dir.y + q.I * ray.dir.z)

/-- The coefficient `c` of the quadratic solved by `GeneralQuadratic::getIntersectionT`. -/
def GeneralQuadratic.coefC (q : Quadric α) (ray : Ray α) : α :=
  q.A * ray.start.x * ray.start.x + q.B * ray.start.y * ray.start.y
      + q.C * ray.start.z * ray.start.z
    + (q.D * ray.start.x * ray.start.y + q.E * ray.start.y * ray.start.z
        + q.F * ray.start.z * ray.start.x)
    + (q.G * ray.start.x + q.H * ray.start.y + q.I * ray.start.z + q.J)

/-- The clipping test of `GeneralQuadratic::getIntersectionT` (the value of
`flag1` / `flag2` for the point `p`): `true` when `p` is outside the box on an
axis whose extent is positive. -/
def GeneralQuadratic.outsideBox (o : Base α) (p : Point3 α) : Bool :=
  let xMin := o.reference_point.x
  let xMax := xMin + o.length
  let yMin := o.reference_point.y
  let yMax := yMin + o.width
  let zMin := o.reference_point.z
  let zMax := zMin + o.height
  decide (o.length > 0 ∧ (xMin > p.x ∨ p.x > xMax)
    ∨ o.width > 0 ∧ (yMin > p.y ∨ p.y > yMax)
    ∨ o.height > 0 ∧ (zMin > p.z ∨ p.z > zMax))

/-- Source function `GeneralQuadratic::getIntersectionT`. -/
def GeneralQuadratic.getIntersectionT (sqrt : α → α) (o : Base α) (q : Quadric α)
    (ray : Ray α) : α :=
  let a := GeneralQuadratic.coefA q ray
  let b := GeneralQuadratic.coefB q ray
  let c := GeneralQuadratic.coefC q ray
  let d := b * b - 4 * a * c
  if d < 0 then -1
  else
    let t1 := (-b + sqrt d) / (2 * a)
    let t2 := (-b - sqrt d) / (2 * a)
    let intersectionPoint1 := ray.start.add (ray.dir.mul t1)
    let intersectionPoint2 := ray.start.add (ray.dir.mul t2)
    let flag1 := GeneralQuadratic.outsideBox o intersectionPoint1
    let flag2 := GeneralQuadratic.outsideBox o intersectionPoint2
    if flag1 && flag2 then -1
    else if flag1 then t2
    else if flag2 then t1
    else if t2 > t1 then t1 else t2

/-- The virtual call `obj->getIntersectionT(ray, debug)` (the flag `debug` is
unused by every override). -/
def Object.getIntersectionT (sqrt : α → α) (obj : Object α) (ray : Ray α) : α :=
  match obj with
  | .sphere o => Sphere.getIntersectionT sqrt o ray
  | .floor o _ _ _ => Floor.getIntersectionT sqrt o ray
  | .triangle _ a b c => Triangle.getIntersectionT a b c ray
  | .generalQuadratic o q => GeneralQuadratic.getIntersectionT sqrt o q ray

/-- The virtual call `obj->getNormal(intersection)`. -/
def Object.getNormal (sqrt : α → α) (obj : Object α) (intersection : Point3 α) : Point3 α :=
  match obj with
  | .sphere o => Sphere.getNormal sqrt o intersection
  | .floor _ _ _ _ => Floor.getNormal sqrt intersection
  | .triangle _ a b c => Triangle.getNormal sqrt a b c intersection
  | .generalQuadratic _ q => GeneralQuadratic.getNormal sqrt q intersection

/-! ## The shading routine `intersect` -/

/-- The globals read by `intersect` but defined outside the header
(`recursion_level`), the global `lights`, the `sqrt` of the platform, and the
content `junk` of a local `double[3]` that is declared without initialiser
(`reflected_color`, `refracted_color`). -/
structure Env (α : Type) where
  sqrt : α → α
  recursion_level : Int
  lights : List (Point3 α)
  junk : Color α

/-- What a call of `intersect` leaves behind: the returned `double`, the
caller's colour array after the call, the global `objects` after the call, the
level the call was entered with, and the log of nested `intersect` calls made
during it as pairs (level of the caller, level of the callee), in call order. -/
structure Result (α : Type) where
  t : α
  color : Color α
  objects : List (Object α)
  level : Int
  calls : List (Int × Int)

/-- The state carried through the loop over `lights`. -/
structure LoopState (α : Type) where
  color : Color α
  objects : List (Object α)
  calls : List (Int × Int)

/-- What the code preceding the light loop does: it returns (`ret`) without
touching the colour array, or goes on to shade (`shade`) with the intersection
parameter, the intersection point, the receiver after the assignments to its
`color`, and the initial content of the colour array. -/
inductive Entry (α : Type) where
  | ret (t : α)
  | shade (t : α) (intersectionPoint : Point3 α) (self : Object α) (current_color : Color α)

/-- Conversion `double → int` (truncation toward zero). -/
def toInt (x : α) : Int := if 0 ≤ x then Int.floor x else Int.ceil x

/-- The final loop of each light iteration: clamp one channel to `[0, 1]`. -/
def clampChannel (x : α) : α := if x > 1 then 1 else if x < 0 then 0 else x

/-- The clamp loop `for k < 3` at the end of each light iteration. -/
def clampColor (c : Color α) : Color α :=
  ⟨clampChannel c.c0, clampChannel c.c1, clampChannel c.c2⟩

/-- The loop `current_color[k] += other[k] * w`. -/
def Color.addScaled (c other : Color α) (w : α) : Color α :=
  ⟨c.c0 + other.c0 * w, c.c1 + other.c1 * w, c.c2 + other.c2 * w⟩

/-- The loop `current_color[i] = color[i] * co_efficients[AMBIENT]`. -/
def ambientColor (o : Base α) : Color α :=
  ⟨o.color.c0 * o.co_efficients.ambient, o.color.c1 * o.co_efficients.ambient,
   o.color.c2 * o.co_efficients.ambient⟩

/-- The opening of `Sphere::intersect`, `Triangle::intersect` and
`GeneralQuadratic::intersect` (identical text in the three). -/
def enterPlain (sqrt : α → α) (self : Object α) (ray : Ray α) (level : Int) : Entry α :=
  let t := self.getIntersectionT sqrt ray
  if t ≤ 0 then .ret (-1)
  else if level = 0 then .ret t
  else .shade t (ray.start.add (ray.dir.mul t)) self (ambientColor self.base)

/-- The opening of `Floor::intersect`: bounds test, tile colour written to the
member `color`, texture lookup, initial colour. -/
def Floor.enter (sqrt : α → α) (o : Base α) (bd : Int → Int → Fin 256 × Fin 256 × Fin 256)
    (bdHeight bdWidth : α) (ray : Ray α) : Entry α :=
  let t := Floor.getIntersectionT sqrt o ray
  let intersectionPoint := ray.start.add (ray.dir.mul t)
  let xMin := o.reference_point.x
  let xMax := xMin * (-1)
  let yMin := o.reference_point.y
  let yMax := yMin * (-1)
  if xMin > intersectionPoint.x ∨ intersectionPoint.x > xMax ∨
      yMin > intersectionPoint.y ∨ intersectionPoint.y > yMax then .ret (-1)
  else
    let xCord := toInt (intersectionPoint.x / o.length)
    let yCord := toInt (intersectionPoint.y / o.length)
    let color : Color α := if Int.tmod (xCord + yCord) 2 ≠ 0 then ⟨0, 0, 0⟩ else ⟨1, 1, 1⟩
    let x := toInt ((intersectionPoint.x + |o.reference_point.x|) * bdWidth)
    let y := toInt ((intersectionPoint.y + |o.reference_point.y|) * bdHeight)
    let rgb := bd x y
    let amb := o.co_efficients.ambient
    .shade t intersectionPoint (.floor { o with color := color } bd bdHeight bdWidth)
      ⟨color.c0 * amb * (rgb.1.val : α) / 255, color.c1 * amb * (rgb.2.1.val : α) / 255,
       color.c2 * amb * (rgb.2.2.val : α) / 255⟩

/-- The code of `intersect` before the loop over `lights`, per variant. -/
def Object.enter (sqrt : α → α) (self : Object α) (ray : Ray α) (level : Int) : Entry α :=
  match self with
  | .floor o bd bdHeight bdWidth => Floor.enter sqrt o bd bdHeight bdWidth ray
  | .sphere o => enterPlain sqrt (.sphere o) ray level
  | .triangle o a b c => enterPlain sqrt (.triangle o a b c) ray level
  | .generalQuadratic o q => enterPlain sqrt (.generalQuadratic o q) ray level

/-- The normal used in the iteration for a light in direction `dir`.  Sphere,
Floor and GeneralQuadratic use `getNormal(intersectionPoint)`, computed once
before the loop; `Triangle::intersect` recomputes it in each iteration and
negates it when `dotProduct(dir, normal) > 0`. -/
def Object.shadeNormal (sqrt : α → α) (self : Object α) (intersectionPoint dir : Point3 α) :
    Point3 α :=
  match self with
  | .triangle _ a b c =>
      let normal := Triangle.getNormal sqrt a b c intersectionPoint
      if dotProduct dir normal > 0 then normal.mul (-1) else normal
  | .sphere o => Sphere.getNormal sqrt o intersectionPoint
  | .floor _ _ _ _ => Floor.getNormal sqrt intersectionPoint
  | .generalQuadratic _ q => GeneralQuadratic.getNormal sqrt q intersectionPoint

/-- The shadow loop: `flag` becomes `true` at the first object `j` for which the
test `tObj > 0 || abs(tObj) > len` is false (then `break`). -/
def shadowFlag (sqrt : α → α) (objs : List (Object α)) (L : Ray α) (len : α) : Bool :=
  objs.any (fun obj =>
    let tObj := obj.getIntersectionT sqrt L
    !decide (tObj > 0 ∨ |tObj| > len))

/-- The diffuse term `source_factor * lambert * co_efficients[DIFFUSE] * color[k]`
with `lambert` clamped below at 0. -/
def diffuseTerm (o : Base α) (Ldir normal : Point3 α) (colk : α) : α :=
  let lambert := dotProduct Ldir normal
  let lambert := if lambert > 0 then lambert else 0
  o.source_factor * lambert * o.co_efficients.diffuse * colk

/-- The specular term `source_factor * phong * co_efficients[SPECULAR] * color[k]`
with `phong = pow(dotProduct(reflection, ray->dir), shine)` clamped below at 0. -/
def specularTerm (o : Base α) (reflection rayDir : Point3 α) (colk : α) : α :=
  let phong := dotProduct reflection rayDir ^ o.shine
  let phong := if phong > 0 then phong else 0
  o.source_factor * phong * o.co_efficients.specular * colk

/-- The body of `if (flag)`: both terms added to each channel. -/
def addLocal (o : Base α) (Ldir normal reflection rayDir : Point3 α) (cur : Color α) :
    Color α :=
  ⟨cur.c0 + diffuseTerm o Ldir normal o.color.c0 + specularTerm o reflection rayDir o.color.c0,
   cur.c1 + diffuseTerm o Ldir normal o.color.c1 + specularTerm o reflection rayDir o.color.c1,
   cur.c2 + diffuseTerm o Ldir normal o.color.c2 + specularTerm o reflection rayDir o.color.c2⟩

/-- One iteration of the nearest-hit loop, on the pair `(nearest, minT)` with
the index `k` and the value `tk` of `objects[k]->getIntersectionT`. -/
def scanStep (st : Int × α) (k : Nat) (tk : α) : Int × α :=
  if tk ≤ 0 then st
  else if tk < st.2 then ((k : Int), tk)
  else st

/-- The nearest-hit loop from index `k` on, over the remaining parameters. -/
def scanFrom : List α → Nat → Int × α → Int × α
  | [], _, st => st
  | tk :: rest, k, st => scanFrom rest (k + 1) (scanStep st k tk)

/-- The nearest-hit loop on a list of parameters, from `nearest = -1`,
`minT = 9999999`. -/
def scanNearest (ts : List α) : Int × α := scanFrom ts 0 (-1, 9999999)

/-- The nearest-hit loop of `intersect` for the ray `ray`: the final
`(nearest, minT)`. -/
def nearestHit (sqrt : α → α) (objs : List (Object α)) (ray : Ray α) : Int × α :=
  scanNearest (objs.map (fun obj => obj.getIntersectionT sqrt ray))

/-- Tracing one secondary ray (reflection or refraction): nearest-hit loop, then
`objects[nearest]->intersect(&ray, tmp, level+1)` on a fresh uninitialised array and
`current_color[k] += tmp[k] * weight`.  `recur` is that virtual call. -/
def traceSecondary (env : Env α) (recur : List (Object α) → Nat → Ray α → Result α)
    (level : Int) (ray : Ray α) (weight : α) (st : LoopState α) : LoopState α :=
  let nearest := (nearestHit env.sqrt st.objects ray).1
  if nearest ≠ -1 then
    let r := recur st.objects nearest.toNat ray
    ⟨st.color.addScaled r.color weight, r.objects, st.calls ++ (level, r.level) :: r.calls⟩
  else st

/-- One iteration of the loop over `lights` in `intersect`, for the receiver
`objects[idx]` (`self0` is its value on entry to the loop).  `recur` is `none`
when `level < recursion_level` is false, and otherwise the recursive virtual call
`objects[k]->intersect(&r, tmp, level+1)`. -/
def lightIter (env : Env α)
    (recur : Option (List (Object α) → Nat → Ray α → Result α))
    (idx : Nat) (self0 : Object α) (ray : Ray α) (level : Int)
    (intersectionPoint : Point3 α) (st : LoopState α) (light : Point3 α) : LoopState α :=
  let self := (st.objects[idx]?).getD self0
  let o := self.base
  let dir := light.sub intersectionPoint
  let len := env.sqrt (dir.x * dir.x + dir.y * dir.y + dir.z * dir.z)
  let dir := dir.normalize env.sqrt
  let normal := self.shadeNormal env.sqrt intersectionPoint dir
  let reflection := getReflection env.sqrt ray normal
  let refraction := getRefraction env.sqrt o.refIdx ray normal
  let L := Ray.new env.sqrt (intersectionPoint.add (dir.mul 1)) dir
  let flag := shadowFlag env.sqrt st.objects L len
  let st1 : LoopState α :=
    if flag then { st with color := addLocal o L.dir normal reflection ray.dir st.color }
    else st
  let st3 : LoopState α :=
    match recur with
    | none => st1
    | some f =>
        let reflectionRay := Ray.new env.sqrt (intersectionPoint.add (reflection.mul 1)) reflection
        let st2 := traceSecondary env f level reflectionRay o.co_efficients.reflection st1
        let refractionRay := Ray.new env.sqrt (intersectionPoint.add (refraction.mul 1)) refraction
        traceSecondary env f level refractionRay o.refIdx st2
  { st3 with color := clampColor st3.color }

/-- The virtual call `objects[idx]->intersect(ray, current_color, level)`.
The recursion is on `recursion_level - level`: a nested call is made only under
`level < recursion_level`, at `level + 1`. -/
def intersect (env : Env α) (objs : List (Object α)) (idx : Nat) (ray : Ray α)
    (current_color : Color α) (level : Int) : Result α :=
  match objs[idx]? with
  | none => ⟨-1, current_color, objs, level, []⟩
  | some self =>
    match self.enter env.sqrt ray level with
    | .ret t => ⟨t, current_color, objs, level, []⟩
    | .shade t intersectionPoint self0 color0 =>
      let recur : Option (List (Object α) → Nat → Ray α → Result α) :=
        if _h : level < env.recursion_level then
          some (fun os k r => intersect env os k r env.junk (level + 1))
        else none
      let fin := env.lights.foldl
        (lightIter env recur idx self0 ray level intersectionPoint)
        ⟨color0, objs.set idx self0, []⟩
      ⟨t, fin.color, fin.objects, level, fin.calls⟩
termination_by (env.recursion_level - level).toNat
decreasing_by omega

/-! ## Vocabulary of the statements -/

/-- The quadratic `a*s^2 + b*s + c` that `Sphere::getIntersectionT` solves, with
`a`, `b`, `c` as computed there, evaluated at `s`. -/
def Sphere.quadratic (o : Base α) (ray : Ray α) (s : α) : α :=
  let start := ray.start.sub o.reference_point
  let a := dotProduct ray.dir ray.dir
  let b := 2 * dotProduct ray.dir start
  let c := dotProduct start start - o.length * o.length
  a * s ^ 2 + b * s + c

/-- The quadratic `a*s^2 + b*s + c` that `GeneralQuadratic::getIntersectionT`
solves, evaluated at `s`. -/
def GeneralQuadratic.quadratic (q : Quadric α) (ray : Ray α) (s : α) : α :=
  GeneralQuadratic.coefA q ray * s ^ 2 + GeneralQuadratic.coefB q ray * s
    + GeneralQuadratic.coefC q ray

/-- The discriminant `d = b*b - 4*a*c` of `GeneralQuadratic::getIntersectionT`. -/
def GeneralQuadratic.discr (q : Quadric α) (ray : Ray α) : α :=
  GeneralQuadratic.coefB q ray * GeneralQuadratic.coefB q ray
    - 4 * GeneralQuadratic.coefA q ray * GeneralQuadratic.coefC q ray

/-- The local `t1 = (-b + sqrt(d)) / (2.0*a)` of `GeneralQuadratic::getIntersectionT`. -/
def GeneralQuadratic.t1 (sqrt : α → α) (q : Quadric α) (ray : Ray α) : α :=
  (-GeneralQuadratic.coefB q ray + sqrt (GeneralQuadratic.discr q ray))
    / (2 * GeneralQuadratic.coefA q ray)

/-- The local `t2 = (-b - sqrt(d)) / (2.0*a)` of `GeneralQuadratic::getIntersectionT`. -/
def GeneralQuadratic.t2 (sqrt : α → α) (q : Quadric α) (ray : Ray α) : α :=
  (-GeneralQuadratic.coefB q ray - sqrt (GeneralQuadratic.discr q ray))
    / (2 * GeneralQuadratic.coefA q ray)

/-- The point `ray->start + ray->dir * t`. -/
def Ray.at (ray : Ray α) (t : α) : Point3 α := ray.start.add (ray.dir.mul t)

/-- The value `t` is the smallest positive root of `f`. -/
def IsSmallestPositiveRoot (f : α → α) (t : α) : Prop :=
  0 < t ∧ f t = 0 ∧ ∀ s, 0 < s → f s = 0 → t ≤ s

/-- Euclidean length of a vector. -/
def Point3.len (sqrt : α → α) (p : Point3 α) : α := sqrt p.normSq

/-- All three channels lie in `[0, 1]`. -/
def Color.InUnit (c : Color α) : Prop :=
  (0 ≤ c.c0 ∧ c.c0 ≤ 1) ∧ (0 ≤ c.c1 ∧ c.c1 ≤ 1) ∧ (0 ≤ c.c2 ∧ c.c2 ≤ 1)


/-! ## Further vocabulary: the light loop, call log, regular points -/

/-- The `double` returned by `intersect` for a given opening. -/
def Entry.t : Entry α → α
  | .ret t => t
  | .shade t _ _ _ => t

/-- The recursive call available to the light loop at `level`: present exactly
when `level < recursion_level`, and then it is `intersect` at `level + 1` on a fresh
uninitialised colour array. -/
def recurOf (env : Env α) (level : Int) :
    Option (List (Object α) → Nat → Ray α → Result α) :=
  if level < env.recursion_level then
    some (fun os k r => intersect env os k r env.junk (level + 1))
  else none

/-- The light loop of `intersect` for the receiver `objects[idx]`, from the state
left by the opening. -/
def lightLoop (env : Env α) (idx : Nat) (self0 : Object α) (ray : Ray α) (level : Int)
    (intersectionPoint : Point3 α) (st : LoopState α) : LoopState α :=
  env.lights.foldl (lightIter env (recurOf env level) idx self0 ray level intersectionPoint) st

/-- Every logged call goes from a caller at level `p ≥ L` to a callee at level
`p + 1 ≤ R`. -/
def CallsOK (R L : Int) (cs : List (Int × Int)) : Prop :=
  ∀ pc ∈ cs, pc.2 = pc.1 + 1 ∧ L ≤ pc.1 ∧ pc.2 ≤ R

/-- A callback that runs at `level + 1 ≤ R` and logs only admissible calls. -/
def RecurOK (R level : Int) (f : List (Object α) → Nat → Ray α → Result α) : Prop :=
  level < R ∧ ∀ os k r, (f os k r).level = level + 1 ∧ CallsOK R (level + 1) (f os k r).calls

/-- The vector `(u, v, z)` that `GeneralQuadratic::getNormal` normalises. -/
def GeneralQuadratic.gradient (q : Quadric α) (p : Point3 α) : Point3 α :=
  ⟨2 * q.A * p.x + q.D * p.y + q.F * p.z + q.G,
   2 * q.B * p.y + q.D * p.x + q.E * p.z + q.H,
   2 * q.C * p.z + q.E * p.y + q.F * p.x + q.I⟩

/-- Non-degeneracy of a surface at the point `p`: a sphere has non-zero radius, a
quadric has a non-zero gradient vector at `p`; no condition for floor and triangle. -/
def Object.Regular (obj : Object α) (p : Point3 α) : Prop :=
  match obj with
  | .sphere o => o.length ≠ 0
  | .generalQuadratic _ q => (GeneralQuadratic.gradient q p).normSq ≠ 0
  | .floor _ _ _ _ => True
  | .triangle _ _ _ _ => True

/-! ## Example scenes -/

/-- Material used in the examples: white, `shine = 1`, all four coefficients
`1/4`, the default `source_factor = 1.0` and `refIdx = 1.5`. -/
def demoBase (reference_point : Point3 α) (length : α) : Base α :=
  ⟨reference_point, 0, 0, length, 1, 3 / 2, 1, ⟨1, 1, 1⟩, ⟨1 / 4, 1 / 4, 1 / 4, 1 / 4⟩⟩

/-- The quadric `x^2 + y^2 + z^2 - 4 = 0` (`A = B = C = 1`, `J = -4`). -/
def demoBall : Quadric α := ⟨1, 1, 1, 0, 0, 0, 0, 0, 0, -4⟩

/-- The cone `x^2 + y^2 - z^2 = 0` (`A = B = 1`, `C = -1`), apex at the origin. -/
def demoCone : Quadric α := ⟨1, 1, -1, 0, 0, 0, 0, 0, 0, 0⟩

/-- A floor of width 100 (anchor `(-50,-50,0)`), tiles of width 10, uniformly white
texture, `bdHeight = bdWidth = 1`. -/
def demoFloor : Object α :=
  .floor (demoBase ⟨-50, -50, 0⟩ 10) (fun _ _ => (255, 255, 255)) 1 1

/-- Environment of the examples; the uninitialised local arrays hold zeros. -/
def demoEnv (sqrt : α → α) (recursion_level : Int) (lights : List (Point3 α)) : Env α :=
  ⟨sqrt, recursion_level, lights, ⟨0, 0, 0⟩⟩

/-- The sphere of the spec's scenario 1: centre `(0,0,0)`, radius 10. -/
def demoSphere : Object α := .sphere (demoBase ⟨0, 0, 0⟩ 10)

/-- A sphere of radius 5 centred at `(0,0,50)`, between `demoSphere` and a light at
`(0,0,100)`. -/
def demoOccluder : Object α := .sphere (demoBase ⟨0, 0, 50⟩ 5)

/-- The camera ray of scenario 1: from `(0,0,200)` straight down the z-axis. -/
def demoRay : Ray α := ⟨⟨0, 0, 200⟩, ⟨0, 0, -1⟩⟩

/-! ## Vocabulary for the triangle determinant, the sphere quadratic and the clipping box -/

/-- The local `det = dotProduct(e1, crossProduct(ray->dir, e2))` of
`Triangle::getIntersectionT`. -/
def Triangle.det (a b c : Point3 α) (ray : Ray α) : α :=
  dotProduct (b.sub a) (crossProduct ray.dir (c.sub a))

/-- The local `a = dotProduct(ray->dir, ray->dir)` of `Sphere::getIntersectionT`. -/
def Sphere.coefA (ray : Ray α) : α := dotProduct ray.dir ray.dir

/-- The local `b = 2 * dotProduct(ray->dir, start)` of `Sphere::getIntersectionT`. -/
def Sphere.coefB (o : Base α) (ray : Ray α) : α :=
  2 * dotProduct ray.dir (ray.start.sub o.reference_point)

/-- The local `c = dotProduct(start, start) - length*length` of
`Sphere::getIntersectionT`. -/
def Sphere.coefC (o : Base α) (ray : Ray α) : α :=
  dotProduct (ray.start.sub o.reference_point) (ray.start.sub o.reference_point)
    - o.length * o.length

/-- The local `d = b*b - 4*a*c` of `Sphere::getIntersectionT`. -/
def Sphere.discr (o : Base α) (ray : Ray α) : α :=
  Sphere.coefB o ray * Sphere.coefB o ray - 4 * Sphere.coefA ray * Sphere.coefC o ray

/-- A quadric clipped to `[-3,3] x [-3,3] x [0,3]`: anchor `(-3,-3,0)`, `length = 6`,
`width = 6`, `height = 3`; material as in `demoBase`. -/
def demoBoxBase : Base α :=
  ⟨⟨-3, -3, 0⟩, 3, 6, 6, 1, 3 / 2, 1, ⟨1, 1, 1⟩, ⟨1 / 4, 1 / 4, 1 / 4, 1 / 4⟩⟩

/-- The point `p` lies in the clipping box of a quadric on every axis whose extent
(`length` for x, `width` for y, `height` for z) is positive. -/
def GeneralQuadratic.InBox (o : Base α) (p : Point3 α) : Prop :=
  (0 < o.length → o.reference_point.x ≤ p.x ∧ p.x ≤ o.reference_point.x + o.length) ∧
  (0 < o.width → o.reference_point.y ≤ p.y ∧ p.y ≤ o.reference_point.y + o.width) ∧
  (0 < o.height → o.reference_point.z ≤ p.z ∧ p.z ≤ o.reference_point.z + o.height)

/-! ## Vocabulary for the frame property of `intersect` -/

/-- Object `b` is object `a` up to the member `color` of a floor: either `b = a`, or
`a` is a floor and `b` is the same floor with `color` set to black `(0,0,0)` or
white `(1,1,1)`. -/
def Object.SameUpToFloorColor (a b : Object α) : Prop :=
  b = a ∨ ∃ (o : Base α) (bd : Int → Int → Fin 256 × Fin 256 × Fin 256) (bh bw : α)
    (c : Color α), a = .floor o bd bh bw ∧ (c = ⟨0, 0, 0⟩ ∨ c = ⟨1, 1, 1⟩) ∧
      b = .floor { o with color := c } bd bh bw

/-- The object is a `Floor`. -/
def Object.isFloor : Object α → Bool
  | .floor _ _ _ _ => true
  | _ => false

/-! ## The locals of one light iteration, by name -/

/-- The receiver as the light iteration reads it: `objects[idx]` in the current
state (its `color` may have been rewritten by a nested call). -/
def iterSelf (idx : Nat) (self0 : Object α) (st : LoopState α) : Object α :=
  (st.objects[idx]?).getD self0

/-- The local `dir` of the light iteration after `dir = dir.normalize()`. -/
def lightDir (sqrt : α → α) (p light : Point3 α) : Point3 α :=
  (light.sub p).normalize sqrt

/-- The local `len` of the light iteration: distance from the point to the light. -/
def lightLen (sqrt : α → α) (p light : Point3 α) : α :=
  sqrt ((light.sub p).x * (light.sub p).x + (light.sub p).y * (light.sub p).y
    + (light.sub p).z * (light.sub p).z)

/-- The shadow ray `Ray L(intersectionPoint + dir*1.0, dir)`. -/
def shadowRay (sqrt : α → α) (p light : Point3 α) : Ray α :=
  Ray.new sqrt (p.add ((lightDir sqrt p light).mul 1)) (lightDir sqrt p light)

/-- The normal used in the light iteration. -/
def iterNormal (env : Env α) (idx : Nat) (self0 : Object α) (p : Point3 α)
    (st : LoopState α) (light : Point3 α) : Point3 α :=
  (iterSelf idx self0 st).shadeNormal env.sqrt p (lightDir env.sqrt p light)

/-- The vector that `getReflection` normalises: `dir - normal * 2.0 * dot(dir, normal)`. -/
def reflectionVec (ray : Ray α) (normal : Point3 α) : Point3 α :=
  ray.dir.sub ((normal.mul 2).mul (dotProduct ray.dir normal))

/-- The radicand `k` of `getRefraction`. -/
def refractionK (refIdx : α) (ray : Ray α) (normal : Point3 α) : α :=
  1 - refIdx * refIdx * (1 - dotProduct normal ray.dir * dotProduct normal ray.dir)

/-- The vector that `getRefraction` normalises when `k >= 0`. -/
def refractionVec (sqrt : α → α) (refIdx : α) (ray : Ray α) (normal : Point3 α) : Point3 α :=
  (ray.dir.mul refIdx).sub
    (normal.mul (refIdx * dotProduct normal ray.dir + sqrt (refractionK refIdx ray normal)))

/-- The ray `Ray reflectionRay(intersectionPoint + reflection*1.0, reflection)`. -/
def reflectionRayOf (sqrt : α → α) (ray : Ray α) (normal p : Point3 α) : Ray α :=
  Ray.new sqrt (p.add ((getReflection sqrt ray normal).mul 1)) (getReflection sqrt ray normal)

/-- The ray `Ray refractionRay(intersectionPoint + refraction*1.0, refraction)`. -/
def refractionRayOf (sqrt : α → α) (refIdx : α) (ray : Ray α) (normal p : Point3 α) : Ray α :=
  Ray.new sqrt (p.add ((getRefraction sqrt refIdx ray normal).mul 1))
    (getRefraction sqrt refIdx ray normal)

/-- The loop state after the `if (flag)` block of the light iteration. -/
def iterLocal (env : Env α) (idx : Nat) (self0 : Object α) (ray : Ray α)
    (p : Point3 α) (st : LoopState α) (light : Point3 α) : LoopState α :=
  let normal := iterNormal env idx self0 p st light
  let L := shadowRay env.sqrt p light
  let reflection := getReflection env.sqrt ray normal
  if shadowFlag env.sqrt st.objects L (lightLen env.sqrt p light) then
    { st with color := addLocal (iterSelf idx self0 st).base L.dir normal reflection ray.dir st.color }
  else st

/-- The loop state after the reflection ray has been traced. -/
def iterReflect (env : Env α) (f : List (Object α) → Nat → Ray α → Result α) (idx : Nat)
    (self0 : Object α) (ray : Ray α) (level : Int) (p : Point3 α) (st : LoopState α)
    (light : Point3 α) : LoopState α :=
  traceSecondary env f level
    (reflectionRayOf env.sqrt ray (iterNormal env idx self0 p st light) p)
    (iterSelf idx self0 st).base.co_efficients.reflection
    (iterLocal env idx self0 ray p st light)

/-- The loop state after the refraction ray has been traced. -/
def iterRefract (env : Env α) (f : List (Object α) → Nat → Ray α → Result α) (idx : Nat)
    (self0 : Object α) (ray : Ray α) (level : Int) (p : Point3 α) (st : LoopState α)
    (light : Point3 α) : LoopState α :=
  traceSecondary env f level
    (refractionRayOf env.sqrt (iterSelf idx self0 st).base.refIdx ray
      (iterNormal env idx self0 p st light) p)
    (iterSelf idx self0 st).base.refIdx
    (iterReflect env f idx self0 ray level p st light)

/-- The diffuse term in the words of the specification:
`source_factor * max(0, lightDir . n) * diffuseCoeff * color[k]` with `lightDir` the
unit vector to the light and `n = getNormal(hit point)`. -/
def specDiffuseTerm (sqrt : α → α) (self : Object α) (p light : Point3 α) (colk : α) : α :=
  self.base.source_factor * max 0 (dotProduct (lightDir sqrt p light) (self.getNormal sqrt p))
    * self.base.co_efficients.diffuse * colk

/-- The specular term in the words of the specification:
`source_factor * (max(0, reflectionDir . rayDir))^shininess * specularCoeff * color[k]`. -/
def specSpecularTerm (o : Base α) (reflection rayDir : Point3 α) (colk : α) : α :=
  o.source_factor * (max 0 (dotProduct reflection rayDir)) ^ o.shine
    * o.co_efficients.specular * colk

/-- The object is a `Triangle`. -/
def Object.isTriangle : Object α → Bool
  | .triangle _ _ _ _ => true
  | _ => false

/-- The triangle `(0,0,0), (1,0,0), (0,1,0)` of scenario 2 with the material of
`demoBase`; `getNormal` gives `(0,0,1)`. -/
def demoTri : Object α := .triangle (demoBase ⟨0, 0, 0⟩ 0) ⟨0, 0, 0⟩ ⟨1, 0, 0⟩ ⟨0, 1, 0⟩

/-- The sphere of scenario 1 with `shine = 2`. -/
def demoShinySphere : Object α := .sphere { demoBase ⟨0, 0, 0⟩ 10 with shine := 2 }

/-! ## Vocabulary for the implicit surfaces -/

/-- The implicit equation of the general quadric, evaluated at `p`:
`A x^2 + B y^2 + C z^2 + D xy + E yz + F zx + G x + H y + I z + J`. -/
def GeneralQuadratic.surface (q : Quadric α) (p : Point3 α) : α :=
  q.A * p.x ^ 2 + q.B * p.y ^ 2 + q.C * p.z ^ 2 + q.D * p.x * p.y + q.E * p.y * p.z
    + q.F * p.z * p.x + q.G * p.x + q.H * p.y + q.I * p.z + q.J

/-- The second-order part of the quadric: `A x^2 + B y^2 + C z^2 + D xy + E yz + F zx`. -/
def GeneralQuadratic.quadForm (q : Quadric α) (h : Point3 α) : α :=
  q.A * h.x ^ 2 + q.B * h.y ^ 2 + q.C * h.z ^ 2 + q.D * h.x * h.y + q.E * h.y * h.z
    + q.F * h.z * h.x

/-! ## Vocabulary for the floor tiles -/

/-- The tile colour that `Floor::intersect` assigns to the member `color` for the
intersection point `p`: black when `xCord + yCord` is odd, white otherwise. -/
def Floor.tileColor (length : α) (p : Point3 α) : Color α :=
  let xCord := toInt (p.x / length)
  let yCord := toInt (p.y / length)
  if Int.tmod (xCord + yCord) 2 ≠ 0 then ⟨0, 0, 0⟩ else ⟨1, 1, 1⟩

/-! ## Vocabulary for the scene beside the floor -/

/-- A sphere of radius 10 centred at `(300,0,20)`: above the plane `z = 0`, beside
the square of `demoFloor`. -/
def demoFarSphere : Object α := .sphere (demoBase ⟨300, 0, 20⟩ 10)

/-- The camera ray from `(300,0,200)` straight down. -/
def demoFarRay : Ray α := ⟨⟨300, 0, 200⟩, ⟨0, 0, -1⟩⟩

/-- Environment with `recursion_level = 2`, one light at `(300,0,100)` and the
uninitialised local arrays holding `junk`. -/
def demoJunkEnv (sqrt : α → α) (junk : Color α) : Env α :=
  ⟨sqrt, 2, [⟨300, 0, 100⟩], junk⟩

/-- A material that shows what the secondary rays add: white, ambient `1/8`,
diffuse and specular `0`, reflection `1/2`, `refIdx = 1`. -/
def dimBase (reference_point : Point3 α) (length : α) : Base α :=
  ⟨reference_point, 0, 0, length, 1, 1, 1, ⟨1, 1, 1⟩, ⟨1 / 8, 0, 0, 1 / 2⟩⟩

/-- Three spheres of radius 10 on the z-axis, about `(0,0,0)`, `(0,0,60)` and
`(0,0,-50)`, with the material `dimBase`. -/
def dimScene : List (Object α) :=
  [.sphere (dimBase ⟨0, 0, 0⟩ 10), .sphere (dimBase ⟨0, 0, 60⟩ 10),
    .sphere (dimBase ⟨0, 0, -50⟩ 10)]

/-- The ray from `(0,0,20)` straight down onto the first sphere of `dimScene`. -/
def dimRay : Ray α := ⟨⟨0, 0, 20⟩, ⟨0, 0, -1⟩⟩

/-! ## Double arithmetic: `Sphere::getIntersectionT` with every operation rounded -/

/-- Nearest integer, ties to the even one. -/
def roundHalfEven (q : α) : Int :=
  let f := Int.floor q
  if q - f < 1 / 2 then f
  else if q - f > 1 / 2 then f + 1
  else if f % 2 = 0 then f else f + 1

/-- Rounding to IEEE 754 binary64, round to nearest, ties to even: the nearest
multiple of `2^(e-52)` for `2^e ≤ |x| < 2^(e+1)`.  The exponent range is not
bounded (no overflow, no subnormal numbers). -/
def roundDouble (x : α) : α :=
  if x = 0 then 0
  else
    let e := Int.log 2 |x|
    let ulp := (2 : α) ^ (e - 52)
    (roundHalfEven (x / ulp) : α) * ulp

/-- Source function `Object::dotProduct`, `a.x*b.x + a.y*b.y + a.z*b.z` with each
product and each sum rounded by `rnd`. -/
def dotProductRounded (rnd : α → α) (a b : Point3 α) : α :=
  rnd (rnd (rnd (a.x * b.x) + rnd (a.y * b.y)) + rnd (a.z * b.z))

/-- Source function `Point3::operator-`, each difference rounded by `rnd`. -/
def Point3.subRounded (rnd : α → α) (a b : Point3 α) : Point3 α :=
  ⟨rnd (a.x - b.x), rnd (a.y - b.y), rnd (a.z - b.z)⟩

/-- Source function `Point3::normalize`, `*this / sqrt(x*x + y*y + z*z)`, each
operation rounded by `rnd`. -/
def Point3.normalizeRounded (rnd sqrt : α → α) (p : Point3 α) : Point3 α :=
  let len := rnd (sqrt (rnd (rnd (rnd (p.x * p.x) + rnd (p.y * p.y)) + rnd (p.z * p.z))))
  ⟨rnd (p.x / len), rnd (p.y / len), rnd (p.z / len)⟩

/-- The constructor `Ray(Point3 start, Point3 dir)` with the normalisation rounded. -/
def Ray.newRounded (rnd sqrt : α → α) (start dir : Point3 α) : Ray α :=
  ⟨start, dir.normalizeRounded rnd sqrt⟩

/-- The local `a` of `Sphere::getIntersectionT` as computed with rounding. -/
def Sphere.coefARounded (rnd : α → α) (ray : Ray α) : α :=
  dotProductRounded rnd ray.dir ray.dir

/-- The local `b` of `Sphere::getIntersectionT` as computed with rounding. -/
def Sphere.coefBRounded (rnd : α → α) (o : Base α) (ray : Ray α) : α :=
  rnd (2 * dotProductRounded rnd ray.dir (ray.start.subRounded rnd o.reference_point))

/-- The local `c` of `Sphere::getIntersectionT` as computed with rounding. -/
def Sphere.coefCRounded (rnd : α → α) (o : Base α) (ray : Ray α) : α :=
  rnd (dotProductRounded rnd (ray.start.subRounded rnd o.reference_point)
      (ray.start.subRounded rnd o.reference_point)
    - rnd (o.length * o.length))

/-- The local `d = b*b - 4*a*c` of `Sphere::getIntersectionT` as computed with
rounding (`4*a*c` is `(4*a)*c`). -/
def Sphere.discrRounded (rnd : α → α) (o : Base α) (ray : Ray α) : α :=
  rnd (rnd (Sphere.coefBRounded rnd o ray * Sphere.coefBRounded rnd o ray)
    - rnd (rnd (4 * Sphere.coefARounded rnd ray) * Sphere.coefCRounded rnd o ray))

/-- Source function `Sphere::getIntersectionT` with the result of every arithmetic
operation rounded by `rnd`; with `rnd = id` it is `Sphere.getIntersectionT`, with
`rnd = roundDouble` it is the computation in `double`. -/
def Sphere.getIntersectionTRounded (rnd sqrt : α → α) (o : Base α) (ray : Ray α) : α :=
  let a := Sphere.coefARounded rnd ray
  let b := Sphere.coefBRounded rnd o ray
  let d := Sphere.discrRounded rnd o ray
  if d < 0 then -1
  else
    let t1 := rnd (rnd (-b + rnd (sqrt d)) / rnd (2 * a))
    let t2 := rnd (rnd (-b - rnd (sqrt d)) / rnd (2 * a))
    if t2 > t1 then t1 else t2

/-- The sphere of radius 13 about the origin. -/
def demoSphere13 : Base α := demoBase ⟨0, 0, 0⟩ 13

/-- The ray that the constructor stores for `Ray((7,0,17), (5,0,-12))` in `double`:
the direction is `(5/13, 0, -12/13)` rounded, which is `5m/2^54` and `-12m/2^54`
for `m = 1385722962267845`, so it is exactly parallel to `(5,0,-12)`; the line
touches the sphere of radius 13 about the origin at `(12,0,5)`. -/
def demoTangentRay : Ray α :=
  ⟨⟨7, 0, 17⟩, ⟨6928614811339225 / 2 ^ 54, 0, -(4157168886803535 / 2 ^ 52)⟩⟩

end Defs

/-! ## Auxiliary lemmas -/

theorem sqrt_of_sq {x y : ℝ} (hy : 0 ≤ y) (h : y * y = x) : Real.sqrt x = y := by
  rw [← h]; exact Real.sqrt_mul_self hy

theorem dot_self_nonneg (p : Point3 ℝ) : 0 ≤ dotProduct p p := by
  simp only [dotProduct]
  nlinarith [mul_self_nonneg p.x, mul_self_nonneg p.y, mul_self_nonneg p.z]

/-- Cramer's rule, one coordinate, with the quotients as the code writes them. -/
theorem cramer_coord (s d a e1 e2 det nt nu nv : ℝ) (h0 : det ≠ 0)
    (key : s * det + d * nt = a * det + e1 * nu + e2 * nv) :
    s + d * (nt * (1 / det)) = a + e1 * (nu * (1 / det)) + e2 * (nv * (1 / det)) := by
  field_simp
  linear_combination key

/-! ## C2: `Sphere::getIntersectionT` -/

/-- C2 (counterexample).  Sphere of radius 2 about the origin, ray from the centre
with direction `(0,0,1)`: the radius is positive, the direction is non-zero and the
quadratic `t^2 - 4` has the positive root 2, yet `Sphere::getIntersectionT` returns
`-2`, which is not the smallest positive root. -/
theorem c2_sphere_inside_origin_counterexample :
    (0 : ℝ) < (demoBase (⟨0, 0, 0⟩ : Point3 ℝ) 2).length ∧
    dotProduct (⟨0, 0, 1⟩ : Point3 ℝ) ⟨0, 0, 1⟩ ≠ 0 ∧
    (∃ s : ℝ, 0 < s ∧ Sphere.quadratic (demoBase ⟨0, 0, 0⟩ 2) ⟨⟨0, 0, 0⟩, ⟨0, 0, 1⟩⟩ s = 0) ∧
    Sphere.getIntersectionT Real.sqrt (demoBase (⟨0, 0, 0⟩ : Point3 ℝ) 2)
      ⟨⟨0, 0, 0⟩, ⟨0, 0, 1⟩⟩ = -2 ∧
    ¬ IsSmallestPositiveRoot
        (Sphere.quadratic (demoBase (⟨0, 0, 0⟩ : Point3 ℝ) 2) ⟨⟨0, 0, 0⟩, ⟨0, 0, 1⟩⟩)
        (Sphere.getIntersectionT Real.sqrt (demoBase (⟨0, 0, 0⟩ : Point3 ℝ) 2)
          ⟨⟨0, 0, 0⟩, ⟨0, 0, 1⟩⟩) := by
  have h16 : Real.sqrt 16 = 4 := sqrt_of_sq (by norm_num) (by norm_num)
  have hval : Sphere.getIntersectionT Real.sqrt (demoBase (⟨0, 0, 0⟩ : Point3 ℝ) 2)
      ⟨⟨0, 0, 0⟩, ⟨0, 0, 1⟩⟩ = -2 := by
    simp only [Sphere.getIntersectionT, demoBase, dotProduct, Point3.sub]
    norm_num [h16]
  refine ⟨by simp only [demoBase]; norm_num, by simp only [dotProduct]; norm_num,
    ⟨2, by norm_num, by simp only [Sphere.quadratic, demoBase, dotProduct, Point3.sub]; norm_num⟩,
    hval, ?_⟩
  rw [hval]
  intro h
  have := h.1
  norm_num at this

/-- C2 (amended).  For every sphere and every ray with non-zero direction whose
quadratic has a real root, `Sphere::getIntersectionT` returns the smaller of the two
roots: the value is a root, no root is smaller, and whenever it is positive it is
the smallest positive root. -/
theorem c2_sphere_returns_smaller_root (o : Base ℝ) (ray : Ray ℝ)
    (hdir : dotProduct ray.dir ray.dir ≠ 0)
    (hroot : ∃ s, Sphere.quadratic o ray s = 0) :
    Sphere.quadratic o ray (Sphere.getIntersectionT Real.sqrt o ray) = 0 ∧
    (∀ s, Sphere.quadratic o ray s = 0 → Sphere.getIntersectionT Real.sqrt o ray ≤ s) ∧
    (0 < Sphere.getIntersectionT Real.sqrt o ray →
      IsSmallestPositiveRoot (Sphere.quadratic o ray)
        (Sphere.getIntersectionT Real.sqrt o ray)) := by
  have main : Sphere.quadratic o ray (Sphere.getIntersectionT Real.sqrt o ray) = 0 ∧
      (∀ s, Sphere.quadratic o ray s = 0 → Sphere.getIntersectionT Real.sqrt o ray ≤ s) := by
    obtain ⟨s0, hs0⟩ := hroot
    simp only [Sphere.quadratic] at hs0 ⊢
    simp only [Sphere.getIntersectionT]
    set a := dotProduct ray.dir ray.dir with ha
    set b := 2 * dotProduct ray.dir (ray.start.sub o.reference_point) with hb
    set c := dotProduct (ray.start.sub o.reference_point) (ray.start.sub o.reference_point)
      - o.length * o.length with hc
    have hapos : 0 < a := lt_of_le_of_ne (dot_self_nonneg ray.dir) (Ne.symm hdir)
    have hd : 0 ≤ b * b - 4 * a * c := by
      have : b * b - 4 * a * c = (2 * a * s0 + b) ^ 2 := by linear_combination (-4 * a) * hs0
      rw [this]; positivity
    have hsq := Real.mul_self_sqrt hd
    have hs := Real.sqrt_nonneg (b * b - 4 * a * c)
    set sd := Real.sqrt (b * b - 4 * a * c) with hsd
    have hle : (-b - sd) / (2 * a) ≤ (-b + sd) / (2 * a) := by
      apply div_le_div_of_nonneg_right _ (by positivity)
      linarith
    rw [if_neg (not_lt.mpr hd), if_neg (not_lt.mpr hle)]
    constructor
    · field_simp
      nlinarith [hsq]
    · intro s hs'
      rw [div_le_iff₀ (by positivity)]
      have h1 : (2 * a * s + b) ^ 2 = sd * sd := by
        rw [hsq]; linear_combination (4 * a) * hs'
      nlinarith [abs_le_of_sq_le_sq' (by nlinarith : (2 * a * s + b) ^ 2 ≤ sd ^ 2) hs]
  exact ⟨main.1, main.2, fun hpos => ⟨hpos, main.1, fun s _ hs => main.2 s hs⟩⟩

/-- C2 (witness): the sphere of radius 10 about the origin and the ray from
`(0,0,200)` with direction `(0,0,-1)`; the quadratic has the root 190. -/
theorem c2_sphere_returns_smaller_root_witness :
    Sphere.quadratic (demoBase (⟨0, 0, 0⟩ : Point3 ℝ) 10) ⟨⟨0, 0, 200⟩, ⟨0, 0, -1⟩⟩
      (Sphere.getIntersectionT Real.sqrt (demoBase (⟨0, 0, 0⟩ : Point3 ℝ) 10)
        ⟨⟨0, 0, 200⟩, ⟨0, 0, -1⟩⟩) = 0 :=
  (c2_sphere_returns_smaller_root (demoBase ⟨0, 0, 0⟩ 10) ⟨⟨0, 0, 200⟩, ⟨0, 0, -1⟩⟩
    (by simp only [dotProduct]; norm_num)
    ⟨190, by simp only [Sphere.quadratic, demoBase, dotProduct, Point3.sub]; norm_num⟩).1

/-! ## C3: `Triangle::getIntersectionT` -/

/-- C3.  Whenever `Triangle::getIntersectionT` returns a value other than `-1`,
that value `t` is positive and `start + t*dir = a + u*(b-a) + v*(c-a)` for the
barycentric coordinates `u, v` the code computed, with `u ≥ 0`, `v ≥ 0`,
`u + v ≤ 1`; and for the triangle `(0,0,0),(1,0,0),(0,1,0)` with the ray from
`(0.25,0.25,1)` in direction `(0,0,-1)` it returns `t = 1` with `u = v = 0.25`. -/
theorem c3_triangle_hit_inside :
    (∀ (a b c : Point3 ℝ) (ray : Ray ℝ), Triangle.getIntersectionT a b c ray ≠ -1 →
      0 < Triangle.getIntersectionT a b c ray ∧
      0 ≤ Triangle.baryU a b c ray ∧ 0 ≤ Triangle.baryV a b c ray ∧
      Triangle.baryU a b c ray + Triangle.baryV a b c ray ≤ 1 ∧
      ray.at (Triangle.getIntersectionT a b c ray) =
        (a.add ((b.sub a).mul (Triangle.baryU a b c ray))).add
          ((c.sub a).mul (Triangle.baryV a b c ray))) ∧
    (Triangle.getIntersectionT (⟨0, 0, 0⟩ : Point3 ℝ) ⟨1, 0, 0⟩ ⟨0, 1, 0⟩
        (Ray.new Real.sqrt ⟨1 / 4, 1 / 4, 1⟩ ⟨0, 0, -1⟩) = 1 ∧
      Triangle.baryU (⟨0, 0, 0⟩ : Point3 ℝ) ⟨1, 0, 0⟩ ⟨0, 1, 0⟩
        (Ray.new Real.sqrt ⟨1 / 4, 1 / 4, 1⟩ ⟨0, 0, -1⟩) = 1 / 4 ∧
      Triangle.baryV (⟨0, 0, 0⟩ : Point3 ℝ) ⟨1, 0, 0⟩ ⟨0, 1, 0⟩
        (Ray.new Real.sqrt ⟨1 / 4, 1 / 4, 1⟩ ⟨0, 0, -1⟩) = 1 / 4) := by
  constructor
  · intro a b c ray h
    simp only [Triangle.getIntersectionT, Triangle.baryU, Triangle.baryV, Ray.at] at h ⊢
    split_ifs at h ⊢ with h1 h2 h3 h4
    · exact absurd rfl h
    · exact absurd rfl h
    · exact absurd rfl h
    · have hdet0 : dotProduct (b.sub a) (crossProduct ray.dir (c.sub a)) ≠ 0 := by
        intro h0
        apply h1
        rw [h0]
        simp only [EPSILON]
        constructor <;> norm_num
      push_neg at h2 h3
      have hE : (0 : ℝ) < EPSILON := by simp only [EPSILON]; norm_num
      refine ⟨lt_trans hE h4, h2.1, h3.1, h3.2, ?_⟩
      simp only [Point3.add, Point3.mul, Point3.mk.injEq]
      refine ⟨?_, ?_, ?_⟩
      · apply cramer_coord _ _ _ _ _ _ _ _ _ hdet0
        simp only [dotProduct, crossProduct, Point3.sub]
        ring
      · apply cramer_coord _ _ _ _ _ _ _ _ _ hdet0
        simp only [dotProduct, crossProduct, Point3.sub]
        ring
      · apply cramer_coord _ _ _ _ _ _ _ _ _ hdet0
        simp only [dotProduct, crossProduct, Point3.sub]
        ring
    · exact absurd rfl h
  · simp only [Triangle.getIntersectionT, Triangle.baryU, Triangle.baryV, Ray.new,
      Point3.normalize, Point3.div, dotProduct, crossProduct, Point3.sub, EPSILON]
    norm_num

/-- C3 (witness): the general part applied to the triangle and ray of scenario 2. -/
theorem c3_triangle_hit_inside_witness :
    0 < Triangle.getIntersectionT (⟨0, 0, 0⟩ : Point3 ℝ) ⟨1, 0, 0⟩ ⟨0, 1, 0⟩
        (Ray.new Real.sqrt ⟨1 / 4, 1 / 4, 1⟩ ⟨0, 0, -1⟩) :=
  (c3_triangle_hit_inside.1 ⟨0, 0, 0⟩ ⟨1, 0, 0⟩ ⟨0, 1, 0⟩
    (Ray.new Real.sqrt ⟨1 / 4, 1 / 4, 1⟩ ⟨0, 0, -1⟩)
    (by rw [c3_triangle_hit_inside.2.1]; norm_num)).1


/-! ## C4: `GeneralQuadratic::getIntersectionT` -/

/-- The result of `GeneralQuadratic::getIntersectionT` when `d ≥ 0`, in terms of the
locals `t1`, `t2` and the two clipping flags. -/
theorem quadric_getIntersectionT_eq (o : Base ℝ) (q : Quadric ℝ) (ray : Ray ℝ)
    (hd : 0 ≤ GeneralQuadratic.discr q ray) :
    GeneralQuadratic.getIntersectionT Real.sqrt o q ray =
      if GeneralQuadratic.outsideBox o (ray.at (GeneralQuadratic.t1 Real.sqrt q ray)) &&
         GeneralQuadratic.outsideBox o (ray.at (GeneralQuadratic.t2 Real.sqrt q ray)) then -1
      else if GeneralQuadratic.outsideBox o (ray.at (GeneralQuadratic.t1 Real.sqrt q ray)) then
        GeneralQuadratic.t2 Real.sqrt q ray
      else if GeneralQuadratic.outsideBox o (ray.at (GeneralQuadratic.t2 Real.sqrt q ray)) then
        GeneralQuadratic.t1 Real.sqrt q ray
      else min (GeneralQuadratic.t1 Real.sqrt q ray) (GeneralQuadratic.t2 Real.sqrt q ray) := by
  simp only [GeneralQuadratic.discr] at hd
  simp only [GeneralQuadratic.getIntersectionT, GeneralQuadratic.t1, GeneralQuadratic.t2,
    GeneralQuadratic.discr, Ray.at, if_neg (not_lt.mpr hd)]
  split_ifs with h1 h2 h3 h4
  · rfl
  · rfl
  · rfl
  · exact (min_eq_left (le_of_lt h4)).symm
  · exact (min_eq_right (not_lt.mp h4)).symm

/-- With `a ≠ 0` and `d ≥ 0` the quadratic factors through `t1` and `t2`. -/
theorem quadric_roots (q : Quadric ℝ) (ray : Ray ℝ)
    (ha : GeneralQuadratic.coefA q ray ≠ 0) (hd : 0 ≤ GeneralQuadratic.discr q ray) (s : ℝ) :
    GeneralQuadratic.quadratic q ray s =
      GeneralQuadratic.coefA q ray * ((s - GeneralQuadratic.t1 Real.sqrt q ray)
        * (s - GeneralQuadratic.t2 Real.sqrt q ray)) := by
  have hsq := Real.mul_self_sqrt hd
  simp only [GeneralQuadratic.quadratic, GeneralQuadratic.t1, GeneralQuadratic.t2]
  simp only [GeneralQuadratic.discr] at hsq ⊢
  set a := GeneralQuadratic.coefA q ray
  set b := GeneralQuadratic.coefB q ray
  set c := GeneralQuadratic.coefC q ray
  set sd := Real.sqrt (b * b - 4 * a * c)
  field_simp
  linear_combination a * hsq


/-- C4 (counterexample).  The quadric `x^2+y^2+z^2-4 = 0` without clipping box
(all extents 0) and the ray from the origin with direction `(0,0,1)`: `a = 1 ≠ 0`,
`d = 16 ≥ 0`, both roots `2` and `-2` give points that pass the box test, the
positive root `2` exists, and `getIntersectionT` returns `-2`, which is not the
smaller positive root. -/
theorem c4_quadric_inside_origin_counterexample :
    GeneralQuadratic.coefA (demoBall : Quadric ℝ) ⟨⟨0, 0, 0⟩, ⟨0, 0, 1⟩⟩ ≠ 0 ∧
    0 ≤ GeneralQuadratic.discr (demoBall : Quadric ℝ) ⟨⟨0, 0, 0⟩, ⟨0, 0, 1⟩⟩ ∧
    GeneralQuadratic.outsideBox (demoBase (⟨0, 0, 0⟩ : Point3 ℝ) 0)
      (Ray.at ⟨⟨0, 0, 0⟩, ⟨0, 0, 1⟩⟩
        (GeneralQuadratic.t1 Real.sqrt demoBall ⟨⟨0, 0, 0⟩, ⟨0, 0, 1⟩⟩)) = false ∧
    GeneralQuadratic.outsideBox (demoBase (⟨0, 0, 0⟩ : Point3 ℝ) 0)
      (Ray.at ⟨⟨0, 0, 0⟩, ⟨0, 0, 1⟩⟩
        (GeneralQuadratic.t2 Real.sqrt demoBall ⟨⟨0, 0, 0⟩, ⟨0, 0, 1⟩⟩)) = false ∧
    (∃ s : ℝ, 0 < s ∧ GeneralQuadratic.quadratic demoBall ⟨⟨0, 0, 0⟩, ⟨0, 0, 1⟩⟩ s = 0) ∧
    GeneralQuadratic.getIntersectionT Real.sqrt (demoBase (⟨0, 0, 0⟩ : Point3 ℝ) 0) demoBall
      ⟨⟨0, 0, 0⟩, ⟨0, 0, 1⟩⟩ = -2 ∧
    ¬ IsSmallestPositiveRoot
        (GeneralQuadratic.quadratic (demoBall : Quadric ℝ) ⟨⟨0, 0, 0⟩, ⟨0, 0, 1⟩⟩)
        (GeneralQuadratic.getIntersectionT Real.sqrt (demoBase (⟨0, 0, 0⟩ : Point3 ℝ) 0)
          demoBall ⟨⟨0, 0, 0⟩, ⟨0, 0, 1⟩⟩) := by
  have h16 : Real.sqrt 16 = 4 := sqrt_of_sq (by norm_num) (by norm_num)
  have hval : GeneralQuadratic.getIntersectionT Real.sqrt (demoBase (⟨0, 0, 0⟩ : Point3 ℝ) 0)
      demoBall ⟨⟨0, 0, 0⟩, ⟨0, 0, 1⟩⟩ = -2 := by
    simp only [GeneralQuadratic.getIntersectionT, GeneralQuadratic.coefA,
      GeneralQuadratic.coefB, GeneralQuadratic.coefC, GeneralQuadratic.outsideBox, demoBall,
      demoBase, Point3.add, Point3.mul]
    norm_num [h16]
  refine ⟨?_, ?_, ?_, ?_, ⟨2, by norm_num, ?_⟩, hval, ?_⟩
  · simp only [GeneralQuadratic.coefA, demoBall]; norm_num
  · simp only [GeneralQuadratic.discr, GeneralQuadratic.coefA, GeneralQuadratic.coefB,
      GeneralQuadratic.coefC, demoBall]; norm_num
  · simp only [GeneralQuadratic.outsideBox, demoBase]; norm_num
  · simp only [GeneralQuadratic.outsideBox, demoBase]; norm_num
  · simp only [GeneralQuadratic.quadratic, GeneralQuadratic.coefA, GeneralQuadratic.coefB,
      GeneralQuadratic.coefC, demoBall]; norm_num
  · rw [hval]
    intro h
    have := h.1
    norm_num at this


/-- C4 (amended).  With `a ≠ 0` and `d ≥ 0`: when both roots pass the box test the
result is the smaller of the two roots `min t1 t2` (which is the smallest positive
root of the quadratic whenever it is positive); when exactly one root passes, the
result is that root; when neither passes, the result is `-1`. -/
theorem c4_quadric_root_selection (o : Base ℝ) (q : Quadric ℝ) (ray : Ray ℝ)
    (ha : GeneralQuadratic.coefA q ray ≠ 0) (hd : 0 ≤ GeneralQuadratic.discr q ray) :
    (GeneralQuadratic.outsideBox o (ray.at (GeneralQuadratic.t1 Real.sqrt q ray)) = false →
      GeneralQuadratic.outsideBox o (ray.at (GeneralQuadratic.t2 Real.sqrt q ray)) = false →
      GeneralQuadratic.getIntersectionT Real.sqrt o q ray =
          min (GeneralQuadratic.t1 Real.sqrt q ray) (GeneralQuadratic.t2 Real.sqrt q ray) ∧
        (0 < GeneralQuadratic.getIntersectionT Real.sqrt o q ray →
          IsSmallestPositiveRoot (GeneralQuadratic.quadratic q ray)
            (GeneralQuadratic.getIntersectionT Real.sqrt o q ray))) ∧
    (GeneralQuadratic.outsideBox o (ray.at (GeneralQuadratic.t1 Real.sqrt q ray)) = false →
      GeneralQuadratic.outsideBox o (ray.at (GeneralQuadratic.t2 Real.sqrt q ray)) = true →
      GeneralQuadratic.getIntersectionT Real.sqrt o q ray = GeneralQuadratic.t1 Real.sqrt q ray) ∧
    (GeneralQuadratic.outsideBox o (ray.at (GeneralQuadratic.t1 Real.sqrt q ray)) = true →
      GeneralQuadratic.outsideBox o (ray.at (GeneralQuadratic.t2 Real.sqrt q ray)) = false →
      GeneralQuadratic.getIntersectionT Real.sqrt o q ray = GeneralQuadratic.t2 Real.sqrt q ray) ∧
    (GeneralQuadratic.outsideBox o (ray.at (GeneralQuadratic.t1 Real.sqrt q ray)) = true →
      GeneralQuadratic.outsideBox o (ray.at (GeneralQuadratic.t2 Real.sqrt q ray)) = true →
      GeneralQuadratic.getIntersectionT Real.sqrt o q ray = -1) := by
  rw [quadric_getIntersectionT_eq o q ray hd]
  refine ⟨fun h1 h2 => ?_, fun h1 h2 => ?_, fun h1 h2 => ?_, fun h1 h2 => ?_⟩
  · simp only [h1, h2, Bool.and_self, Bool.false_eq_true, if_false]
    refine ⟨trivial, fun hpos => ⟨hpos, ?_, fun s hs0 hs => ?_⟩⟩
    · rw [quadric_roots q ray ha hd]
      rcases min_choice (GeneralQuadratic.t1 Real.sqrt q ray) (GeneralQuadratic.t2 Real.sqrt q ray)
        with h | h <;> rw [h] <;> simp
    · rw [quadric_roots q ray ha hd] at hs
      rcases mul_eq_zero.mp hs with h | h
      · exact absurd h ha
      · rcases mul_eq_zero.mp h with h | h
        · rw [sub_eq_zero.mp h]; exact min_le_left _ _
        · rw [sub_eq_zero.mp h]; exact min_le_right _ _
  · simp [h1, h2]
  · simp [h1, h2]
  · simp [h1, h2]


/-- C4 (witness): the quadric `x^2+y^2+z^2-4 = 0` without clipping box and the
ray from `(0,0,5)` with direction `(0,0,-1)`; both roots pass the box test. -/
theorem c4_quadric_root_selection_witness :
    GeneralQuadratic.getIntersectionT Real.sqrt (demoBase (⟨0, 0, 0⟩ : Point3 ℝ) 0) demoBall
        ⟨⟨0, 0, 5⟩, ⟨0, 0, -1⟩⟩ =
      min (GeneralQuadratic.t1 Real.sqrt demoBall ⟨⟨0, 0, 5⟩, ⟨0, 0, -1⟩⟩)
        (GeneralQuadratic.t2 Real.sqrt demoBall ⟨⟨0, 0, 5⟩, ⟨0, 0, -1⟩⟩) :=
  ((c4_quadric_root_selection (demoBase ⟨0, 0, 0⟩ 0) demoBall ⟨⟨0, 0, 5⟩, ⟨0, 0, -1⟩⟩
    (by simp only [GeneralQuadratic.coefA, demoBall]; norm_num)
    (by simp only [GeneralQuadratic.discr, GeneralQuadratic.coefA, GeneralQuadratic.coefB,
      GeneralQuadratic.coefC, demoBall]; norm_num)).1
    (by simp only [GeneralQuadratic.outsideBox, demoBase]; norm_num)
    (by simp only [GeneralQuadratic.outsideBox, demoBase]; norm_num)).1

/-! ## C6: the nearest-hit loop -/

/-- Invariant of the nearest-hit loop started at index `k` in state `(n, m)`. -/
theorem scanFrom_spec (ts : List ℝ) : ∀ (k : Nat) (n : Int) (m : ℝ),
    (scanFrom ts k (n, m) = (n, m) ∧ ∀ (i : Nat) (t : ℝ), ts[i]? = some t → 0 < t → m ≤ t) ∨
    (∃ (j : Nat) (t : ℝ), ts[j]? = some t ∧ scanFrom ts k (n, m) = (((k + j : Nat) : Int), t) ∧ 0 < t ∧ t < m ∧
      (∀ (i : Nat) (u : ℝ), ts[i]? = some u → 0 < u → t ≤ u) ∧
      (∀ (i : Nat) (u : ℝ), i < j → ts[i]? = some u → 0 < u → t < u)) := by
  induction ts with
  | nil =>
    intro k n m
    left
    exact ⟨rfl, fun i t h => by simp at h⟩
  | cons t ts ih =>
    intro k n m
    simp only [scanFrom, scanStep]
    by_cases h0 : t ≤ 0
    · rw [if_pos h0]
      rcases ih (k + 1) n m with ⟨he, hall⟩ | ⟨j, u, hj, he, hu0, hum, hmin, hfirst⟩
      · left
        refine ⟨he, fun i v hi hv => ?_⟩
        cases i with
        | zero =>
          simp only [List.getElem?_cons_zero, Option.some.injEq] at hi
          rw [← hi] at hv
          exact absurd hv (not_lt.mpr h0)
        | succ i =>
          simp only [List.getElem?_cons_succ] at hi
          exact hall i v hi hv
      · right
        refine ⟨j + 1, u, by simpa using hj, ?_, hu0, hum, fun i v hi hv => ?_,
          fun i v hij hi hv => ?_⟩
        · rw [he]; congr 1; push_cast; ring
        · cases i with
          | zero =>
            simp only [List.getElem?_cons_zero, Option.some.injEq] at hi
            rw [← hi] at hv
            exact absurd hv (not_lt.mpr h0)
          | succ i =>
            simp only [List.getElem?_cons_succ] at hi
            exact hmin i v hi hv
        · cases i with
          | zero =>
            simp only [List.getElem?_cons_zero, Option.some.injEq] at hi
            rw [← hi] at hv
            exact absurd hv (not_lt.mpr h0)
          | succ i =>
            simp only [List.getElem?_cons_succ] at hi
            exact hfirst i v (by omega) hi hv
    · rw [if_neg h0]
      push_neg at h0
      by_cases h1 : t < m
      · rw [if_pos h1]
        rcases ih (k + 1) (k : Int) t with ⟨he, hall⟩ | ⟨j, u, hj, he, hu0, hum, hmin, hfirst⟩
        · right
          refine ⟨0, t, by simp, ?_, h0, h1, fun i v hi hv => ?_, fun i v hij _ _ => by omega⟩
          · rw [he]; simp
          · cases i with
            | zero =>
              simp only [List.getElem?_cons_zero, Option.some.injEq] at hi
              rw [hi]
            | succ i =>
              simp only [List.getElem?_cons_succ] at hi
              exact hall i v hi hv
        · right
          refine ⟨j + 1, u, by simpa using hj, ?_, hu0, lt_trans hum h1, fun i v hi hv => ?_,
            fun i v hij hi hv => ?_⟩
          · rw [he]; congr 1; push_cast; ring
          · cases i with
            | zero =>
              simp only [List.getElem?_cons_zero, Option.some.injEq] at hi
              rw [← hi]; exact le_of_lt hum
            | succ i =>
              simp only [List.getElem?_cons_succ] at hi
              exact hmin i v hi hv
          · cases i with
            | zero =>
              simp only [List.getElem?_cons_zero, Option.some.injEq] at hi
              rw [← hi]; exact hum
            | succ i =>
              simp only [List.getElem?_cons_succ] at hi
              exact hfirst i v (by omega) hi hv
      · rw [if_neg h1]
        push_neg at h1
        rcases ih (k + 1) n m with ⟨he, hall⟩ | ⟨j, u, hj, he, hu0, hum, hmin, hfirst⟩
        · left
          refine ⟨he, fun i v hi hv => ?_⟩
          cases i with
          | zero =>
            simp only [List.getElem?_cons_zero, Option.some.injEq] at hi
            rw [← hi]; exact h1
          | succ i =>
            simp only [List.getElem?_cons_succ] at hi
            exact hall i v hi hv
        · right
          refine ⟨j + 1, u, by simpa using hj, ?_, hu0, hum, fun i v hi hv => ?_,
            fun i v hij hi hv => ?_⟩
          · rw [he]; congr 1; push_cast; ring
          · cases i with
            | zero =>
              simp only [List.getElem?_cons_zero, Option.some.injEq] at hi
              rw [← hi]; exact le_trans (le_of_lt hum) h1
            | succ i =>
              simp only [List.getElem?_cons_succ] at hi
              exact hmin i v hi hv
          · cases i with
            | zero =>
              simp only [List.getElem?_cons_zero, Option.some.injEq] at hi
              rw [← hi]; exact lt_of_lt_of_le hum h1
            | succ i =>
              simp only [List.getElem?_cons_succ] at hi
              exact hfirst i v (by omega) hi hv


/-- C6 (counterexample).  Scene holding one floor, ray from `(0,0,10000000)` with
direction `(0,0,-1)`: the floor has the positive parameter `10000000`, but the loop
starts from `minT = 9999999` and selects no object (`nearest = -1`). -/
theorem c6_far_hit_not_selected_counterexample :
    0 < (demoFloor : Object ℝ).getIntersectionT Real.sqrt
        (Ray.new Real.sqrt ⟨0, 0, 10000000⟩ ⟨0, 0, -1⟩) ∧
    (nearestHit Real.sqrt [(demoFloor : Object ℝ)]
      (Ray.new Real.sqrt ⟨0, 0, 10000000⟩ ⟨0, 0, -1⟩)).1 = -1 := by
  have hT : (demoFloor : Object ℝ).getIntersectionT Real.sqrt
      (Ray.new Real.sqrt ⟨0, 0, 10000000⟩ ⟨0, 0, -1⟩) = 10000000 := by
    simp only [demoFloor, Object.getIntersectionT, Floor.getIntersectionT, Floor.getNormal,
      Ray.new, Point3.normalize, Point3.div, dotProduct, demoBase]
    norm_num
  refine ⟨by rw [hT]; norm_num, ?_⟩
  simp only [nearestHit, List.map, hT, scanNearest, scanFrom, scanStep]
  norm_num


/-- C6 (amended).  For every object list and ray, the nearest-hit loop selects no
object (`nearest = -1`) exactly when no object has a parameter in `(0, 9999999)`;
otherwise `nearest` is the index `k` of an object whose parameter is positive, below
`9999999`, equal to the final `minT`, not larger than any positive parameter in
the list, and strictly smaller than every positive parameter at a lower index (the
first of equal minima is kept; parameters `≤ 0` are never selected). -/
theorem c6_nearest_scan (objs : List (Object ℝ)) (ray : Ray ℝ) :
    ((nearestHit Real.sqrt objs ray).1 = -1 ↔
      ∀ obj ∈ objs, ¬ (0 < obj.getIntersectionT Real.sqrt ray ∧
        obj.getIntersectionT Real.sqrt ray < 9999999)) ∧
    ((nearestHit Real.sqrt objs ray).1 ≠ -1 →
      ∃ (k : Nat) (obj : Object ℝ), (nearestHit Real.sqrt objs ray).1 = (k : Int) ∧
        objs[k]? = some obj ∧
        (nearestHit Real.sqrt objs ray).2 = obj.getIntersectionT Real.sqrt ray ∧
        0 < obj.getIntersectionT Real.sqrt ray ∧
        obj.getIntersectionT Real.sqrt ray < 9999999 ∧
        (∀ (i : Nat) (o : Object ℝ), objs[i]? = some o → 0 < o.getIntersectionT Real.sqrt ray →
          obj.getIntersectionT Real.sqrt ray ≤ o.getIntersectionT Real.sqrt ray) ∧
        (∀ (i : Nat) (o : Object ℝ), i < k → objs[i]? = some o →
          0 < o.getIntersectionT Real.sqrt ray →
          obj.getIntersectionT Real.sqrt ray < o.getIntersectionT Real.sqrt ray)) := by
  have hmap : ∀ (i : Nat) (u : ℝ),
      (objs.map (fun obj => obj.getIntersectionT Real.sqrt ray))[i]? = some u ↔
      ∃ o, objs[i]? = some o ∧ o.getIntersectionT Real.sqrt ray = u := by
    intro i u
    simp only [List.getElem?_map, Option.map_eq_some']
  simp only [nearestHit, scanNearest]
  rcases scanFrom_spec (objs.map (fun obj => obj.getIntersectionT Real.sqrt ray)) 0 (-1) 9999999
    with ⟨he, hall⟩ | ⟨j, t, hj, he, ht0, htm, hmin, hfirst⟩
  · rw [he]
    refine ⟨⟨fun _ obj hobj hcon => ?_, fun _ => rfl⟩, fun h => absurd rfl h⟩
    obtain ⟨i, hi⟩ := List.getElem?_of_mem hobj
    have := hall i _ ((hmap i _).mpr ⟨obj, hi, rfl⟩) hcon.1
    linarith [hcon.2]
  · rw [he]
    obtain ⟨obj, hobj, hT⟩ := (hmap j t).mp hj
    simp only [Nat.zero_add]
    refine ⟨⟨fun h => ?_, fun h => ?_⟩, fun _ => ⟨j, obj, rfl, hobj, hT.symm, hT ▸ ht0, hT ▸ htm,
      fun i o hi ho => ?_, fun i o hij hi ho => ?_⟩⟩
    · omega
    · exact absurd ⟨hT ▸ ht0, hT ▸ htm⟩ (h obj (List.getElem?_mem hobj))
    · rw [hT]; exact hmin i _ ((hmap i _).mpr ⟨o, hi, rfl⟩) ho
    · rw [hT]; exact hfirst i _ hij ((hmap i _).mpr ⟨o, hi, rfl⟩) ho


/-! ## Structure of `intersect` -/

/-- Unfolding of `intersect`. -/
theorem intersect_eq (env : Env ℝ) (objs : List (Object ℝ)) (idx : Nat) (ray : Ray ℝ)
    (cur : Color ℝ) (level : Int) :
    intersect env objs idx ray cur level =
      match objs[idx]? with
      | none => ⟨-1, cur, objs, level, []⟩
      | some self =>
        match self.enter env.sqrt ray level with
        | .ret t => ⟨t, cur, objs, level, []⟩
        | .shade t p self0 color0 =>
          ⟨t, (lightLoop env idx self0 ray level p ⟨color0, objs.set idx self0, []⟩).color,
            (lightLoop env idx self0 ray level p ⟨color0, objs.set idx self0, []⟩).objects,
            level,
            (lightLoop env idx self0 ray level p ⟨color0, objs.set idx self0, []⟩).calls⟩ := by
  rw [intersect]
  have hrec : (if _h : level < env.recursion_level then
        some (fun os k r => intersect env os k r env.junk (level + 1)) else none)
      = recurOf env level := by
    simp only [recurOf]
    split <;> rfl
  simp only [hrec, lightLoop]
  cases objs[idx]? with
  | none => rfl
  | some self =>
    simp only []
    cases self.enter env.sqrt ray level <;> rfl

theorem intersect_level (env : Env ℝ) (objs : List (Object ℝ)) (idx : Nat) (ray : Ray ℝ)
    (cur : Color ℝ) (level : Int) : (intersect env objs idx ray cur level).level = level := by
  rw [intersect_eq]
  split
  · rfl
  · split <;> rfl

theorem intersect_t (env : Env ℝ) (objs : List (Object ℝ)) (idx : Nat) (ray : Ray ℝ)
    (cur : Color ℝ) (level : Int) :
    (intersect env objs idx ray cur level).t =
      match objs[idx]? with
      | none => -1
      | some self => (self.enter env.sqrt ray level).t := by
  rw [intersect_eq]
  split
  · rfl
  · split <;> simp only [Entry.t, *]

theorem lightLoop_single (env : Env ℝ) (idx : Nat) (self0 : Object ℝ) (ray : Ray ℝ)
    (level : Int) (p : Point3 ℝ) (st : LoopState ℝ) (light : Point3 ℝ)
    (hl : env.lights = [light]) :
    lightLoop env idx self0 ray level p st =
      lightIter env (recurOf env level) idx self0 ray level p st light := by
  simp only [lightLoop, hl, List.foldl]

theorem recurOf_none (env : Env ℝ) (level : Int) (h : env.recursion_level ≤ level) :
    recurOf env level = none := by
  simp only [recurOf]
  rw [if_neg (not_lt.mpr h)]

theorem clampColor_id (c : Color ℝ) (h : c.InUnit) : clampColor c = c := by
  obtain ⟨⟨a0, a1⟩, ⟨b0, b1⟩, ⟨c0, c1⟩⟩ := h
  simp only [clampColor, clampChannel, if_neg (not_lt.mpr a1), if_neg (not_lt.mpr a0),
    if_neg (not_lt.mpr b1), if_neg (not_lt.mpr b0), if_neg (not_lt.mpr c1),
    if_neg (not_lt.mpr c0)]

theorem enterPlain_cases (sqrt : ℝ → ℝ) (self : Object ℝ) (ray : Ray ℝ) (level : Int) :
    (enterPlain sqrt self ray level = .ret (-1) ∧ self.getIntersectionT sqrt ray ≤ 0) ∨
    (enterPlain sqrt self ray level = .ret (self.getIntersectionT sqrt ray) ∧
      0 < self.getIntersectionT sqrt ray ∧ level = 0) ∨
    (enterPlain sqrt self ray level =
        .shade (self.getIntersectionT sqrt ray) (ray.at (self.getIntersectionT sqrt ray)) self
          (ambientColor self.base) ∧
      0 < self.getIntersectionT sqrt ray ∧ level ≠ 0) := by
  simp only [enterPlain, Ray.at]
  split_ifs with h1 h2
  · exact Or.inl ⟨rfl, h1⟩
  · exact Or.inr (Or.inl ⟨rfl, not_le.mp h1, h2⟩)
  · exact Or.inr (Or.inr ⟨rfl, not_le.mp h1, h2⟩)

/-- The two ways a call of `intersect` ends. -/
theorem intersect_cases (env : Env ℝ) (objs : List (Object ℝ)) (idx : Nat) (ray : Ray ℝ)
    (cur : Color ℝ) (level : Int) :
    (∃ t, intersect env objs idx ray cur level = ⟨t, cur, objs, level, []⟩ ∧
      ((objs[idx]? = none ∧ t = -1) ∨
        ∃ self, objs[idx]? = some self ∧ self.enter env.sqrt ray level = .ret t)) ∨
    (∃ self t p self0 c0, objs[idx]? = some self ∧
      self.enter env.sqrt ray level = .shade t p self0 c0 ∧
      intersect env objs idx ray cur level =
        ⟨t, (lightLoop env idx self0 ray level p ⟨c0, objs.set idx self0, []⟩).color,
          (lightLoop env idx self0 ray level p ⟨c0, objs.set idx self0, []⟩).objects,
          level,
          (lightLoop env idx self0 ray level p ⟨c0, objs.set idx self0, []⟩).calls⟩) := by
  rw [intersect_eq]
  cases hself : objs[idx]? with
  | none => exact Or.inl ⟨-1, rfl, Or.inl ⟨rfl, rfl⟩⟩
  | some self =>
    simp only []
    cases hen : self.enter env.sqrt ray level with
    | ret t => exact Or.inl ⟨t, rfl, Or.inr ⟨self, rfl, hen⟩⟩
    | shade t p self0 c0 => exact Or.inr ⟨self, t, p, self0, c0, rfl, hen, rfl⟩

theorem CallsOK.append {R L : Int} {xs ys : List (Int × Int)} (hx : CallsOK R L xs)
    (hy : CallsOK R L ys) : CallsOK R L (xs ++ ys) := by
  intro pc hpc
  rcases List.mem_append.mp hpc with h | h
  · exact hx pc h
  · exact hy pc h

theorem CallsOK.mono {R L L1 : Int} {xs : List (Int × Int)} (h : CallsOK R L1 xs)
    (hL : L ≤ L1) : CallsOK R L xs := by
  intro pc hpc
  obtain ⟨h1, h2, h3⟩ := h pc hpc
  exact ⟨h1, le_trans hL h2, h3⟩

theorem traceSecondary_calls (env : Env ℝ) (f : List (Object ℝ) → Nat → Ray ℝ → Result ℝ)
    (R level : Int) (ray : Ray ℝ) (w : ℝ) (st : LoopState ℝ) (hf : RecurOK R level f)
    (hst : CallsOK R level st.calls) :
    CallsOK R level (traceSecondary env f level ray w st).calls := by
  simp only [traceSecondary]
  split_ifs with h
  · simp only
    apply CallsOK.append hst
    intro pc hpc
    rcases List.mem_cons.mp hpc with h1 | h1
    · rw [h1]
      simp only
      rw [(hf.2 _ _ _).1]
      exact ⟨rfl, le_refl _, by have := hf.1; omega⟩
    · exact (hf.2 _ _ _).2.mono (by omega) pc h1
  · exact hst

theorem lightIter_calls (env : Env ℝ)
    (recur : Option (List (Object ℝ) → Nat → Ray ℝ → Result ℝ)) (R : Int) (idx : Nat)
    (self0 : Object ℝ) (ray : Ray ℝ) (level : Int) (p : Point3 ℝ) (st : LoopState ℝ)
    (light : Point3 ℝ) (hrec : ∀ f, recur = some f → RecurOK R level f)
    (hst : CallsOK R level st.calls) :
    CallsOK R level (lightIter env recur idx self0 ray level p st light).calls := by
  simp only [lightIter]
  cases recur with
  | none =>
    simp only
    split_ifs <;> exact hst
  | some f =>
    simp only
    apply traceSecondary_calls env f R level _ _ _ (hrec f rfl)
    apply traceSecondary_calls env f R level _ _ _ (hrec f rfl)
    split_ifs <;> exact hst

theorem foldl_lightIter_calls (env : Env ℝ)
    (recur : Option (List (Object ℝ) → Nat → Ray ℝ → Result ℝ)) (R : Int) (idx : Nat)
    (self0 : Object ℝ) (ray : Ray ℝ) (level : Int) (p : Point3 ℝ)
    (hrec : ∀ f, recur = some f → RecurOK R level f) (lights : List (Point3 ℝ)) :
    ∀ st : LoopState ℝ, CallsOK R level st.calls →
      CallsOK R level (lights.foldl (lightIter env recur idx self0 ray level p) st).calls := by
  induction lights with
  | nil => intro st h; exact h
  | cons l ls ih =>
    intro st h
    simp only [List.foldl]
    exact ih _ (lightIter_calls env recur R idx self0 ray level p st l hrec h)

theorem intersect_calls_aux (env : Env ℝ) : ∀ (n : Nat) (level : Int),
    (env.recursion_level - level).toNat = n →
    ∀ (objs : List (Object ℝ)) (idx : Nat) (ray : Ray ℝ) (cur : Color ℝ),
      CallsOK env.recursion_level level (intersect env objs idx ray cur level).calls := by
  intro n
  induction n with
  | zero =>
    intro level hn objs idx ray cur
    rcases intersect_cases env objs idx ray cur level with
      ⟨t, hr, _⟩ | ⟨self, t, p, self0, c0, _, _, hr⟩
    · rw [hr]; intro pc hpc; simp at hpc
    · rw [hr]
      simp only [lightLoop]
      apply foldl_lightIter_calls
      · intro f hf
        simp only [recurOf] at hf
        split_ifs at hf with hlt
        omega
      · intro pc hpc; simp at hpc
  | succ n ih =>
    intro level hn objs idx ray cur
    rcases intersect_cases env objs idx ray cur level with
      ⟨t, hr, _⟩ | ⟨self, t, p, self0, c0, _, _, hr⟩
    · rw [hr]; intro pc hpc; simp at hpc
    · rw [hr]
      simp only [lightLoop]
      apply foldl_lightIter_calls
      · intro f hf
        simp only [recurOf] at hf
        split_ifs at hf with hlt
        have hf' := Option.some.inj hf
        subst hf'
        refine ⟨hlt, fun os k r => ⟨intersect_level _ _ _ _ _ _, ?_⟩⟩
        exact ih (level + 1) (by omega) os k r env.junk
      · intro pc hpc; simp at hpc

theorem intersect_calls_nil (env : Env ℝ) (objs : List (Object ℝ)) (idx : Nat) (ray : Ray ℝ)
    (cur : Color ℝ) (level : Int) (h : env.recursion_level ≤ level) :
    (intersect env objs idx ray cur level).calls = [] := by
  apply List.eq_nil_iff_forall_not_mem.mpr
  intro pc hpc
  obtain ⟨h1, h2, h3⟩ := intersect_calls_aux env _ level rfl objs idx ray cur pc hpc
  omega

/-! ## Evaluation of the example scenes -/

theorem toInt_unit (x : ℝ) (h0 : 0 ≤ x) (h1 : x < 1) : toInt x = 0 := by
  simp only [toInt]
  rw [if_pos h0, Int.floor_eq_iff]
  exact ⟨by simpa using h0, by simpa using h1⟩

theorem demoFloor_enter :
    Floor.enter Real.sqrt (demoBase (⟨-50, -50, 0⟩ : Point3 ℝ) 10) (fun _ _ => (255, 255, 255)) 1 1
      ⟨⟨5, 5, 10⟩, ⟨0, 0, -1⟩⟩ =
    .shade 10 ⟨5, 5, 0⟩ (demoFloor : Object ℝ) ⟨1 / 4, 1 / 4, 1 / 4⟩ := by
  have hT : Floor.getIntersectionT Real.sqrt (demoBase (⟨-50, -50, 0⟩ : Point3 ℝ) 10)
      ⟨⟨5, 5, 10⟩, ⟨0, 0, -1⟩⟩ = 10 := by
    simp only [Floor.getIntersectionT, Floor.getNormal, Point3.normalize, Point3.div,
      dotProduct, demoBase]
    norm_num
  have hI : toInt ((1 : ℝ) / 2) = 0 := toInt_unit _ (by norm_num) (by norm_num)
  have hm : Int.tmod (0 + 0) 2 = 0 := by decide
  have h255 : (((255 : Fin 256) : ℕ) : ℝ) = 255 := by
    rw [show ((255 : Fin 256) : ℕ) = 255 from rfl]; norm_num
  simp only [Floor.enter, hT]
  simp only [Point3.add, Point3.mul, demoBase, demoFloor]
  norm_num [hI, hm, h255]

theorem demoFloor_lightIter (st : LoopState ℝ) (hst : st.objects = [demoFloor]) :
    (lightIter (demoEnv Real.sqrt 0 [⟨5, 5, 100⟩]) none 0 (demoFloor : Object ℝ)
      ⟨⟨5, 5, 10⟩, ⟨0, 0, -1⟩⟩ 0 ⟨5, 5, 0⟩ st ⟨5, 5, 100⟩).color =
    clampColor ⟨st.color.c0 + 1 / 4, st.color.c1 + 1 / 4, st.color.c2 + 1 / 4⟩ := by
  have h1 : Real.sqrt 10000 = 100 := sqrt_of_sq (by norm_num) (by norm_num)
  simp only [lightIter, hst, List.getElem?_cons_zero, Option.getD_some, demoFloor, demoEnv,
    Object.base, Object.shadeNormal, Floor.getNormal, getReflection, Ray.new, shadowFlag,
    List.any, Object.getIntersectionT, Floor.getIntersectionT, addLocal, diffuseTerm,
    specularTerm, Point3.normalize, Point3.div, Point3.sub, Point3.add, Point3.mul, dotProduct,
    demoBase]
  norm_num [h1]

theorem demoSphere_T : Sphere.getIntersectionT Real.sqrt (demoBase (⟨0, 0, 0⟩ : Point3 ℝ) 10)
    demoRay = 190 := by
  have h : Real.sqrt 400 = 20 := sqrt_of_sq (by norm_num) (by norm_num)
  simp only [Sphere.getIntersectionT, demoBase, demoRay, dotProduct, Point3.sub]
  norm_num [h]

theorem demoSphere_enter (level : Int) (hl : level ≠ 0) :
    (demoSphere : Object ℝ).enter Real.sqrt demoRay level =
      .shade 190 ⟨0, 0, 10⟩ demoSphere ⟨1 / 4, 1 / 4, 1 / 4⟩ := by
  simp only [demoSphere, Object.enter, enterPlain, Object.getIntersectionT, demoSphere_T,
    if_neg hl, ambientColor, Object.base]
  simp only [demoRay, demoBase, Point3.add, Point3.mul]
  norm_num

theorem demo_shadow_ray_hits_occluder :
    (demoOccluder : Object ℝ).getIntersectionT Real.sqrt ⟨⟨0, 0, 11⟩, ⟨0, 0, 1⟩⟩ = 34 := by
  have h1 : Real.sqrt 100 = 10 := sqrt_of_sq (by norm_num) (by norm_num)
  simp only [demoOccluder, Object.getIntersectionT, Sphere.getIntersectionT, demoBase,
    dotProduct, Point3.sub]
  norm_num [h1]

theorem demo_shadowFlag :
    shadowFlag Real.sqrt [(demoSphere : Object ℝ), demoOccluder] ⟨⟨0, 0, 11⟩, ⟨0, 0, 1⟩⟩ 90
      = true := by
  have h : Real.sqrt 400 = 20 := sqrt_of_sq (by norm_num) (by norm_num)
  simp only [shadowFlag, List.any, demoSphere, Object.getIntersectionT,
    Sphere.getIntersectionT, demoBase, dotProduct, Point3.sub]
  norm_num [h]

theorem demoSphere_lightIter (st : LoopState ℝ)
    (hst : st.objects = [demoSphere, demoOccluder]) :
    (lightIter (demoEnv Real.sqrt 1 [⟨0, 0, 100⟩]) none 0 (demoSphere : Object ℝ)
      demoRay 1 ⟨0, 0, 10⟩ st ⟨0, 0, 100⟩).color =
    clampColor ⟨st.color.c0 + 1 / 4, st.color.c1 + 1 / 4, st.color.c2 + 1 / 4⟩ := by
  have h1 : Real.sqrt 8100 = 90 := sqrt_of_sq (by norm_num) (by norm_num)
  have h2 : Real.sqrt 100 = 10 := sqrt_of_sq (by norm_num) (by norm_num)
  have hL : Ray.new Real.sqrt (⟨0, 0, 11⟩ : Point3 ℝ) ⟨0, 0, 1⟩ = ⟨⟨0, 0, 11⟩, ⟨0, 0, 1⟩⟩ := by
    simp only [Ray.new, Point3.normalize, Point3.div]
    norm_num
  have hdir : ((⟨0, 0, 100⟩ : Point3 ℝ).sub ⟨0, 0, 10⟩).normalize Real.sqrt = ⟨0, 0, 1⟩ := by
    simp only [Point3.normalize, Point3.div, Point3.sub]
    norm_num [h1]
  have hn : (demoSphere : Object ℝ).shadeNormal Real.sqrt ⟨0, 0, 10⟩ ⟨0, 0, 1⟩ = ⟨0, 0, 1⟩ := by
    simp only [demoSphere, Object.shadeNormal, Sphere.getNormal, Point3.normalize, Point3.div,
      Point3.sub, demoBase]
    norm_num [h2]
  have hr : getReflection Real.sqrt (demoRay : Ray ℝ) ⟨0, 0, 1⟩ = ⟨0, 0, 1⟩ := by
    simp only [getReflection, demoRay, Point3.normalize, Point3.div, Point3.sub, Point3.mul,
      dotProduct]
    norm_num
  have hstart : (⟨0, 0, 10⟩ : Point3 ℝ).add ((⟨0, 0, 1⟩ : Point3 ℝ).mul 1) = ⟨0, 0, 11⟩ := by
    simp only [Point3.add, Point3.mul]
    norm_num
  have hlen : Real.sqrt (((⟨0, 0, 100⟩ : Point3 ℝ).sub ⟨0, 0, 10⟩).x
      * ((⟨0, 0, 100⟩ : Point3 ℝ).sub ⟨0, 0, 10⟩).x
      + ((⟨0, 0, 100⟩ : Point3 ℝ).sub ⟨0, 0, 10⟩).y * ((⟨0, 0, 100⟩ : Point3 ℝ).sub ⟨0, 0, 10⟩).y
      + ((⟨0, 0, 100⟩ : Point3 ℝ).sub ⟨0, 0, 10⟩).z * ((⟨0, 0, 100⟩ : Point3 ℝ).sub ⟨0, 0, 10⟩).z)
      = 90 := by
    simp only [Point3.sub]
    norm_num [h1]
  simp only [lightIter, hst, List.getElem?_cons_zero, Option.getD_some, demoEnv, hdir, hn, hr,
    hstart, hL, hlen, demo_shadowFlag, if_true]
  simp only [addLocal, diffuseTerm, specularTerm, demoSphere, Object.base, demoBase, demoRay,
    dotProduct]
  norm_num

theorem demo_occluded_t :
    (intersect (demoEnv Real.sqrt 1 [⟨0, 0, 100⟩]) [(demoSphere : Object ℝ), demoOccluder] 0
      demoRay ⟨0, 0, 0⟩ 1).t = 190 := by
  rw [intersect_eq]
  simp only [List.getElem?_cons_zero]
  rw [show (demoEnv Real.sqrt 1 [(⟨0, 0, 100⟩ : Point3 ℝ)]).sqrt = Real.sqrt from rfl,
    demoSphere_enter 1 (by norm_num)]

theorem demo_nested_call :
    (intersect (demoEnv Real.sqrt 2 [⟨0, 0, 100⟩]) [(demoSphere : Object ℝ), demoFloor] 0
      demoRay ⟨0, 0, 0⟩ 1).calls = [(1, 2)] := by
  have h1 : Real.sqrt 8100 = 90 := sqrt_of_sq (by norm_num) (by norm_num)
  have h2 : Real.sqrt 100 = 10 := sqrt_of_sq (by norm_num) (by norm_num)
  have h4 : Real.sqrt 400 = 20 := sqrt_of_sq (by norm_num) (by norm_num)
  have hdir : ((⟨0, 0, 100⟩ : Point3 ℝ).sub ⟨0, 0, 10⟩).normalize Real.sqrt = ⟨0, 0, 1⟩ := by
    simp only [Point3.normalize, Point3.div, Point3.sub]
    norm_num [h1]
  have hn : (demoSphere : Object ℝ).shadeNormal Real.sqrt ⟨0, 0, 10⟩ ⟨0, 0, 1⟩ = ⟨0, 0, 1⟩ := by
    simp only [demoSphere, Object.shadeNormal, Sphere.getNormal, Point3.normalize, Point3.div,
      Point3.sub, demoBase]
    norm_num [h2]
  have hr : getReflection Real.sqrt (demoRay : Ray ℝ) ⟨0, 0, 1⟩ = ⟨0, 0, 1⟩ := by
    simp only [getReflection, demoRay, Point3.normalize, Point3.div, Point3.sub, Point3.mul,
      dotProduct]
    norm_num
  have hf : getRefraction Real.sqrt (3 / 2) (demoRay : Ray ℝ) ⟨0, 0, 1⟩ = ⟨0, 0, -1⟩ := by
    simp only [getRefraction, demoRay, Point3.normalize, Point3.div, Point3.sub, Point3.mul,
      dotProduct]
    norm_num
  have hreflRay : Ray.new Real.sqrt ((⟨0, 0, 10⟩ : Point3 ℝ).add ((⟨0, 0, 1⟩ : Point3 ℝ).mul 1))
      ⟨0, 0, 1⟩ = ⟨⟨0, 0, 11⟩, ⟨0, 0, 1⟩⟩ := by
    simp only [Ray.new, Point3.normalize, Point3.div, Point3.add, Point3.mul]
    norm_num
  have hrefrRay : Ray.new Real.sqrt
      ((⟨0, 0, 10⟩ : Point3 ℝ).add ((⟨0, 0, -1⟩ : Point3 ℝ).mul 1)) ⟨0, 0, -1⟩
      = ⟨⟨0, 0, 9⟩, ⟨0, 0, -1⟩⟩ := by
    simp only [Ray.new, Point3.normalize, Point3.div, Point3.add, Point3.mul]
    norm_num
  have hnear1 : (nearestHit Real.sqrt [(demoSphere : Object ℝ), demoFloor]
      ⟨⟨0, 0, 11⟩, ⟨0, 0, 1⟩⟩).1 = -1 := by
    simp only [nearestHit, List.map, demoSphere, demoFloor, Object.getIntersectionT,
      Sphere.getIntersectionT, Floor.getIntersectionT, Floor.getNormal, Point3.normalize,
      Point3.div, demoBase, dotProduct, Point3.sub, scanNearest, scanFrom, scanStep]
    norm_num [h4]
  have hnear2 : (nearestHit Real.sqrt [(demoSphere : Object ℝ), demoFloor]
      ⟨⟨0, 0, 9⟩, ⟨0, 0, -1⟩⟩).1 = 1 := by
    simp only [nearestHit, List.map, demoSphere, demoFloor, Object.getIntersectionT,
      Sphere.getIntersectionT, Floor.getIntersectionT, Floor.getNormal, Point3.normalize,
      Point3.div, demoBase, dotProduct, Point3.sub, scanNearest, scanFrom, scanStep]
    norm_num [h4]
  have key : ∀ st1 : LoopState ℝ, st1.objects = [demoSphere, demoFloor] → st1.calls = [] →
      ∀ w1 w2 : ℝ,
      (traceSecondary (demoEnv Real.sqrt 2 [(⟨0, 0, 100⟩ : Point3 ℝ)])
        (fun os k r => intersect (demoEnv Real.sqrt 2 [(⟨0, 0, 100⟩ : Point3 ℝ)]) os k r
          ⟨0, 0, 0⟩ (1 + 1)) 1 ⟨⟨0, 0, 9⟩, ⟨0, 0, -1⟩⟩ w2
        (traceSecondary (demoEnv Real.sqrt 2 [(⟨0, 0, 100⟩ : Point3 ℝ)])
          (fun os k r => intersect (demoEnv Real.sqrt 2 [(⟨0, 0, 100⟩ : Point3 ℝ)]) os k r
            ⟨0, 0, 0⟩ (1 + 1)) 1 ⟨⟨0, 0, 11⟩, ⟨0, 0, 1⟩⟩ w1 st1)).calls = [(1, 2)] := by
    intro st1 ho hc w1 w2
    have e1 : traceSecondary (demoEnv Real.sqrt 2 [(⟨0, 0, 100⟩ : Point3 ℝ)])
          (fun os k r => intersect (demoEnv Real.sqrt 2 [(⟨0, 0, 100⟩ : Point3 ℝ)]) os k r
            ⟨0, 0, 0⟩ (1 + 1)) 1 ⟨⟨0, 0, 11⟩, ⟨0, 0, 1⟩⟩ w1 st1 = st1 := by
      simp only [traceSecondary, ho]
      rw [show (demoEnv Real.sqrt 2 [(⟨0, 0, 100⟩ : Point3 ℝ)]).sqrt = Real.sqrt from rfl, hnear1]
      simp
    rw [e1]
    simp only [traceSecondary, ho]
    rw [show (demoEnv Real.sqrt 2 [(⟨0, 0, 100⟩ : Point3 ℝ)]).sqrt = Real.sqrt from rfl, hnear2]
    rw [if_pos (by norm_num)]
    simp only [hc, List.nil_append, intersect_level]
    rw [intersect_calls_nil _ _ _ _ _ _ (by simp [demoEnv])]
    norm_num
  rw [intersect_eq]
  simp only [List.getElem?_cons_zero]
  rw [show (demoEnv Real.sqrt 2 [(⟨0, 0, 100⟩ : Point3 ℝ)]).sqrt = Real.sqrt from rfl,
    demoSphere_enter 1 (by norm_num)]
  simp only
  rw [lightLoop_single _ _ _ _ _ _ _ ⟨0, 0, 100⟩ rfl]
  have hrec : recurOf (demoEnv Real.sqrt 2 [(⟨0, 0, 100⟩ : Point3 ℝ)]) 1 =
      some (fun os k r => intersect (demoEnv Real.sqrt 2 [(⟨0, 0, 100⟩ : Point3 ℝ)]) os k r
        ⟨0, 0, 0⟩ (1 + 1)) := by
    simp only [recurOf, demoEnv]
    rw [if_pos (by norm_num)]
  rw [hrec]
  simp only [lightIter, List.set_cons_zero, List.getElem?_cons_zero, Option.getD_some]
  rw [show (demoEnv Real.sqrt 2 [(⟨0, 0, 100⟩ : Point3 ℝ)]).sqrt = Real.sqrt from rfl,
    hdir, hn, hr]
  rw [show (demoSphere : Object ℝ).base.refIdx = 3 / 2 from rfl, hf, hreflRay, hrefrRay]
  apply key
  · split_ifs <;> rfl
  · split_ifs <;> rfl

/-- The floor of width 100 and the ray from `(300,0,200)` straight down:
`Floor::intersect` takes the bounds-test `return -1` and writes nothing. -/
theorem demoFloor_outside_intersect (cur : Color ℝ) (level : Int) :
    intersect (demoEnv Real.sqrt 1 [⟨0, 0, 100⟩]) [(demoFloor : Object ℝ)] 0
      (Ray.new Real.sqrt ⟨300, 0, 200⟩ ⟨0, 0, -1⟩) cur level
      = ⟨-1, cur, [demoFloor], level, []⟩ := by
  have hT : Floor.getIntersectionT Real.sqrt (demoBase (⟨-50, -50, 0⟩ : Point3 ℝ) 10)
      (Ray.new Real.sqrt ⟨300, 0, 200⟩ ⟨0, 0, -1⟩) = 200 := by
    simp only [Floor.getIntersectionT, Floor.getNormal, Ray.new, Point3.normalize, Point3.div,
      dotProduct, demoBase]
    norm_num
  have hen : (demoFloor : Object ℝ).enter Real.sqrt
      (Ray.new Real.sqrt ⟨300, 0, 200⟩ ⟨0, 0, -1⟩) level = .ret (-1) := by
    simp only [demoFloor, Object.enter, Floor.enter, hT]
    simp only [Ray.new, Point3.normalize, Point3.div, Point3.add, Point3.mul, demoBase]
    norm_num
  rw [intersect_eq]
  simp only [List.getElem?_cons_zero]
  rw [show (demoEnv Real.sqrt 1 [(⟨0, 0, 100⟩ : Point3 ℝ)]).sqrt = Real.sqrt from rfl, hen]

/-! ## C1: the shadow test -/

/-- C1 (the code at the failing input).  Scene: sphere of radius 10 about the
origin (hit object), sphere of radius 5 about `(0,0,50)`, light at `(0,0,100)`;
camera ray from `(0,0,200)` straight down, level 1 with `recursion_level = 1`.
The hit point is `(0,0,10)`, the light is at distance 90, and the shadow ray
(start `(0,0,11)`, direction `(0,0,1)`) hits the second sphere at parameter 34, a
positive parameter smaller than 90: the light is occluded.  Yet the shadow loop
sets `flag` (the hit sphere itself has parameter `-21` with `|-21| ≤ 90`), the
diffuse term is added, and `intersect` returns the colour `1/2` per channel instead
of the ambient `1/4`.  Conversely, for the hit sphere alone and a light at distance
5 nothing occludes, and `flag` stays `false`. -/
theorem c1_occluded_light_still_added :
    (demoOccluder : Object ℝ).getIntersectionT Real.sqrt ⟨⟨0, 0, 11⟩, ⟨0, 0, 1⟩⟩ = 34 ∧
    shadowFlag Real.sqrt [(demoSphere : Object ℝ), demoOccluder] ⟨⟨0, 0, 11⟩, ⟨0, 0, 1⟩⟩ 90
      = true ∧
    (intersect (demoEnv Real.sqrt 1 [⟨0, 0, 100⟩]) [(demoSphere : Object ℝ), demoOccluder] 0
        demoRay ⟨0, 0, 0⟩ 1).t = 190 ∧
    (intersect (demoEnv Real.sqrt 1 [⟨0, 0, 100⟩]) [(demoSphere : Object ℝ), demoOccluder] 0
        demoRay ⟨0, 0, 0⟩ 1).color = ⟨1 / 2, 1 / 2, 1 / 2⟩ ∧
    ambientColor (demoSphere : Object ℝ).base = ⟨1 / 4, 1 / 4, 1 / 4⟩ ∧
    shadowFlag Real.sqrt [(demoSphere : Object ℝ)] ⟨⟨0, 0, 11⟩, ⟨0, 0, 1⟩⟩ 5 = false := by
  refine ⟨demo_shadow_ray_hits_occluder, demo_shadowFlag, demo_occluded_t, ?_, ?_, ?_⟩
  · rw [intersect_eq]
    simp only [List.getElem?_cons_zero]
    rw [show (demoEnv Real.sqrt 1 [(⟨0, 0, 100⟩ : Point3 ℝ)]).sqrt = Real.sqrt from rfl,
      demoSphere_enter 1 (by norm_num)]
    simp only
    rw [lightLoop_single _ _ _ _ _ _ _ ⟨0, 0, 100⟩ rfl,
      recurOf_none (demoEnv Real.sqrt 1 [(⟨0, 0, 100⟩ : Point3 ℝ)]) 1 (le_refl _),
      demoSphere_lightIter _ rfl]
    norm_num
    apply clampColor_id
    simp only [Color.InUnit]
    norm_num
  · simp only [ambientColor, demoSphere, Object.base, demoBase]
    norm_num
  · have h : Real.sqrt 400 = 20 := sqrt_of_sq (by norm_num) (by norm_num)
    simp only [shadowFlag, List.any, demoSphere, Object.getIntersectionT,
      Sphere.getIntersectionT, demoBase, dotProduct, Point3.sub]
    norm_num [h]

/-! ## C5: `Floor::getIntersectionT` has no bounds test -/

/-- C5 (the code at the failing input).  Floor of width 100 and the ray from
`(300,0,200)` with direction `(0,0,-1)`: the ray meets the plane `z = 0` at
`(300,0,0)`, outside the square `[-50,50] x [-50,50]`, yet
`Floor::getIntersectionT` returns the positive parameter `200`, and the
nearest-hit loop over a scene holding this floor selects it (`nearest = 0`); the
call of `Floor::intersect` that follows returns `-1` and writes nothing to the
colour array handed to it. -/
theorem c5_floor_outside_square_selected :
    (Ray.at (Ray.new Real.sqrt ⟨300, 0, 200⟩ ⟨0, 0, -1⟩)
        (Floor.getIntersectionT Real.sqrt (demoBase (⟨-50, -50, 0⟩ : Point3 ℝ) 10)
          (Ray.new Real.sqrt ⟨300, 0, 200⟩ ⟨0, 0, -1⟩))) = ⟨300, 0, 0⟩ ∧
    Floor.getIntersectionT Real.sqrt (demoBase (⟨-50, -50, 0⟩ : Point3 ℝ) 10)
      (Ray.new Real.sqrt ⟨300, 0, 200⟩ ⟨0, 0, -1⟩) = 200 ∧
    (nearestHit Real.sqrt [(demoFloor : Object ℝ)]
      (Ray.new Real.sqrt ⟨300, 0, 200⟩ ⟨0, 0, -1⟩)).1 = 0 ∧
    (∀ (cur : Color ℝ) (level : Int),
      intersect (demoEnv Real.sqrt 1 [⟨0, 0, 100⟩]) [(demoFloor : Object ℝ)] 0
        (Ray.new Real.sqrt ⟨300, 0, 200⟩ ⟨0, 0, -1⟩) cur level
        = ⟨-1, cur, [demoFloor], level, []⟩) := by
  have hT : Floor.getIntersectionT Real.sqrt (demoBase (⟨-50, -50, 0⟩ : Point3 ℝ) 10)
      (Ray.new Real.sqrt ⟨300, 0, 200⟩ ⟨0, 0, -1⟩) = 200 := by
    simp only [Floor.getIntersectionT, Floor.getNormal, Ray.new, Point3.normalize, Point3.div,
      dotProduct, demoBase]
    norm_num
  refine ⟨?_, hT, ?_, demoFloor_outside_intersect⟩
  · rw [hT]
    simp only [Ray.at, Ray.new, Point3.normalize, Point3.div, Point3.add, Point3.mul]
    norm_num
  · simp only [nearestHit, demoFloor, List.map, Object.getIntersectionT, hT, scanNearest,
      scanFrom, scanStep]
    norm_num

/-! ## C7: the clamp -/

/-- C8.  `intersect` is defined by well-founded recursion on
`recursion_level - level`, so every call returns.  Every nested `intersect` call
made (directly or transitively) during a call at level `L` goes from a caller at
some level `p ≥ L` to a callee at level `p + 1`, with `L < p + 1 ≤ recursion_level`;
the measure `recursion_level - level` strictly decreases at each call. -/
theorem c8_recursion_bounded (env : Env ℝ) (objs : List (Object ℝ)) (idx : Nat) (ray : Ray ℝ)
    (cur : Color ℝ) (L : Int) (pc : Int × Int)
    (hpc : pc ∈ (intersect env objs idx ray cur L).calls) :
    pc.2 = pc.1 + 1 ∧ L ≤ pc.1 ∧ L < pc.2 ∧ pc.2 ≤ env.recursion_level ∧
      (env.recursion_level - pc.2).toNat < (env.recursion_level - pc.1).toNat := by
  obtain ⟨h1, h2, h3⟩ := intersect_calls_aux env _ L rfl objs idx ray cur pc hpc
  exact ⟨h1, h2, by omega, h3, by omega⟩

/-- C8 (witness): sphere above the floor, `recursion_level = 2`; the call at level
1 makes exactly one nested call, at level 2 (the refraction ray reaches the floor). -/
theorem c8_recursion_bounded_witness :
    ((1 : Int), (2 : Int)) ∈
        (intersect (demoEnv Real.sqrt 2 [⟨0, 0, 100⟩]) [(demoSphere : Object ℝ), demoFloor] 0
          demoRay ⟨0, 0, 0⟩ 1).calls ∧
      ((2 : Int) = 1 + 1 ∧ (1 : Int) ≤ 1 ∧ (1 : Int) < 2 ∧
        (2 : Int) ≤ (demoEnv Real.sqrt 2 [(⟨0, 0, 100⟩ : Point3 ℝ)]).recursion_level ∧
        ((demoEnv Real.sqrt 2 [(⟨0, 0, 100⟩ : Point3 ℝ)]).recursion_level - 2).toNat <
          ((demoEnv Real.sqrt 2 [(⟨0, 0, 100⟩ : Point3 ℝ)]).recursion_level - 1).toNat) :=
  ⟨by rw [demo_nested_call]; exact List.mem_singleton.mpr rfl,
   c8_recursion_bounded (demoEnv Real.sqrt 2 [⟨0, 0, 100⟩]) [demoSphere, demoFloor] 0 demoRay
    ⟨0, 0, 0⟩ 1 (1, 2) (by rw [demo_nested_call]; exact List.mem_singleton.mpr rfl)⟩

/-! ## C9: unit normals -/

theorem normSq_nonneg (p : Point3 ℝ) : 0 ≤ p.normSq := by
  simp only [Point3.normSq]
  nlinarith [mul_self_nonneg p.x, mul_self_nonneg p.y, mul_self_nonneg p.z]

/-- Normalising a non-zero vector gives a vector of length 1. -/
theorem len_normalize (p : Point3 ℝ) (hp : p.normSq ≠ 0) :
    (p.normalize Real.sqrt).len Real.sqrt = 1 := by
  have hpos : 0 < p.normSq := lt_of_le_of_ne (normSq_nonneg p) (Ne.symm hp)
  have hs : 0 < Real.sqrt p.normSq := Real.sqrt_pos.mpr hpos
  have hsq : Real.sqrt p.normSq * Real.sqrt p.normSq = p.normSq :=
    Real.mul_self_sqrt (le_of_lt hpos)
  have h1 : (p.normalize Real.sqrt).normSq = 1 := by
    simp only [Point3.normalize, Point3.div, Point3.normSq] at hs hsq ⊢
    field_simp
    linarith
  simp only [Point3.len, h1, Real.sqrt_one]

theorem sphere_quadratic_eq (o : Base ℝ) (ray : Ray ℝ) (s : ℝ) :
    Sphere.quadratic o ray s = ((ray.at s).sub o.reference_point).normSq - o.length * o.length := by
  simp only [Sphere.quadratic, Ray.at, Point3.normSq, Point3.sub, Point3.add, Point3.mul,
    dotProduct]
  ring

/-- A positive result of `Sphere::getIntersectionT` is a root of the quadratic. -/
theorem sphere_pos_result_root (o : Base ℝ) (ray : Ray ℝ)
    (ht : 0 < Sphere.getIntersectionT Real.sqrt o ray) :
    Sphere.quadratic o ray (Sphere.getIntersectionT Real.sqrt o ray) = 0 := by
  simp only [Sphere.quadratic]
  simp only [Sphere.getIntersectionT] at ht ⊢
  set a := dotProduct ray.dir ray.dir with ha
  set b := 2 * dotProduct ray.dir (ray.start.sub o.reference_point) with hb
  set c := dotProduct (ray.start.sub o.reference_point) (ray.start.sub o.reference_point)
    - o.length * o.length with hc
  by_cases hd : b * b - 4 * a * c < 0
  · rw [if_pos hd] at ht
    norm_num at ht
  · rw [if_neg hd] at ht ⊢
    have hsq := Real.mul_self_sqrt (not_lt.mp hd)
    set sd := Real.sqrt (b * b - 4 * a * c) with hsd
    by_cases ha0 : a = 0
    · rw [ha0] at ht
      simp at ht
    · split_ifs
      · field_simp
        nlinarith [hsq]
      · field_simp
        nlinarith [hsq]

theorem triangle_cross_ne_zero (a b c : Point3 ℝ) (ray : Ray ℝ)
    (ht : 0 < Triangle.getIntersectionT a b c ray) :
    (crossProduct (b.sub a) (c.sub a)).normSq ≠ 0 := by
  intro h0
  have hx : ∀ p : Point3 ℝ, p.normSq = 0 → p.x = 0 ∧ p.y = 0 ∧ p.z = 0 := by
    intro p hp
    simp only [Point3.normSq] at hp
    refine ⟨?_, ?_, ?_⟩ <;> nlinarith [mul_self_nonneg p.x, mul_self_nonneg p.y, mul_self_nonneg p.z]
  obtain ⟨h1, h2, h3⟩ := hx _ h0
  have hdet : dotProduct (b.sub a) (crossProduct ray.dir (c.sub a)) = 0 := by
    simp only [crossProduct, Point3.sub, dotProduct] at h1 h2 h3 ⊢
    linear_combination (-ray.dir.x) * h1 - ray.dir.y * h2 - ray.dir.z * h3
  simp only [Triangle.getIntersectionT, hdet] at ht
  rw [if_pos (by simp only [EPSILON]; constructor <;> norm_num)] at ht
  norm_num at ht

/-- C9 (counterexample).  The cone `x^2 + y^2 - z^2 = 0` without clipping box and
the ray from `(0,0,1)` with direction `(0,0,-1)`: `getIntersectionT` returns
`t = 1 > 0`, the hit point is the apex `(0,0,0)`, where the vector that
`getNormal` normalises is `(0,0,0)`; the result does not have length 1 (in C++ it
is `0/0` in each coordinate). -/
theorem c9_cone_apex_counterexample :
    0 < (Object.generalQuadratic (demoBase (⟨0, 0, 0⟩ : Point3 ℝ) 0) demoCone).getIntersectionT
        Real.sqrt ⟨⟨0, 0, 1⟩, ⟨0, 0, -1⟩⟩ ∧
    ((Object.generalQuadratic (demoBase (⟨0, 0, 0⟩ : Point3 ℝ) 0) demoCone).getNormal Real.sqrt
        (Ray.at ⟨⟨0, 0, 1⟩, ⟨0, 0, -1⟩⟩
          ((Object.generalQuadratic (demoBase (⟨0, 0, 0⟩ : Point3 ℝ) 0)
            demoCone).getIntersectionT Real.sqrt ⟨⟨0, 0, 1⟩, ⟨0, 0, -1⟩⟩))).len Real.sqrt ≠ 1 := by
  have hT : (Object.generalQuadratic (demoBase (⟨0, 0, 0⟩ : Point3 ℝ) 0)
      demoCone).getIntersectionT Real.sqrt ⟨⟨0, 0, 1⟩, ⟨0, 0, -1⟩⟩ = 1 := by
    simp only [Object.getIntersectionT, GeneralQuadratic.getIntersectionT,
      GeneralQuadratic.coefA, GeneralQuadratic.coefB, GeneralQuadratic.coefC,
      GeneralQuadratic.outsideBox, demoCone, demoBase, Point3.add, Point3.mul]
    norm_num
  refine ⟨by rw [hT]; norm_num, ?_⟩
  rw [hT]
  simp only [Object.getNormal, GeneralQuadratic.getNormal, Ray.at, Point3.add, Point3.mul,
    demoCone, Point3.normalize, Point3.div, Point3.len, Point3.normSq]
  norm_num

/-- C9 (amended).  For every variant and every ray with a valid intersection
(`getIntersectionT` returns `t > 0`), `getNormal(start + t*dir)` has Euclidean
length 1, provided the surface is regular there: for a sphere the radius is
non-zero, for a general quadric the gradient vector at the hit point is
non-zero (floor and triangle need no proviso). -/
theorem c9_normal_unit (obj : Object ℝ) (ray : Ray ℝ)
    (ht : 0 < obj.getIntersectionT Real.sqrt ray)
    (hreg : obj.Regular (ray.at (obj.getIntersectionT Real.sqrt ray))) :
    (obj.getNormal Real.sqrt (ray.at (obj.getIntersectionT Real.sqrt ray))).len Real.sqrt = 1 := by
  cases obj with
  | sphere o =>
    simp only [Object.getIntersectionT, Object.getNormal, Sphere.getNormal, Object.Regular]
      at ht hreg ⊢
    apply len_normalize
    have h := sphere_pos_result_root o ray ht
    rw [sphere_quadratic_eq] at h
    intro h0
    rw [h0] at h
    exact hreg (by nlinarith)
  | floor o bd bh bw =>
    simp only [Object.getNormal, Floor.getNormal]
    apply len_normalize
    simp only [Point3.normSq]
    norm_num
  | triangle o a b c =>
    simp only [Object.getIntersectionT, Object.getNormal, Triangle.getNormal] at ht ⊢
    exact len_normalize _ (triangle_cross_ne_zero a b c ray ht)
  | generalQuadratic o q =>
    simp only [Object.getIntersectionT, Object.getNormal, Object.Regular] at ht hreg ⊢
    exact len_normalize _ hreg

/-- C9 (witness): the sphere and camera ray of scenario 1. -/
theorem c9_normal_unit_witness :
    ((demoSphere : Object ℝ).getNormal Real.sqrt
      (Ray.at demoRay ((demoSphere : Object ℝ).getIntersectionT Real.sqrt demoRay))).len
        Real.sqrt = 1 :=
  c9_normal_unit demoSphere demoRay
    (by simp only [demoSphere, Object.getIntersectionT, demoSphere_T]; norm_num)
    (by simp only [demoSphere, Object.Regular, demoBase]; norm_num)

/-! ## C10: `intersect` at level 0 -/

/-- C10 (the code at the failing input).  `Floor::intersect` has no
`if (level == 0) return t;`.  Floor of width 100, light at `(5,5,100)`, ray from
`(5,5,10)` straight down, `level = 0` (and `recursion_level = 0`): the call returns
`t = 10` and, whatever the colour array held before, leaves `1/2` in each channel
(ambient `1/4` plus the diffuse term `1/4` of the light): it has shaded and has
written the accumulator. -/
theorem c10_floor_shades_at_level_zero (cur : Color ℝ) :
    (intersect (demoEnv Real.sqrt 0 [⟨5, 5, 100⟩]) [(demoFloor : Object ℝ)] 0
        (Ray.new Real.sqrt ⟨5, 5, 10⟩ ⟨0, 0, -1⟩) cur 0).t = 10 ∧
    (intersect (demoEnv Real.sqrt 0 [⟨5, 5, 100⟩]) [(demoFloor : Object ℝ)] 0
        (Ray.new Real.sqrt ⟨5, 5, 10⟩ ⟨0, 0, -1⟩) cur 0).color = ⟨1 / 2, 1 / 2, 1 / 2⟩ := by
  have hray : Ray.new Real.sqrt (⟨5, 5, 10⟩ : Point3 ℝ) ⟨0, 0, -1⟩ = ⟨⟨5, 5, 10⟩, ⟨0, 0, -1⟩⟩ := by
    simp only [Ray.new, Point3.normalize, Point3.div]
    norm_num
  have hen : (demoFloor : Object ℝ).enter Real.sqrt ⟨⟨5, 5, 10⟩, ⟨0, 0, -1⟩⟩ 0 =
      .shade 10 ⟨5, 5, 0⟩ (demoFloor : Object ℝ) ⟨1 / 4, 1 / 4, 1 / 4⟩ := demoFloor_enter
  rw [hray, intersect_eq]
  simp only [List.getElem?_cons_zero]
  rw [show (demoEnv Real.sqrt 0 [(⟨5, 5, 100⟩ : Point3 ℝ)]).sqrt = Real.sqrt from rfl, hen]
  simp only
  rw [lightLoop_single _ _ _ _ _ _ _ ⟨5, 5, 100⟩ rfl,
    recurOf_none (demoEnv Real.sqrt 0 [(⟨5, 5, 100⟩ : Point3 ℝ)]) 0 (le_refl _),
    demoFloor_lightIter _ rfl]
  refine ⟨trivial, ?_⟩
  norm_num
  apply clampColor_id
  simp only [Color.InUnit]
  norm_num

/-! ## C12: the determinant guard of `Triangle::getIntersectionT` -/

/-- C12 (counterexample).  Triangle `(0,0,0),(1,0,0),(0,1,0)` seen from below, ray
from `(0.25,0.25,-1)` with direction `(0,0,1)`: the determinant is `-1`, negative,
and `Triangle::getIntersectionT` returns the hit `t = 1`, not `-1`. -/
theorem c12_negative_det_hit_counterexample :
    Triangle.det (⟨0, 0, 0⟩ : Point3 ℝ) ⟨1, 0, 0⟩ ⟨0, 1, 0⟩
        (Ray.new Real.sqrt ⟨1 / 4, 1 / 4, -1⟩ ⟨0, 0, 1⟩) = -1 ∧
    Triangle.getIntersectionT (⟨0, 0, 0⟩ : Point3 ℝ) ⟨1, 0, 0⟩ ⟨0, 1, 0⟩
        (Ray.new Real.sqrt ⟨1 / 4, 1 / 4, -1⟩ ⟨0, 0, 1⟩) = 1 := by
  simp only [Triangle.det, Triangle.getIntersectionT, Ray.new, Point3.normalize, Point3.div,
    dotProduct, crossProduct, Point3.sub, EPSILON]
  norm_num

/-- C12 (amended).  `Triangle::getIntersectionT` returns `-1` whenever
`|det| < EPSILON`, in particular when `det = 0`; any other result is produced only
with `|det| ≥ EPSILON`, so the division `1.0 / det` is reached only then.  (A
determinant `≤ -EPSILON` is not rejected.) -/
theorem c12_det_guard (a b c : Point3 ℝ) (ray : Ray ℝ) :
    (|Triangle.det a b c ray| < EPSILON → Triangle.getIntersectionT a b c ray = -1) ∧
    (Triangle.det a b c ray = 0 → Triangle.getIntersectionT a b c ray = -1) ∧
    (Triangle.getIntersectionT a b c ray ≠ -1 → EPSILON ≤ |Triangle.det a b c ray|) := by
  have hE : (0 : ℝ) < EPSILON := by simp only [EPSILON]; norm_num
  have h1 : |Triangle.det a b c ray| < EPSILON → Triangle.getIntersectionT a b c ray = -1 := by
    intro h
    have h' := abs_lt.mp h
    simp only [Triangle.det] at h'
    simp only [Triangle.getIntersectionT]
    rw [if_pos ⟨h'.1, h'.2⟩]
  refine ⟨h1, fun h0 => h1 (by rw [h0, abs_zero]; exact hE), fun hne => ?_⟩
  by_contra hlt
  exact hne (h1 (not_le.mp hlt))

/-! ## C13: the clipping box of `GeneralQuadratic::getIntersectionT` -/

/-- The clipping flag is `false` exactly for points inside the box on every axis
of positive extent. -/
theorem outsideBox_false_iff (o : Base ℝ) (p : Point3 ℝ) :
    GeneralQuadratic.outsideBox o p = false ↔ GeneralQuadratic.InBox o p := by
  simp only [GeneralQuadratic.outsideBox, GeneralQuadratic.InBox, decide_eq_false_iff_not,
    not_or, not_and, not_lt, gt_iff_lt]

/-- C13.  For every general quadric and ray with `a ≠ 0`: whenever
`getIntersectionT` returns a value other than the no-hit `-1`, the point
`start + t*dir` lies within `[ref, ref + extent]` on every axis whose extent is
positive; an axis of extent zero imposes nothing, and with all three extents zero
no point is ever flagged as outside. -/
theorem c13_quadric_hit_in_box (o : Base ℝ) (q : Quadric ℝ) (ray : Ray ℝ)
    (_ha : GeneralQuadratic.coefA q ray ≠ 0)
    (ht : GeneralQuadratic.getIntersectionT Real.sqrt o q ray ≠ -1) :
    GeneralQuadratic.InBox o (ray.at (GeneralQuadratic.getIntersectionT Real.sqrt o q ray)) ∧
    (o.length = 0 → o.width = 0 → o.height = 0 →
      ∀ p : Point3 ℝ, GeneralQuadratic.outsideBox o p = false) := by
  constructor
  · rw [← outsideBox_false_iff]
    by_cases hd : GeneralQuadratic.discr q ray < 0
    · exfalso
      apply ht
      simp only [GeneralQuadratic.discr] at hd
      simp only [GeneralQuadratic.getIntersectionT, if_pos hd]
    · rw [quadric_getIntersectionT_eq o q ray (not_lt.mp hd)] at ht ⊢
      cases h1 : GeneralQuadratic.outsideBox o (ray.at (GeneralQuadratic.t1 Real.sqrt q ray)) <;>
      cases h2 : GeneralQuadratic.outsideBox o (ray.at (GeneralQuadratic.t2 Real.sqrt q ray)) <;>
      simp only [h1, h2, Bool.and_self, Bool.and_true, Bool.and_false, Bool.false_eq_true,
        if_false, if_true] at ht ⊢ <;>
      first
        | exact absurd rfl ht
        | exact h1
        | exact h2
        | (rcases min_choice (GeneralQuadratic.t1 Real.sqrt q ray)
            (GeneralQuadratic.t2 Real.sqrt q ray) with h | h <;> rw [h] <;> assumption)
  · intro hl hw hh p
    simp only [GeneralQuadratic.outsideBox, hl, hw, hh, lt_irrefl, gt_iff_lt, false_and,
      or_self, decide_False]

/-- The clipped ball seen from `(0,0,5)`: the far root 7 is outside the box, the
near root 3 is returned. -/
theorem demoBox_T : GeneralQuadratic.getIntersectionT Real.sqrt (demoBoxBase : Base ℝ) demoBall
    ⟨⟨0, 0, 5⟩, ⟨0, 0, -1⟩⟩ = 3 := by
  have h16 : Real.sqrt 16 = 4 := sqrt_of_sq (by norm_num) (by norm_num)
  simp only [GeneralQuadratic.getIntersectionT, GeneralQuadratic.coefA,
    GeneralQuadratic.coefB, GeneralQuadratic.coefC, GeneralQuadratic.outsideBox, demoBall,
    demoBoxBase, Point3.add, Point3.mul]
  norm_num [h16]

/-- C13 (witness): the ball `x^2+y^2+z^2 = 4` clipped to `z ∈ [0,3]`, ray from
`(0,0,5)` straight down. -/
theorem c13_quadric_hit_in_box_witness :
    GeneralQuadratic.InBox (demoBoxBase : Base ℝ)
      (Ray.at ⟨⟨0, 0, 5⟩, ⟨0, 0, -1⟩⟩
        (GeneralQuadratic.getIntersectionT Real.sqrt (demoBoxBase : Base ℝ) demoBall
          ⟨⟨0, 0, 5⟩, ⟨0, 0, -1⟩⟩)) :=
  (c13_quadric_hit_in_box demoBoxBase demoBall ⟨⟨0, 0, 5⟩, ⟨0, 0, -1⟩⟩
    (by simp only [GeneralQuadratic.coefA, demoBall]; norm_num)
    (by rw [demoBox_T]; norm_num)).1

/-! ## C16, C17: `Sphere::getIntersectionT` on particular rays -/

/-- With `d ≥ 0`, `Sphere::getIntersectionT` returns the smaller of `t1`, `t2`. -/
theorem sphere_T_of_discr_nonneg (o : Base ℝ) (ray : Ray ℝ) (hd : 0 ≤ Sphere.discr o ray) :
    Sphere.getIntersectionT Real.sqrt o ray =
      min ((-Sphere.coefB o ray + Real.sqrt (Sphere.discr o ray)) / (2 * Sphere.coefA ray))
        ((-Sphere.coefB o ray - Real.sqrt (Sphere.discr o ray)) / (2 * Sphere.coefA ray)) := by
  simp only [Sphere.discr, Sphere.coefA, Sphere.coefB, Sphere.coefC] at hd ⊢
  simp only [Sphere.getIntersectionT, if_neg (not_lt.mpr hd)]
  split_ifs with h
  · exact (min_eq_left (le_of_lt h)).symm
  · exact (min_eq_right (not_lt.mp h)).symm

/-- C16 (counterexample).  For the sphere of radius 10 about the origin and the ray
from `(0,0,200)` with direction `(0,0,-1)`, `Sphere::getIntersectionT` does not
return 90. -/
theorem c16_scenario1_not_ninety :
    Sphere.getIntersectionT Real.sqrt (demoBase (⟨0, 0, 0⟩ : Point3 ℝ) 10)
      (Ray.new Real.sqrt ⟨0, 0, 200⟩ ⟨0, 0, -1⟩) ≠ 90 := by
  have hray : Ray.new Real.sqrt (⟨0, 0, 200⟩ : Point3 ℝ) ⟨0, 0, -1⟩ = demoRay := by
    simp only [Ray.new, Point3.normalize, Point3.div, demoRay]
    norm_num
  rw [hray, demoSphere_T]
  norm_num

/-- C16 (amended).  For the sphere of radius 10 about the origin and the ray from
`(0,0,200)` with direction `(0,0,-1)`, `Sphere::getIntersectionT` returns
`t = 190` (the distance from `z = 200` to the surface point `(0,0,10)`), and
`Sphere::intersect` returns 190 at every level, whatever the lights. -/
theorem c16_scenario1_hit (R : Int) (lights : List (Point3 ℝ)) (cur : Color ℝ) (level : Int) :
    Sphere.getIntersectionT Real.sqrt (demoBase (⟨0, 0, 0⟩ : Point3 ℝ) 10)
      (Ray.new Real.sqrt ⟨0, 0, 200⟩ ⟨0, 0, -1⟩) = 190 ∧
    Ray.at (Ray.new Real.sqrt (⟨0, 0, 200⟩ : Point3 ℝ) ⟨0, 0, -1⟩) 190 = ⟨0, 0, 10⟩ ∧
    (intersect (demoEnv Real.sqrt R lights) [(demoSphere : Object ℝ)] 0
      (Ray.new Real.sqrt ⟨0, 0, 200⟩ ⟨0, 0, -1⟩) cur level).t = 190 := by
  have hray : Ray.new Real.sqrt (⟨0, 0, 200⟩ : Point3 ℝ) ⟨0, 0, -1⟩ = demoRay := by
    simp only [Ray.new, Point3.normalize, Point3.div, demoRay]
    norm_num
  rw [hray]
  refine ⟨demoSphere_T, ?_, ?_⟩
  · simp only [Ray.at, demoRay, Point3.add, Point3.mul]
    norm_num
  · rw [intersect_t]
    simp only [List.getElem?_cons_zero]
    rw [show (demoEnv Real.sqrt R lights).sqrt = Real.sqrt from rfl]
    rcases enterPlain_cases Real.sqrt (demoSphere : Object ℝ) demoRay level with
      ⟨_, h⟩ | ⟨h, _, _⟩ | ⟨h, _, _⟩
    · simp only [demoSphere, Object.getIntersectionT, demoSphere_T] at h
      norm_num at h
    · rw [show (demoSphere : Object ℝ).enter Real.sqrt demoRay level
        = enterPlain Real.sqrt demoSphere demoRay level from rfl, h]
      simp only [Entry.t, demoSphere, Object.getIntersectionT, demoSphere_T]
    · rw [show (demoSphere : Object ℝ).enter Real.sqrt demoRay level
        = enterPlain Real.sqrt demoSphere demoRay level from rfl, h]
      simp only [Entry.t, demoSphere, Object.getIntersectionT, demoSphere_T]


/-- C17.  For every sphere of radius `r > 0` and every ray whose origin lies on the
sphere and whose direction points away (`dir . (start - center) > 0`),
`Sphere::getIntersectionT` returns a non-positive value and `Sphere::intersect`
returns `-1`, leaving the colour array and the scene as they were. -/
theorem c17_origin_on_sphere_pointing_away (o : Base ℝ) (ray : Ray ℝ) (_hr : 0 < o.length)
    (hon : (ray.start.sub o.reference_point).normSq = o.length * o.length)
    (haway : 0 < dotProduct ray.dir (ray.start.sub o.reference_point)) :
    Sphere.getIntersectionT Real.sqrt o ray ≤ 0 ∧
    ∀ (env : Env ℝ) (objs : List (Object ℝ)) (idx : Nat) (cur : Color ℝ) (level : Int),
      env.sqrt = Real.sqrt → objs[idx]? = some (.sphere o) →
      intersect env objs idx ray cur level = ⟨-1, cur, objs, level, []⟩ := by
  have hc : Sphere.coefC o ray = 0 := by
    simp only [Sphere.coefC, dotProduct]
    simp only [Point3.normSq] at hon
    linarith
  have hb : 0 < Sphere.coefB o ray := by
    simp only [Sphere.coefB]
    linarith
  have hd : Sphere.discr o ray = Sphere.coefB o ray * Sphere.coefB o ray := by
    simp only [Sphere.discr, hc]
    ring
  have hT : Sphere.getIntersectionT Real.sqrt o ray ≤ 0 := by
    rw [sphere_T_of_discr_nonneg o ray (by rw [hd]; positivity), hd,
      Real.sqrt_mul_self (le_of_lt hb)]
    apply le_trans (min_le_left _ _)
    simp
  refine ⟨hT, fun env objs idx cur level hs hobj => ?_⟩
  rw [intersect_eq]
  simp only [hobj, hs]
  have hen : (Object.sphere o).enter Real.sqrt ray level = .ret (-1) := by
    simp only [Object.enter, enterPlain, Object.getIntersectionT, if_pos hT]
  rw [hen]

/-- C17 (witness): sphere of radius 10 about the origin, ray from its north pole
`(0,0,10)` with direction `(0,0,1)`. -/
theorem c17_origin_on_sphere_pointing_away_witness :
    Sphere.getIntersectionT Real.sqrt (demoBase (⟨0, 0, 0⟩ : Point3 ℝ) 10)
      ⟨⟨0, 0, 10⟩, ⟨0, 0, 1⟩⟩ ≤ 0 :=
  (c17_origin_on_sphere_pointing_away (demoBase ⟨0, 0, 0⟩ 10) ⟨⟨0, 0, 10⟩, ⟨0, 0, 1⟩⟩
    (by simp only [demoBase]; norm_num)
    (by simp only [demoBase, Point3.normSq, Point3.sub]; norm_num)
    (by simp only [demoBase, dotProduct, Point3.sub]; norm_num)).1

/-! ## C11: what `intersect` changes in the scene -/

theorem Object.SameUpToFloorColor.refl (a : Object ℝ) : a.SameUpToFloorColor a := Or.inl rfl

theorem Object.SameUpToFloorColor.trans {a b c : Object ℝ} (h1 : a.SameUpToFloorColor b)
    (h2 : b.SameUpToFloorColor c) : a.SameUpToFloorColor c := by
  rcases h1 with h1 | ⟨o, bd, bh, bw, col, ha, hcol, hb⟩
  · rw [h1] at h2; exact h2
  · rcases h2 with h2 | ⟨o2, bd2, bh2, bw2, col2, hb2, hcol2, hc⟩
    · rw [h2]; exact Or.inr ⟨o, bd, bh, bw, col, ha, hcol, hb⟩
    · rw [hb] at hb2
      obtain ⟨ho, hbd, hbh, hbw⟩ := Object.floor.inj hb2
      refine Or.inr ⟨o, bd, bh, bw, col2, ha, hcol2, ?_⟩
      rw [hc, ← ho, ← hbd, ← hbh, ← hbw]

theorem sameScene_refl (objs : List (Object ℝ)) :
    List.Forall₂ Object.SameUpToFloorColor objs objs := by
  induction objs with
  | nil => exact List.Forall₂.nil
  | cons a l ih => exact List.Forall₂.cons (Object.SameUpToFloorColor.refl a) ih

theorem sameScene_trans {xs ys zs : List (Object ℝ)}
    (h1 : List.Forall₂ Object.SameUpToFloorColor xs ys)
    (h2 : List.Forall₂ Object.SameUpToFloorColor ys zs) :
    List.Forall₂ Object.SameUpToFloorColor xs zs := by
  induction h1 generalizing zs with
  | nil => cases h2; exact List.Forall₂.nil
  | cons hab _ ih =>
    cases h2 with
    | cons hbc htl => exact List.Forall₂.cons (hab.trans hbc) (ih htl)

theorem sameScene_set (objs : List (Object ℝ)) : ∀ (idx : Nat) (self self0 : Object ℝ),
    objs[idx]? = some self → self.SameUpToFloorColor self0 →
    List.Forall₂ Object.SameUpToFloorColor objs (objs.set idx self0) := by
  induction objs with
  | nil => intro idx self self0 h; simp at h
  | cons a l ih =>
    intro idx self self0 h hs
    cases idx with
    | zero =>
      simp only [List.getElem?_cons_zero, Option.some.injEq] at h
      rw [List.set_cons_zero, h]
      exact List.Forall₂.cons hs (sameScene_refl l)
    | succ n =>
      simp only [List.getElem?_cons_succ] at h
      rw [List.set_cons_succ]
      exact List.Forall₂.cons (Object.SameUpToFloorColor.refl a) (ih n self self0 h hs)

theorem Object.enter_shade_same (sqrt : ℝ → ℝ) (self : Object ℝ) (ray : Ray ℝ) (level : Int)
    (t : ℝ) (p : Point3 ℝ) (self0 : Object ℝ) (c0 : Color ℝ)
    (h : self.enter sqrt ray level = .shade t p self0 c0) : self.SameUpToFloorColor self0 := by
  have plain : ∀ s : Object ℝ, enterPlain sqrt s ray level = .shade t p self0 c0 →
      s.SameUpToFloorColor self0 := by
    intro s hs
    rcases enterPlain_cases sqrt s ray level with ⟨h1, _⟩ | ⟨h1, _, _⟩ | ⟨h1, _, _⟩
    · rw [h1] at hs; exact Entry.noConfusion hs
    · rw [h1] at hs; exact Entry.noConfusion hs
    · rw [h1] at hs
      obtain ⟨_, _, hself, _⟩ := Entry.shade.inj hs
      exact Or.inl hself.symm
  cases self with
  | sphere o => exact plain _ h
  | triangle o a b c => exact plain _ h
  | generalQuadratic o q => exact plain _ h
  | floor o bd bh bw =>
    simp only [Object.enter, Floor.enter] at h
    split_ifs at h with h1 h2
    · obtain ⟨_, _, hself, _⟩ := Entry.shade.inj h
      exact Or.inr ⟨o, bd, bh, bw, ⟨0, 0, 0⟩, rfl, Or.inl rfl, hself.symm⟩
    · obtain ⟨_, _, hself, _⟩ := Entry.shade.inj h
      exact Or.inr ⟨o, bd, bh, bw, ⟨1, 1, 1⟩, rfl, Or.inr rfl, hself.symm⟩

theorem traceSecondary_same (env : Env ℝ) (f : List (Object ℝ) → Nat → Ray ℝ → Result ℝ)
    (level : Int) (ray : Ray ℝ) (w : ℝ) (st : LoopState ℝ)
    (hf : ∀ os k r, List.Forall₂ Object.SameUpToFloorColor os (f os k r).objects) :
    List.Forall₂ Object.SameUpToFloorColor st.objects
      (traceSecondary env f level ray w st).objects := by
  simp only [traceSecondary]
  split_ifs with h
  · exact hf _ _ _
  · exact sameScene_refl _

theorem lightIter_same (env : Env ℝ)
    (recur : Option (List (Object ℝ) → Nat → Ray ℝ → Result ℝ)) (idx : Nat)
    (self0 : Object ℝ) (ray : Ray ℝ) (level : Int) (p : Point3 ℝ) (st : LoopState ℝ)
    (light : Point3 ℝ)
    (hrec : ∀ f, recur = some f →
      ∀ os k r, List.Forall₂ Object.SameUpToFloorColor os (f os k r).objects) :
    List.Forall₂ Object.SameUpToFloorColor st.objects
      (lightIter env recur idx self0 ray level p st light).objects := by
  simp only [lightIter]
  cases recur with
  | none =>
    simp only
    split_ifs <;> exact sameScene_refl _
  | some f =>
    simp only
    refine sameScene_trans ?_ (traceSecondary_same env f level _ _ _ (hrec f rfl))
    refine sameScene_trans ?_ (traceSecondary_same env f level _ _ _ (hrec f rfl))
    split_ifs <;> exact sameScene_refl _

theorem foldl_lightIter_same (env : Env ℝ)
    (recur : Option (List (Object ℝ) → Nat → Ray ℝ → Result ℝ)) (idx : Nat)
    (self0 : Object ℝ) (ray : Ray ℝ) (level : Int) (p : Point3 ℝ)
    (hrec : ∀ f, recur = some f →
      ∀ os k r, List.Forall₂ Object.SameUpToFloorColor os (f os k r).objects)
    (lights : List (Point3 ℝ)) :
    ∀ st : LoopState ℝ, List.Forall₂ Object.SameUpToFloorColor st.objects
      (lights.foldl (lightIter env recur idx self0 ray level p) st).objects := by
  induction lights with
  | nil => intro st; exact sameScene_refl _
  | cons l ls ih =>
    intro st
    simp only [List.foldl]
    exact sameScene_trans (lightIter_same env recur idx self0 ray level p st l hrec) (ih _)

/-- The scene after `intersect` is the scene before, up to floor colours. -/
theorem intersect_same_aux (env : Env ℝ) : ∀ (n : Nat) (level : Int),
    (env.recursion_level - level).toNat = n →
    ∀ (objs : List (Object ℝ)) (idx : Nat) (ray : Ray ℝ) (cur : Color ℝ),
      List.Forall₂ Object.SameUpToFloorColor objs (intersect env objs idx ray cur level).objects := by
  intro n
  induction n with
  | zero =>
    intro level hn objs idx ray cur
    rcases intersect_cases env objs idx ray cur level with
      ⟨t, hr, _⟩ | ⟨self, t, p, self0, c0, hself, hen, hr⟩
    · rw [hr]; exact sameScene_refl _
    · rw [hr]
      simp only [lightLoop]
      refine sameScene_trans (sameScene_set objs idx self self0 hself
        (Object.enter_shade_same _ _ _ _ _ _ _ _ hen)) ?_
      refine foldl_lightIter_same env _ idx self0 ray level p ?_ env.lights
        ⟨c0, objs.set idx self0, []⟩
      intro f hf
      simp only [recurOf] at hf
      split_ifs at hf with hlt
      omega
  | succ n ih =>
    intro level hn objs idx ray cur
    rcases intersect_cases env objs idx ray cur level with
      ⟨t, hr, _⟩ | ⟨self, t, p, self0, c0, hself, hen, hr⟩
    · rw [hr]; exact sameScene_refl _
    · rw [hr]
      simp only [lightLoop]
      refine sameScene_trans (sameScene_set objs idx self self0 hself
        (Object.enter_shade_same _ _ _ _ _ _ _ _ hen)) ?_
      refine foldl_lightIter_same env _ idx self0 ray level p ?_ env.lights
        ⟨c0, objs.set idx self0, []⟩
      intro f hf
      simp only [recurOf] at hf
      split_ifs at hf with hlt
      have hf' := Option.some.inj hf
      subst hf'
      intro os k r
      exact ih (level + 1) (by omega) os k r env.junk

theorem sameScene_eq_of_no_floor {xs ys : List (Object ℝ)}
    (h : List.Forall₂ Object.SameUpToFloorColor xs ys)
    (hno : ∀ o ∈ xs, o.isFloor = false) : ys = xs := by
  induction h with
  | nil => rfl
  | @cons a b l1 l2 hab _ ih =>
    have ha := hno a (List.mem_cons_self _ _)
    have htl := ih (fun o ho => hno o (List.mem_cons_of_mem _ ho))
    rcases hab with hab | ⟨o, bd, bh, bw, c, hfl, _, _⟩
    · rw [hab, htl]
    · rw [hfl] at ha
      simp [Object.isFloor] at ha

/-- C11 (amended).  For every scene, ray and level, the object list after a call of
`intersect` has the same objects in the same order, each unchanged except that a
`Floor` may have its member `color` overwritten with black `(0,0,0)` or white
`(1,1,1)` (the tile colour written by `Floor::intersect`); a scene holding no floor
is left exactly as it was.  The light list is only read (it is a field of the
read-only `Env`). -/
theorem c11_scene_frame (env : Env ℝ) (objs : List (Object ℝ)) (idx : Nat) (ray : Ray ℝ)
    (cur : Color ℝ) (level : Int) :
    List.Forall₂ Object.SameUpToFloorColor objs (intersect env objs idx ray cur level).objects ∧
    ((∀ o ∈ objs, o.isFloor = false) →
      (intersect env objs idx ray cur level).objects = objs) :=
  ⟨intersect_same_aux env _ level rfl objs idx ray cur,
   fun hno => sameScene_eq_of_no_floor (intersect_same_aux env _ level rfl objs idx ray cur) hno⟩

theorem toInt_of_nonneg (x : ℝ) (n : Int) (h0 : 0 ≤ x) (h1 : (n : ℝ) ≤ x) (h2 : x < n + 1) :
    toInt x = n := by
  simp only [toInt]
  rw [if_pos h0, Int.floor_eq_iff]
  exact ⟨h1, h2⟩

theorem demoFloor_black_tile_enter (level : Int) :
    (demoFloor : Object ℝ).enter Real.sqrt ⟨⟨15, 5, 10⟩, ⟨0, 0, -1⟩⟩ level =
    .shade 10 ⟨15, 5, 0⟩
      (.floor { (demoBase (⟨-50, -50, 0⟩ : Point3 ℝ) 10) with color := ⟨0, 0, 0⟩ }
        (fun _ _ => (255, 255, 255)) 1 1) ⟨0, 0, 0⟩ := by
  have hT : Floor.getIntersectionT Real.sqrt (demoBase (⟨-50, -50, 0⟩ : Point3 ℝ) 10)
      ⟨⟨15, 5, 10⟩, ⟨0, 0, -1⟩⟩ = 10 := by
    simp only [Floor.getIntersectionT, Floor.getNormal, Point3.normalize, Point3.div,
      dotProduct, demoBase]
    norm_num
  have hI : toInt ((1 : ℝ) / 2) = 0 := toInt_of_nonneg _ 0 (by norm_num) (by norm_num) (by norm_num)
  have hJ : toInt ((3 : ℝ) / 2) = 1 := toInt_of_nonneg _ 1 (by norm_num) (by norm_num) (by norm_num)
  have hm : Int.tmod 1 2 = 1 := by decide
  simp only [demoFloor, Object.enter, Floor.enter, hT]
  simp only [Point3.add, Point3.mul, demoBase]
  norm_num [hI, hJ, hm]

/-- C11 (counterexample).  A white floor (`color = (1,1,1)`), no lights, ray from
`(15,5,10)` straight down, level 1: the hit point `(15,5,0)` is on an odd tile and
after the call the floor's member `color` is `(0,0,0)`. -/
theorem c11_floor_color_written_counterexample :
    (demoFloor : Object ℝ).base.color = ⟨1, 1, 1⟩ ∧
    ((intersect (demoEnv Real.sqrt 0 []) [(demoFloor : Object ℝ)] 0
        (Ray.new Real.sqrt ⟨15, 5, 10⟩ ⟨0, 0, -1⟩) ⟨0, 0, 0⟩ 1).objects.map
      (fun o => o.base.color)) = [⟨0, 0, 0⟩] := by
  have hray : Ray.new Real.sqrt (⟨15, 5, 10⟩ : Point3 ℝ) ⟨0, 0, -1⟩
      = ⟨⟨15, 5, 10⟩, ⟨0, 0, -1⟩⟩ := by
    simp only [Ray.new, Point3.normalize, Point3.div]
    norm_num
  refine ⟨rfl, ?_⟩
  rw [hray, intersect_eq]
  simp only [List.getElem?_cons_zero]
  rw [show (demoEnv Real.sqrt 0 ([] : List (Point3 ℝ))).sqrt = Real.sqrt from rfl,
    demoFloor_black_tile_enter]
  simp only [lightLoop, demoEnv, List.foldl, List.set_cons_zero, List.map, Object.base]

/-! ## The light iteration in terms of its named locals -/

/-- Without recursion a light iteration is the local illumination followed by the
clamp. -/
theorem lightIter_none_eq (env : Env ℝ) (idx : Nat) (self0 : Object ℝ) (ray : Ray ℝ)
    (level : Int) (p : Point3 ℝ) (st : LoopState ℝ) (light : Point3 ℝ) :
    lightIter env none idx self0 ray level p st light =
      { iterLocal env idx self0 ray p st light with
        color := clampColor (iterLocal env idx self0 ray p st light).color } := rfl

/-- With recursion a light iteration is local illumination, reflection ray,
refraction ray, clamp. -/
theorem lightIter_some_eq (env : Env ℝ) (f : List (Object ℝ) → Nat → Ray ℝ → Result ℝ)
    (idx : Nat) (self0 : Object ℝ) (ray : Ray ℝ)
    (level : Int) (p : Point3 ℝ) (st : LoopState ℝ) (light : Point3 ℝ) :
    lightIter env (some f) idx self0 ray level p st light =
      { iterRefract env f idx self0 ray level p st light with
        color := clampColor (iterRefract env f idx self0 ray level p st light).color } := rfl

theorem getReflection_eq (ray : Ray ℝ) (normal : Point3 ℝ) :
    getReflection Real.sqrt ray normal = (reflectionVec ray normal).normalize Real.sqrt := rfl

theorem getRefraction_eq (refIdx : ℝ) (ray : Ray ℝ) (normal : Point3 ℝ) :
    getRefraction Real.sqrt refIdx ray normal =
      if 0 ≤ refractionK refIdx ray normal then
        (refractionVec Real.sqrt refIdx ray normal).normalize Real.sqrt
      else ⟨0, 0, 0⟩ := rfl

/-! ## C14: total internal reflection -/

theorem Ray_new_zero (sqrt : ℝ → ℝ) (start : Point3 ℝ) :
    (Ray.new sqrt start ⟨0, 0, 0⟩).dir = ⟨0, 0, 0⟩ := by
  simp only [Ray.new, Point3.normalize, Point3.div, zero_div]

/-- A ray whose stored direction is the zero vector gets a parameter `≤ 0` from
every variant. -/
theorem getIntersectionT_zero_dir (sqrt : ℝ → ℝ) (obj : Object ℝ) (ray : Ray ℝ)
    (h : ray.dir = ⟨0, 0, 0⟩) : obj.getIntersectionT sqrt ray ≤ 0 := by
  cases obj with
  | sphere o =>
    simp only [Object.getIntersectionT, Sphere.getIntersectionT, h, dotProduct]
    norm_num
  | floor o bd bh bw =>
    simp only [Object.getIntersectionT, Floor.getIntersectionT, h, dotProduct]
    norm_num
  | triangle o a b c =>
    simp only [Object.getIntersectionT, Triangle.getIntersectionT, h, dotProduct, crossProduct,
      EPSILON]
    norm_num
  | generalQuadratic o q =>
    simp only [Object.getIntersectionT, GeneralQuadratic.getIntersectionT,
      GeneralQuadratic.coefA, GeneralQuadratic.coefB, h]
    norm_num
    split_ifs <;> norm_num

theorem scanFrom_all_nonpos (ts : List ℝ) (hts : ∀ t ∈ ts, t ≤ 0) :
    ∀ (k : Nat) (st : Int × ℝ), scanFrom ts k st = st := by
  induction ts with
  | nil => intro k st; rfl
  | cons t ts ih =>
    intro k st
    simp only [scanFrom, scanStep, if_pos (hts t (List.mem_cons_self _ _))]
    exact ih (fun u hu => hts u (List.mem_cons_of_mem _ hu)) (k + 1) st

theorem nearestHit_zero_dir (sqrt : ℝ → ℝ) (objs : List (Object ℝ)) (ray : Ray ℝ)
    (h : ray.dir = ⟨0, 0, 0⟩) : (nearestHit sqrt objs ray).1 = -1 := by
  simp only [nearestHit, scanNearest]
  rw [scanFrom_all_nonpos]
  intro t ht
  obtain ⟨obj, _, hobj⟩ := List.mem_map.mp ht
  rw [← hobj]
  exact getIntersectionT_zero_dir sqrt obj ray h

theorem traceSecondary_zero_dir (env : Env ℝ)
    (f : List (Object ℝ) → Nat → Ray ℝ → Result ℝ) (level : Int) (ray : Ray ℝ) (w : ℝ)
    (st : LoopState ℝ) (h : ray.dir = ⟨0, 0, 0⟩) : traceSecondary env f level ray w st = st := by
  simp only [traceSecondary, nearestHit_zero_dir env.sqrt st.objects ray h, ne_eq,
    not_true_eq_false, if_false]

/-- C14.  Whenever the radicand `1 - refIdx^2 * (1 - (n.d)^2)` is negative,
`getRefraction` returns the zero vector; and in a light iteration of `intersect`
where that holds for the normal in use, tracing the refraction ray changes nothing
(no colour added, no object selected, no nested call), whatever the scene holds: the
iteration ends in the state left by the reflection ray, clamped.  In the model the
ray built from the zero vector has direction `(0,0,0)` and every variant gives it a
parameter `≤ 0`; in C++ that direction is NaN and no comparison selects an object. -/
theorem c14_total_internal_reflection :
    (∀ (sqrt : ℝ → ℝ) (refIdx : ℝ) (ray : Ray ℝ) (normal : Point3 ℝ),
      refractionK refIdx ray normal < 0 →
      getRefraction sqrt refIdx ray normal = ⟨0, 0, 0⟩) ∧
    (∀ (env : Env ℝ) (f : List (Object ℝ) → Nat → Ray ℝ → Result ℝ) (idx : Nat)
      (self0 : Object ℝ) (ray : Ray ℝ) (level : Int) (p : Point3 ℝ) (st : LoopState ℝ)
      (light : Point3 ℝ),
      refractionK (iterSelf idx self0 st).base.refIdx ray (iterNormal env idx self0 p st light)
        < 0 →
      iterRefract env f idx self0 ray level p st light
        = iterReflect env f idx self0 ray level p st light ∧
      lightIter env (some f) idx self0 ray level p st light =
        { iterReflect env f idx self0 ray level p st light with
          color := clampColor (iterReflect env f idx self0 ray level p st light).color }) := by
  have h1 : ∀ (sqrt : ℝ → ℝ) (refIdx : ℝ) (ray : Ray ℝ) (normal : Point3 ℝ),
      refractionK refIdx ray normal < 0 →
      getRefraction sqrt refIdx ray normal = ⟨0, 0, 0⟩ := by
    intro sqrt refIdx ray normal hk
    simp only [refractionK] at hk
    simp only [getRefraction, if_neg (not_le.mpr hk)]
  refine ⟨h1, fun env f idx self0 ray level p st light hk => ?_⟩
  have h2 : iterRefract env f idx self0 ray level p st light
      = iterReflect env f idx self0 ray level p st light := by
    simp only [iterRefract, refractionRayOf, h1 env.sqrt _ ray _ hk]
    exact traceSecondary_zero_dir env f level _ _ _ (Ray_new_zero env.sqrt _)
  exact ⟨h2, by rw [lightIter_some_eq, h2]⟩

/-! ## C15: the vectors handed to `normalize` -/

theorem normSq_normalize (p : Point3 ℝ) (hp : p.normSq ≠ 0) :
    (p.normalize Real.sqrt).normSq = 1 := by
  have hpos : 0 < p.normSq := lt_of_le_of_ne (normSq_nonneg p) (Ne.symm hp)
  have hs : 0 < Real.sqrt p.normSq := Real.sqrt_pos.mpr hpos
  have hsq : Real.sqrt p.normSq * Real.sqrt p.normSq = p.normSq :=
    Real.mul_self_sqrt (le_of_lt hpos)
  simp only [Point3.normalize, Point3.div, Point3.normSq] at hs hsq ⊢
  field_simp
  linarith

theorem normalize_of_unit (p : Point3 ℝ) (hp : p.normSq = 1) : p.normalize Real.sqrt = p := by
  simp only [Point3.normSq] at hp
  simp only [Point3.normalize, Point3.div, hp, Real.sqrt_one, div_one]

theorem normSq_of_len (p : Point3 ℝ) (h : p.len Real.sqrt = 1) : p.normSq = 1 := by
  simp only [Point3.len] at h
  have h2 := Real.mul_self_sqrt (normSq_nonneg p)
  rw [h] at h2
  linarith

theorem len_of_normSq (p : Point3 ℝ) (h : p.normSq = 1) : p.len Real.sqrt = 1 := by
  simp only [Point3.len, h, Real.sqrt_one]

theorem reflectionVec_normSq (ray : Ray ℝ) (n : Point3 ℝ) (hn : n.normSq = 1) :
    (reflectionVec ray n).normSq = ray.dir.normSq := by
  simp only [Point3.normSq] at hn
  simp only [reflectionVec, Point3.normSq, Point3.sub, Point3.mul, dotProduct]
  linear_combination
    (4 * (ray.dir.x * n.x + ray.dir.y * n.y + ray.dir.z * n.z) ^ 2) * hn

theorem refractionVec_normSq (refIdx : ℝ) (ray : Ray ℝ) (n : Point3 ℝ)
    (hd : ray.dir.normSq = 1) (hn : n.normSq = 1) (hk : 0 ≤ refractionK refIdx ray n) :
    (refractionVec Real.sqrt refIdx ray n).normSq = 1 := by
  have hs := Real.mul_self_sqrt hk
  simp only [Point3.normSq] at hd hn
  simp only [refractionVec, Point3.normSq, Point3.sub, Point3.mul]
  set s := Real.sqrt (refractionK refIdx ray n) with hsdef
  simp only [refractionK, dotProduct] at hs
  simp only [dotProduct]
  linear_combination
    (refIdx * refIdx) * hd + hs
    + ((refIdx * (n.x * ray.dir.x + n.y * ray.dir.y + n.z * ray.dir.z) + s) ^ 2) * hn

theorem shadeNormal_normSq (obj : Object ℝ) (p dir : Point3 ℝ) :
    (obj.shadeNormal Real.sqrt p dir).normSq = (obj.getNormal Real.sqrt p).normSq := by
  cases obj with
  | sphere o => rfl
  | floor o bd bh bw => rfl
  | generalQuadratic o q => rfl
  | triangle o a b c =>
    simp only [Object.shadeNormal, Object.getNormal]
    split_ifs
    · simp only [Point3.normSq, Point3.mul]
      ring
    · rfl

/-- C15 (amended).  In a light iteration where the incident ray has a unit
direction, the light does not coincide with the hit point, `getNormal` at the hit
point is a unit vector and the refraction radicand is `≥ 0`: the light direction,
the normal in use, the reflection and refraction directions are unit vectors, the
vectors normalised to obtain them are non-zero, and the shadow, reflection and
refraction rays have directions of length 1. -/
theorem c15_rays_unit (obj : Object ℝ) (ray : Ray ℝ) (p light : Point3 ℝ)
    (hdir : ray.dir.len Real.sqrt = 1)
    (hlight : (light.sub p).normSq ≠ 0)
    (hn : (obj.getNormal Real.sqrt p).len Real.sqrt = 1)
    (hk : 0 ≤ refractionK obj.base.refIdx ray
      (obj.shadeNormal Real.sqrt p (lightDir Real.sqrt p light))) :
    (lightDir Real.sqrt p light).len Real.sqrt = 1 ∧
    (shadowRay Real.sqrt p light).dir.len Real.sqrt = 1 ∧
    (obj.shadeNormal Real.sqrt p (lightDir Real.sqrt p light)).len Real.sqrt = 1 ∧
    (reflectionVec ray (obj.shadeNormal Real.sqrt p (lightDir Real.sqrt p light))).normSq ≠ 0 ∧
    (getReflection Real.sqrt ray
      (obj.shadeNormal Real.sqrt p (lightDir Real.sqrt p light))).len Real.sqrt = 1 ∧
    (reflectionRayOf Real.sqrt ray
      (obj.shadeNormal Real.sqrt p (lightDir Real.sqrt p light)) p).dir.len Real.sqrt = 1 ∧
    (refractionVec Real.sqrt obj.base.refIdx ray
      (obj.shadeNormal Real.sqrt p (lightDir Real.sqrt p light))).normSq ≠ 0 ∧
    (getRefraction Real.sqrt obj.base.refIdx ray
      (obj.shadeNormal Real.sqrt p (lightDir Real.sqrt p light))).len Real.sqrt = 1 ∧
    (refractionRayOf Real.sqrt obj.base.refIdx ray
      (obj.shadeNormal Real.sqrt p (lightDir Real.sqrt p light)) p).dir.len Real.sqrt = 1 := by
  have hd1 : ray.dir.normSq = 1 := normSq_of_len _ hdir
  have hn1 : (obj.shadeNormal Real.sqrt p (lightDir Real.sqrt p light)).normSq = 1 := by
    rw [shadeNormal_normSq]; exact normSq_of_len _ hn
  set n := obj.shadeNormal Real.sqrt p (lightDir Real.sqrt p light) with hndef
  have hL : (lightDir Real.sqrt p light).normSq = 1 := normSq_normalize _ hlight
  have hrv : (reflectionVec ray n).normSq = 1 := by rw [reflectionVec_normSq ray n hn1, hd1]
  have hr : (getReflection Real.sqrt ray n).normSq = 1 := by
    rw [getReflection_eq]; exact normSq_normalize _ (by rw [hrv]; norm_num)
  have hfv : (refractionVec Real.sqrt obj.base.refIdx ray n).normSq = 1 :=
    refractionVec_normSq _ ray n hd1 hn1 hk
  have hf : (getRefraction Real.sqrt obj.base.refIdx ray n).normSq = 1 := by
    rw [getRefraction_eq, if_pos hk]; exact normSq_normalize _ (by rw [hfv]; norm_num)
  refine ⟨len_of_normSq _ hL, ?_, len_of_normSq _ hn1, by rw [hrv]; norm_num,
    len_of_normSq _ hr, ?_, by rw [hfv]; norm_num, len_of_normSq _ hf, ?_⟩
  · simp only [shadowRay, Ray.new]
    rw [normalize_of_unit _ hL]
    exact len_of_normSq _ hL
  · simp only [reflectionRayOf, Ray.new]
    rw [normalize_of_unit _ hr]
    exact len_of_normSq _ hr
  · simp only [refractionRayOf, Ray.new]
    rw [normalize_of_unit _ hf]
    exact len_of_normSq _ hf

/-- C15 (witness): scenario 1, hit point `(0,0,10)` on the sphere, light at
`(0,0,100)`. -/
theorem c15_rays_unit_witness :
    (shadowRay Real.sqrt (⟨0, 0, 10⟩ : Point3 ℝ) ⟨0, 0, 100⟩).dir.len Real.sqrt = 1 :=
  (c15_rays_unit demoSphere demoRay ⟨0, 0, 10⟩ ⟨0, 0, 100⟩
    (by simp only [Point3.len, Point3.normSq, demoRay]; norm_num)
    (by simp only [Point3.normSq, Point3.sub]; norm_num)
    (by
      have h2 : Real.sqrt 100 = 10 := sqrt_of_sq (by norm_num) (by norm_num)
      simp only [demoSphere, Object.getNormal, Sphere.getNormal, Point3.len, Point3.normSq,
        Point3.normalize, Point3.div, Point3.sub, demoBase]
      norm_num [h2])
    (by
      have h1 : Real.sqrt 8100 = 90 := sqrt_of_sq (by norm_num) (by norm_num)
      have h2 : Real.sqrt 100 = 10 := sqrt_of_sq (by norm_num) (by norm_num)
      simp only [refractionK, demoSphere, Object.shadeNormal, Sphere.getNormal, Object.base,
        lightDir, Point3.normalize, Point3.div, Point3.sub, demoBase, demoRay, dotProduct]
      norm_num [h2])).2.1

/-- C15 (counterexample).  Floor, ray from `(0,0,3)` with unit direction
`(4/5, 0, -3/5)`, light at `(4,0,10)`: the hit point is `(4,0,0)`, the light is not
there, the radicand is `1 - 2.25 * (1 - 0.36) < 0`, `getRefraction` returns
`(0,0,0)`, and the refraction ray built from it does not have a direction of length
1 (the constructor normalises the zero vector).  Also, at the apex of the cone
`x^2 + y^2 - z^2 = 0` the normal is not a unit vector. -/
theorem c15_zero_vector_normalised_counterexample :
    (demoFloor : Object ℝ).enter Real.sqrt ⟨⟨0, 0, 3⟩, ⟨4 / 5, 0, -3 / 5⟩⟩ 1 =
      .shade 5 ⟨4, 0, 0⟩ (demoFloor : Object ℝ) ⟨1 / 4, 1 / 4, 1 / 4⟩ ∧
    ((⟨4, 0, 10⟩ : Point3 ℝ).sub ⟨4, 0, 0⟩).normSq ≠ 0 ∧
    refractionK ((demoFloor : Object ℝ).base.refIdx) ⟨⟨0, 0, 3⟩, ⟨4 / 5, 0, -3 / 5⟩⟩
      ((demoFloor : Object ℝ).shadeNormal Real.sqrt ⟨4, 0, 0⟩
        (lightDir Real.sqrt ⟨4, 0, 0⟩ ⟨4, 0, 10⟩)) < 0 ∧
    getRefraction Real.sqrt ((demoFloor : Object ℝ).base.refIdx)
      ⟨⟨0, 0, 3⟩, ⟨4 / 5, 0, -3 / 5⟩⟩
      ((demoFloor : Object ℝ).shadeNormal Real.sqrt ⟨4, 0, 0⟩
        (lightDir Real.sqrt ⟨4, 0, 0⟩ ⟨4, 0, 10⟩)) = ⟨0, 0, 0⟩ ∧
    (refractionRayOf Real.sqrt ((demoFloor : Object ℝ).base.refIdx)
      ⟨⟨0, 0, 3⟩, ⟨4 / 5, 0, -3 / 5⟩⟩
      ((demoFloor : Object ℝ).shadeNormal Real.sqrt ⟨4, 0, 0⟩
        (lightDir Real.sqrt ⟨4, 0, 0⟩ ⟨4, 0, 10⟩)) ⟨4, 0, 0⟩).dir.len Real.sqrt ≠ 1 ∧
    ((Object.generalQuadratic (demoBase (⟨0, 0, 0⟩ : Point3 ℝ) 0) demoCone).getNormal Real.sqrt
      ⟨0, 0, 0⟩).len Real.sqrt ≠ 1 := by
  have hn : (demoFloor : Object ℝ).shadeNormal Real.sqrt ⟨4, 0, 0⟩
      (lightDir Real.sqrt ⟨4, 0, 0⟩ ⟨4, 0, 10⟩) = ⟨0, 0, 1⟩ := by
    simp only [demoFloor, Object.shadeNormal, Floor.getNormal, Point3.normalize, Point3.div]
    norm_num
  have hk : refractionK ((demoFloor : Object ℝ).base.refIdx)
      ⟨⟨0, 0, 3⟩, ⟨4 / 5, 0, -3 / 5⟩⟩ (⟨0, 0, 1⟩ : Point3 ℝ) < 0 := by
    simp only [refractionK, demoFloor, Object.base, demoBase, dotProduct]
    norm_num
  have hz : getRefraction Real.sqrt ((demoFloor : Object ℝ).base.refIdx)
      ⟨⟨0, 0, 3⟩, ⟨4 / 5, 0, -3 / 5⟩⟩ (⟨0, 0, 1⟩ : Point3 ℝ) = ⟨0, 0, 0⟩ := by
    rw [getRefraction_eq, if_neg (not_le.mpr hk)]
  rw [hn]
  refine ⟨?_, ?_, hk, hz, ?_, ?_⟩
  · have hT : Floor.getIntersectionT Real.sqrt (demoBase (⟨-50, -50, 0⟩ : Point3 ℝ) 10)
        ⟨⟨0, 0, 3⟩, ⟨4 / 5, 0, -3 / 5⟩⟩ = 5 := by
      simp only [Floor.getIntersectionT, Floor.getNormal, Point3.normalize, Point3.div,
        dotProduct, demoBase]
      norm_num
    have hI : toInt ((2 : ℝ) / 5) = 0 := toInt_unit _ (by norm_num) (by norm_num)
    have hI0 : toInt (0 : ℝ) = 0 := toInt_unit _ (by norm_num) (by norm_num)
    have hm : Int.tmod (0 + 0) 2 = 0 := by decide
    have h255 : (((255 : Fin 256) : ℕ) : ℝ) = 255 := by
      rw [show ((255 : Fin 256) : ℕ) = 255 from rfl]; norm_num
    simp only [demoFloor, Object.enter, Floor.enter, hT]
    simp only [Point3.add, Point3.mul, demoBase]
    norm_num [hI, hI0, hm, h255]
  · simp only [Point3.normSq, Point3.sub]
    norm_num
  · simp only [refractionRayOf, hz, Ray.new, Point3.normalize, Point3.div, Point3.len,
      Point3.normSq]
    norm_num
  · simp only [Object.getNormal, GeneralQuadratic.getNormal, demoCone, Point3.normalize,
      Point3.div, Point3.len, Point3.normSq]
    norm_num

/-! ## C19: the diffuse term -/

theorem diffuseTerm_eq_max (o : Base ℝ) (Ldir normal : Point3 ℝ) (colk : ℝ) :
    diffuseTerm o Ldir normal colk =
      o.source_factor * max 0 (dotProduct Ldir normal) * o.co_efficients.diffuse * colk := by
  simp only [diffuseTerm]
  split_ifs with h
  · rw [max_eq_right (le_of_lt h)]
  · rw [max_eq_left (not_lt.mp h)]

theorem shadowRay_dir (p light : Point3 ℝ) (h : (light.sub p).normSq ≠ 0) :
    (shadowRay Real.sqrt p light).dir = lightDir Real.sqrt p light := by
  simp only [shadowRay, Ray.new]
  exact normalize_of_unit _ (normSq_normalize _ h)

/-- For a triangle the Lambert dot product of the code is never positive: the
normal is negated exactly when it faces the light. -/
theorem triangle_lambert_nonpos (o : Base ℝ) (a b c p light : Point3 ℝ) :
    dotProduct (shadowRay Real.sqrt p light).dir
      ((Object.triangle o a b c).shadeNormal Real.sqrt p (lightDir Real.sqrt p light)) ≤ 0 := by
  have hdot : ∀ n : Point3 ℝ, dotProduct (shadowRay Real.sqrt p light).dir n
      = dotProduct (lightDir Real.sqrt p light) n
        / Real.sqrt ((lightDir Real.sqrt p light).x * (lightDir Real.sqrt p light).x
          + (lightDir Real.sqrt p light).y * (lightDir Real.sqrt p light).y
          + (lightDir Real.sqrt p light).z * (lightDir Real.sqrt p light).z) := by
    intro n
    simp only [shadowRay, Ray.new, Point3.normalize, Point3.div, dotProduct]
    ring
  rw [hdot]
  apply div_nonpos_of_nonpos_of_nonneg _ (Real.sqrt_nonneg _)
  simp only [Object.shadeNormal]
  split_ifs with h
  · simp only [dotProduct, Point3.mul] at h ⊢
    linarith
  · exact not_lt.mp h

theorem demoTri_T : (demoTri : Object ℝ).getIntersectionT Real.sqrt
    ⟨⟨1 / 4, 1 / 4, 1⟩, ⟨0, 0, -1⟩⟩ = 1 := by
  simp only [demoTri, Object.getIntersectionT, Triangle.getIntersectionT, dotProduct,
    crossProduct, Point3.sub, EPSILON]
  norm_num

theorem demoTri_enter :
    (demoTri : Object ℝ).enter Real.sqrt ⟨⟨1 / 4, 1 / 4, 1⟩, ⟨0, 0, -1⟩⟩ 1 =
      .shade 1 ⟨1 / 4, 1 / 4, 0⟩ demoTri ⟨1 / 4, 1 / 4, 1 / 4⟩ := by
  have h := demoTri_T
  simp only [demoTri] at h
  simp only [demoTri, Object.enter, enterPlain, h, ambientColor, Object.base]
  simp only [demoBase, Point3.add, Point3.mul]
  norm_num

theorem demoTri_lightDir :
    lightDir Real.sqrt (⟨1 / 4, 1 / 4, 0⟩ : Point3 ℝ) ⟨1 / 4, 1 / 4, 10⟩ = ⟨0, 0, 1⟩ := by
  have h2 : Real.sqrt 100 = 10 := sqrt_of_sq (by norm_num) (by norm_num)
  simp only [lightDir, Point3.normalize, Point3.div, Point3.sub]
  norm_num [h2]

theorem demoTri_shadowRay :
    shadowRay Real.sqrt (⟨1 / 4, 1 / 4, 0⟩ : Point3 ℝ) ⟨1 / 4, 1 / 4, 10⟩
      = ⟨⟨1 / 4, 1 / 4, 1⟩, ⟨0, 0, 1⟩⟩ := by
  simp only [shadowRay, demoTri_lightDir, Ray.new, Point3.normalize, Point3.div, Point3.add,
    Point3.mul]
  norm_num

theorem demoTri_getNormal (p : Point3 ℝ) :
    (demoTri : Object ℝ).getNormal Real.sqrt p = ⟨0, 0, 1⟩ := by
  simp only [demoTri, Object.getNormal, Triangle.getNormal, crossProduct, Point3.sub,
    Point3.normalize, Point3.div]
  norm_num

theorem demoTri_shadowFlag :
    shadowFlag Real.sqrt [(demoTri : Object ℝ)] ⟨⟨1 / 4, 1 / 4, 1⟩, ⟨0, 0, 1⟩⟩
      (lightLen Real.sqrt ⟨1 / 4, 1 / 4, 0⟩ ⟨1 / 4, 1 / 4, 10⟩) = true := by
  have h2 : Real.sqrt 100 = 10 := sqrt_of_sq (by norm_num) (by norm_num)
  simp only [shadowFlag, List.any, demoTri, Object.getIntersectionT, Triangle.getIntersectionT,
    lightLen, dotProduct, crossProduct, Point3.sub, EPSILON]
  norm_num [h2]

theorem demoTri_color :
    (intersect (demoEnv Real.sqrt 1 [⟨1 / 4, 1 / 4, 10⟩]) [(demoTri : Object ℝ)] 0
      ⟨⟨1 / 4, 1 / 4, 1⟩, ⟨0, 0, -1⟩⟩ ⟨0, 0, 0⟩ 1).color = ⟨1 / 4, 1 / 4, 1 / 4⟩ := by
  rw [intersect_eq]
  simp only [List.getElem?_cons_zero]
  rw [show (demoEnv Real.sqrt 1 [(⟨1 / 4, 1 / 4, 10⟩ : Point3 ℝ)]).sqrt = Real.sqrt from rfl,
    demoTri_enter]
  simp only
  rw [lightLoop_single _ _ _ _ _ _ _ ⟨1 / 4, 1 / 4, 10⟩ rfl,
    recurOf_none (demoEnv Real.sqrt 1 [(⟨1 / 4, 1 / 4, 10⟩ : Point3 ℝ)]) 1 (le_refl _),
    lightIter_none_eq]
  simp only [iterLocal, iterNormal, iterSelf, List.set_cons_zero, List.getElem?_cons_zero,
    Option.getD_some]
  rw [show (demoEnv Real.sqrt 1 [(⟨1 / 4, 1 / 4, 10⟩ : Point3 ℝ)]).sqrt = Real.sqrt from rfl,
    demoTri_shadowRay, demoTri_shadowFlag, demoTri_lightDir]
  have hn : (demoTri : Object ℝ).shadeNormal Real.sqrt ⟨1 / 4, 1 / 4, 0⟩ ⟨0, 0, 1⟩
      = ⟨0, 0, -1⟩ := by
    simp only [demoTri, Object.shadeNormal, Triangle.getNormal, crossProduct, Point3.sub,
      Point3.normalize, Point3.div, Point3.mul, dotProduct]
    norm_num
  have hr : getReflection Real.sqrt (⟨⟨1 / 4, 1 / 4, 1⟩, ⟨0, 0, -1⟩⟩ : Ray ℝ) ⟨0, 0, -1⟩
      = ⟨0, 0, 1⟩ := by
    simp only [getReflection, Point3.normalize, Point3.div, Point3.sub, Point3.mul, dotProduct]
    norm_num
  rw [hn, hr]
  simp only [if_true, addLocal, diffuseTerm, specularTerm, demoTri, Object.base, demoBase,
    dotProduct]
  norm_num
  apply clampColor_id
  simp only [Color.InUnit]
  norm_num

/-- C19 (the code at the failing input).  For Sphere, Floor and GeneralQuadratic the
diffuse term of the code is the specified
`source_factor * max(0, lightDir . n) * diffuseCoeff * color[k]` with
`n = getNormal(hit point)`.  For a Triangle the code negates the normal exactly when
`dotProduct(dir, normal) > 0`, so its Lambert factor is never positive and the
diffuse term is always 0.  Triangle `(0,0,0),(1,0,0),(0,1,0)`, light at
`(0.25,0.25,10)` on the side the normal points to, ray from `(0.25,0.25,1)` straight
down: the light is counted (`flag` is set), the specified term is `1/4`, and
`intersect` returns the ambient `1/4` per channel. -/
theorem c19_triangle_never_diffuse :
    (∀ (obj : Object ℝ) (p light : Point3 ℝ) (colk : ℝ), obj.isTriangle = false →
      (light.sub p).normSq ≠ 0 →
      diffuseTerm obj.base (shadowRay Real.sqrt p light).dir
          (obj.shadeNormal Real.sqrt p (lightDir Real.sqrt p light)) colk
        = specDiffuseTerm Real.sqrt obj p light colk) ∧
    (∀ (o : Base ℝ) (a b c p light : Point3 ℝ) (colk : ℝ),
      diffuseTerm o (shadowRay Real.sqrt p light).dir
          ((Object.triangle o a b c).shadeNormal Real.sqrt p (lightDir Real.sqrt p light)) colk
        = 0) ∧
    (shadowFlag Real.sqrt [(demoTri : Object ℝ)]
        (shadowRay Real.sqrt ⟨1 / 4, 1 / 4, 0⟩ ⟨1 / 4, 1 / 4, 10⟩)
        (lightLen Real.sqrt ⟨1 / 4, 1 / 4, 0⟩ ⟨1 / 4, 1 / 4, 10⟩) = true ∧
      specDiffuseTerm Real.sqrt (demoTri : Object ℝ) ⟨1 / 4, 1 / 4, 0⟩ ⟨1 / 4, 1 / 4, 10⟩ 1
        = 1 / 4 ∧
      (intersect (demoEnv Real.sqrt 1 [⟨1 / 4, 1 / 4, 10⟩]) [(demoTri : Object ℝ)] 0
        ⟨⟨1 / 4, 1 / 4, 1⟩, ⟨0, 0, -1⟩⟩ ⟨0, 0, 0⟩ 1).color = ⟨1 / 4, 1 / 4, 1 / 4⟩) := by
  refine ⟨fun obj p light colk hobj hl => ?_, fun o a b c p light colk => ?_, ?_, ?_, ?_⟩
  · rw [diffuseTerm_eq_max, shadowRay_dir p light hl]
    cases obj with
    | triangle o a b c => simp [Object.isTriangle] at hobj
    | sphere o => rfl
    | floor o bd bh bw => rfl
    | generalQuadratic o q => rfl
  · rw [diffuseTerm_eq_max, max_eq_left (triangle_lambert_nonpos o a b c p light)]
    ring
  · rw [demoTri_shadowRay]; exact demoTri_shadowFlag
  · simp only [specDiffuseTerm, demoTri_lightDir, demoTri_getNormal]
    simp only [dotProduct, demoTri, Object.base, demoBase]
    norm_num
  · exact demoTri_color

/-! ## C20: the specular term -/

theorem specularTerm_eq_max (o : Base ℝ) (reflection rayDir : Point3 ℝ) (colk : ℝ) :
    specularTerm o reflection rayDir colk =
      o.source_factor * max 0 (dotProduct reflection rayDir ^ o.shine)
        * o.co_efficients.specular * colk := by
  simp only [specularTerm]
  split_ifs with h
  · rw [max_eq_right (le_of_lt h)]
  · rw [max_eq_left (not_lt.mp h)]

theorem demoShiny_lightIter (st : LoopState ℝ) (hst : st.objects = [demoShinySphere]) :
    (lightIter (demoEnv Real.sqrt 1 [⟨0, 0, 100⟩]) none 0 (demoShinySphere : Object ℝ)
      demoRay 1 ⟨0, 0, 10⟩ st ⟨0, 0, 100⟩).color =
    clampColor ⟨st.color.c0 + 1 / 4 + 1 / 4, st.color.c1 + 1 / 4 + 1 / 4,
      st.color.c2 + 1 / 4 + 1 / 4⟩ := by
  have h1 : Real.sqrt 8100 = 90 := sqrt_of_sq (by norm_num) (by norm_num)
  have h2 : Real.sqrt 100 = 10 := sqrt_of_sq (by norm_num) (by norm_num)
  have h4 : Real.sqrt 400 = 20 := sqrt_of_sq (by norm_num) (by norm_num)
  have hL : Ray.new Real.sqrt (⟨0, 0, 11⟩ : Point3 ℝ) ⟨0, 0, 1⟩ = ⟨⟨0, 0, 11⟩, ⟨0, 0, 1⟩⟩ := by
    simp only [Ray.new, Point3.normalize, Point3.div]
    norm_num
  have hdir : ((⟨0, 0, 100⟩ : Point3 ℝ).sub ⟨0, 0, 10⟩).normalize Real.sqrt = ⟨0, 0, 1⟩ := by
    simp only [Point3.normalize, Point3.div, Point3.sub]
    norm_num [h1]
  have hn : (demoShinySphere : Object ℝ).shadeNormal Real.sqrt ⟨0, 0, 10⟩ ⟨0, 0, 1⟩
      = ⟨0, 0, 1⟩ := by
    simp only [demoShinySphere, Object.shadeNormal, Sphere.getNormal, Point3.normalize,
      Point3.div, Point3.sub, demoBase]
    norm_num [h2]
  have hr : getReflection Real.sqrt (demoRay : Ray ℝ) ⟨0, 0, 1⟩ = ⟨0, 0, 1⟩ := by
    simp only [getReflection, demoRay, Point3.normalize, Point3.div, Point3.sub, Point3.mul,
      dotProduct]
    norm_num
  have hstart : (⟨0, 0, 10⟩ : Point3 ℝ).add ((⟨0, 0, 1⟩ : Point3 ℝ).mul 1) = ⟨0, 0, 11⟩ := by
    simp only [Point3.add, Point3.mul]
    norm_num
  have hlen : Real.sqrt (((⟨0, 0, 100⟩ : Point3 ℝ).sub ⟨0, 0, 10⟩).x
      * ((⟨0, 0, 100⟩ : Point3 ℝ).sub ⟨0, 0, 10⟩).x
      + ((⟨0, 0, 100⟩ : Point3 ℝ).sub ⟨0, 0, 10⟩).y * ((⟨0, 0, 100⟩ : Point3 ℝ).sub ⟨0, 0, 10⟩).y
      + ((⟨0, 0, 100⟩ : Point3 ℝ).sub ⟨0, 0, 10⟩).z * ((⟨0, 0, 100⟩ : Point3 ℝ).sub ⟨0, 0, 10⟩).z)
      = 90 := by
    simp only [Point3.sub]
    norm_num [h1]
  have hflag : shadowFlag Real.sqrt [(demoShinySphere : Object ℝ)] ⟨⟨0, 0, 11⟩, ⟨0, 0, 1⟩⟩ 90
      = true := by
    simp only [shadowFlag, List.any, demoShinySphere, Object.getIntersectionT,
      Sphere.getIntersectionT, demoBase, dotProduct, Point3.sub]
    norm_num [h4]
  simp only [lightIter, hst, List.getElem?_cons_zero, Option.getD_some, demoEnv, hdir, hn, hr,
    hstart, hL, hlen, hflag, if_true]
  simp only [addLocal, diffuseTerm, specularTerm, demoShinySphere, Object.base, demoBase,
    demoRay, dotProduct]
  norm_num

theorem demoShiny_color :
    (intersect (demoEnv Real.sqrt 1 [⟨0, 0, 100⟩]) [(demoShinySphere : Object ℝ)] 0
      demoRay ⟨0, 0, 0⟩ 1).color = ⟨3 / 4, 3 / 4, 3 / 4⟩ := by
  have hen : (demoShinySphere : Object ℝ).enter Real.sqrt demoRay 1 =
      .shade 190 ⟨0, 0, 10⟩ demoShinySphere ⟨1 / 4, 1 / 4, 1 / 4⟩ := by
    have hT := demoSphere_T
    simp only [demoBase] at hT
    simp only [demoShinySphere, Object.enter, enterPlain, Object.getIntersectionT,
      Sphere.getIntersectionT, ambientColor, Object.base, demoBase]
    simp only [Sphere.getIntersectionT] at hT
    simp only [hT]
    simp only [demoRay, Point3.add, Point3.mul]
    norm_num
  rw [intersect_eq]
  simp only [List.getElem?_cons_zero]
  rw [show (demoEnv Real.sqrt 1 [(⟨0, 0, 100⟩ : Point3 ℝ)]).sqrt = Real.sqrt from rfl, hen]
  simp only
  rw [lightLoop_single _ _ _ _ _ _ _ ⟨0, 0, 100⟩ rfl,
    recurOf_none (demoEnv Real.sqrt 1 [(⟨0, 0, 100⟩ : Point3 ℝ)]) 1 (le_refl _),
    demoShiny_lightIter _ rfl]
  norm_num
  apply clampColor_id
  simp only [Color.InUnit]
  norm_num

/-- C20 (the code at the failing input).  The code computes
`phong = pow(dot, shine)` and clamps `phong` afterwards.  This agrees with the
specified `(max(0, dot))^shine` when `dot ≥ 0`, when `shine` is odd, and when
`shine = 0`; for `dot < 0` and an even `shine ≠ 0` the specified term is 0 while the
code adds `source_factor * dot^shine * specularCoeff * color[k] > 0`.  Scenario 1
with `shine = 2`: `dot = -1`, the code's term is `1/4`, and `intersect` returns `3/4`
per channel (ambient + diffuse + specular) where the specified value is `1/2`. -/
theorem c20_specular_clamped_after_power :
    (∀ (o : Base ℝ) (reflection rayDir : Point3 ℝ) (colk : ℝ),
      (0 ≤ dotProduct reflection rayDir ∨ Odd o.shine ∨ o.shine = 0) →
      specularTerm o reflection rayDir colk = specSpecularTerm o reflection rayDir colk) ∧
    (∀ (o : Base ℝ) (reflection rayDir : Point3 ℝ) (colk : ℝ),
      dotProduct reflection rayDir < 0 → Even o.shine → o.shine ≠ 0 →
      specSpecularTerm o reflection rayDir colk = 0 ∧
      0 < dotProduct reflection rayDir ^ o.shine ∧
      specularTerm o reflection rayDir colk =
        o.source_factor * dotProduct reflection rayDir ^ o.shine
          * o.co_efficients.specular * colk) ∧
    (specSpecularTerm (demoShinySphere : Object ℝ).base ⟨0, 0, 1⟩ (demoRay : Ray ℝ).dir 1 = 0 ∧
      specularTerm (demoShinySphere : Object ℝ).base ⟨0, 0, 1⟩ (demoRay : Ray ℝ).dir 1 = 1 / 4 ∧
      (intersect (demoEnv Real.sqrt 1 [⟨0, 0, 100⟩]) [(demoShinySphere : Object ℝ)] 0
        demoRay ⟨0, 0, 0⟩ 1).color = ⟨3 / 4, 3 / 4, 3 / 4⟩) := by
  refine ⟨fun o r d colk h => ?_, fun o r d colk hneg hev hne => ?_, ?_, ?_, demoShiny_color⟩
  · rw [specularTerm_eq_max]
    simp only [specSpecularTerm]
    rcases h with h | h | h
    · rw [max_eq_right h, max_eq_right (zpow_nonneg h _)]
    · rcases le_or_lt 0 (dotProduct r d) with h0 | h0
      · rw [max_eq_right h0, max_eq_right (zpow_nonneg h0 _)]
      · have hn0 : o.shine ≠ 0 := by
          intro h00
          rw [h00] at h
          exact absurd h (by decide)
        rw [max_eq_left (le_of_lt h0), max_eq_left (le_of_lt (h.zpow_neg h0)),
          zero_zpow _ hn0]
    · rw [h]
      simp
  · refine ⟨?_, hev.zpow_pos (ne_of_lt hneg), ?_⟩
    · simp only [specSpecularTerm]
      rw [max_eq_left (le_of_lt hneg), zero_zpow _ hne]
      ring
    · rw [specularTerm_eq_max, max_eq_right (le_of_lt (hev.zpow_pos (ne_of_lt hneg)))]
  · simp only [specSpecularTerm, demoShinySphere, Object.base, demoBase, demoRay, dotProduct]
    norm_num
  · simp only [specularTerm, demoShinySphere, Object.base, demoBase, demoRay, dotProduct]
    norm_num

/-! ## C21: returned roots lie on the surface -/

/-- The quadratic solved by `GeneralQuadratic::getIntersectionT` is the implicit
equation along the ray. -/
theorem quadric_quadratic_eq_surface (q : Quadric ℝ) (ray : Ray ℝ) (s : ℝ) :
    GeneralQuadratic.quadratic q ray s = GeneralQuadratic.surface q (ray.at s) := by
  simp only [GeneralQuadratic.quadratic, GeneralQuadratic.coefA, GeneralQuadratic.coefB,
    GeneralQuadratic.coefC, GeneralQuadratic.surface, Ray.at, Point3.add, Point3.mul]
  ring

/-- With `a ≠ 0` and `d ≥ 0` the value returned by `Sphere::getIntersectionT` is a
root of its quadratic. -/
theorem sphere_result_root (o : Base ℝ) (ray : Ray ℝ) (ha : Sphere.coefA ray ≠ 0)
    (hd : 0 ≤ Sphere.discr o ray) :
    Sphere.quadratic o ray (Sphere.getIntersectionT Real.sqrt o ray) = 0 := by
  have hsq := Real.mul_self_sqrt hd
  have hq : ∀ s, Sphere.quadratic o ray s
      = Sphere.coefA ray * s ^ 2 + Sphere.coefB o ray * s + Sphere.coefC o ray := fun s => rfl
  have key : ∀ a b c sd e : ℝ, a ≠ 0 → sd * sd = b * b - 4 * a * c → (e = 1 ∨ e = -1) →
      a * ((-b + e * sd) / (2 * a)) ^ 2 + b * ((-b + e * sd) / (2 * a)) + c = 0 := by
    intro a b c sd e h hs he
    field_simp
    rcases he with he | he <;> subst he <;> nlinarith [hs]
  rw [sphere_T_of_discr_nonneg o ray hd, hq]
  simp only [Sphere.discr] at hsq
  rcases min_choice ((-Sphere.coefB o ray + Real.sqrt (Sphere.discr o ray)) / (2 * Sphere.coefA ray))
      ((-Sphere.coefB o ray - Real.sqrt (Sphere.discr o ray)) / (2 * Sphere.coefA ray)) with h | h
  · rw [h]
    have := key _ _ (Sphere.coefC o ray) _ 1 ha hsq (Or.inl rfl)
    simpa [Sphere.discr] using this
  · rw [h]
    have := key _ _ (Sphere.coefC o ray) _ (-1) ha hsq (Or.inr rfl)
    simpa [Sphere.discr, sub_eq_add_neg] using this

/-- C21.  With leading coefficient `a ≠ 0` and discriminant `≥ 0`: the value `t`
returned by `Sphere::getIntersectionT` gives a point `p = start + t*dir` with
`|p - center|^2 = r^2`; and whenever `GeneralQuadratic::getIntersectionT` returns a
value other than the no-hit `-1`, the point `p` satisfies
`A x^2 + B y^2 + C z^2 + D xy + E yz + F zx + G x + H y + I z + J = 0`. -/
theorem c21_roots_on_surface :
    (∀ (o : Base ℝ) (ray : Ray ℝ), Sphere.coefA ray ≠ 0 → 0 ≤ Sphere.discr o ray →
      ((ray.at (Sphere.getIntersectionT Real.sqrt o ray)).sub o.reference_point).normSq
        = o.length ^ 2) ∧
    (∀ (o : Base ℝ) (q : Quadric ℝ) (ray : Ray ℝ), GeneralQuadratic.coefA q ray ≠ 0 →
      0 ≤ GeneralQuadratic.discr q ray →
      GeneralQuadratic.getIntersectionT Real.sqrt o q ray ≠ -1 →
      GeneralQuadratic.surface q
        (ray.at (GeneralQuadratic.getIntersectionT Real.sqrt o q ray)) = 0) := by
  constructor
  · intro o ray ha hd
    have h := sphere_result_root o ray ha hd
    rw [sphere_quadratic_eq] at h
    linarith [h, sq (o.length)]
  · intro o q ray ha hd hne
    rw [← quadric_quadratic_eq_surface, quadric_roots q ray ha hd]
    rw [quadric_getIntersectionT_eq o q ray hd] at hne ⊢
    split_ifs at hne ⊢ with h1 h2 h3
    · exact absurd rfl hne
    · simp
    · simp
    · rcases min_choice (GeneralQuadratic.t1 Real.sqrt q ray)
        (GeneralQuadratic.t2 Real.sqrt q ray) with h | h <;> rw [h] <;> simp

/-! ## C22: Snell's law in `getRefraction` -/

/-- C22.  For a unit ray direction `d`, a unit normal `n` and a radicand `k ≥ 0`, the
vector `d * refIdx - n * (refIdx * (n.d) + sqrt(k))` already has length 1, so the
final `normalize` of `getRefraction` leaves it as it is; the result `r` is a unit
vector and `r - (r.n) n = refIdx * (d - (d.n) n)`. -/
theorem c22_refraction_snell (refIdx : ℝ) (ray : Ray ℝ) (n : Point3 ℝ)
    (hd : ray.dir.len Real.sqrt = 1) (hn : n.len Real.sqrt = 1)
    (hk : 0 ≤ refractionK refIdx ray n) :
    (refractionVec Real.sqrt refIdx ray n).len Real.sqrt = 1 ∧
    getRefraction Real.sqrt refIdx ray n = refractionVec Real.sqrt refIdx ray n ∧
    (getRefraction Real.sqrt refIdx ray n).len Real.sqrt = 1 ∧
    (getRefraction Real.sqrt refIdx ray n).sub
        (n.mul (dotProduct (getRefraction Real.sqrt refIdx ray n) n))
      = (ray.dir.sub (n.mul (dotProduct ray.dir n))).mul refIdx := by
  have hd1 := normSq_of_len _ hd
  have hn1 := normSq_of_len _ hn
  have hv : (refractionVec Real.sqrt refIdx ray n).normSq = 1 :=
    refractionVec_normSq refIdx ray n hd1 hn1 hk
  have hr : getRefraction Real.sqrt refIdx ray n = refractionVec Real.sqrt refIdx ray n := by
    rw [getRefraction_eq, if_pos hk, normalize_of_unit _ hv]
  refine ⟨len_of_normSq _ hv, hr, by rw [hr]; exact len_of_normSq _ hv, ?_⟩
  rw [hr]
  simp only [Point3.normSq] at hn1
  simp only [refractionVec, Point3.sub, Point3.mul, dotProduct, Point3.mk.injEq]
  set s := Real.sqrt (refractionK refIdx ray n)
  refine ⟨?_, ?_, ?_⟩
  · linear_combination
      (n.x * (refIdx * (n.x * ray.dir.x + n.y * ray.dir.y + n.z * ray.dir.z) + s)) * hn1
  · linear_combination
      (n.y * (refIdx * (n.x * ray.dir.x + n.y * ray.dir.y + n.z * ray.dir.z) + s)) * hn1
  · linear_combination
      (n.z * (refIdx * (n.x * ray.dir.x + n.y * ray.dir.y + n.z * ray.dir.z) + s)) * hn1

/-- C22 (witness): scenario 1, direction `(0,0,-1)`, normal `(0,0,1)`, `refIdx = 1.5`. -/
theorem c22_refraction_snell_witness :
    (getRefraction Real.sqrt (3 / 2) (demoRay : Ray ℝ) ⟨0, 0, 1⟩).len Real.sqrt = 1 :=
  (c22_refraction_snell (3 / 2) demoRay ⟨0, 0, 1⟩
    (by simp only [Point3.len, Point3.normSq, demoRay]; norm_num)
    (by simp only [Point3.len, Point3.normSq]; norm_num)
    (by simp only [refractionK, demoRay, dotProduct]; norm_num)).2.2.1

/-! ## C23: `getNormal` is the surface normal -/

/-- Expansion of the implicit equation around `p`: the vector of `getNormal` is the
coefficient of the first-order term, that is, the gradient. -/
theorem quadric_surface_expand (q : Quadric ℝ) (p h : Point3 ℝ) :
    GeneralQuadratic.surface q (p.add h) =
      GeneralQuadratic.surface q p + dotProduct (GeneralQuadratic.gradient q p) h
        + GeneralQuadratic.quadForm q h := by
  simp only [GeneralQuadratic.surface, GeneralQuadratic.gradient, GeneralQuadratic.quadForm,
    dotProduct, Point3.add]
  ring

/-- C23.  `Sphere::getNormal` is `(point - center)` scaled by the non-negative factor
`1 / |point - center|`; `Triangle::getNormal` is orthogonal to both edges `b - a`
and `c - a`; `Floor::getNormal` is `(0,0,1)`; `GeneralQuadratic::getNormal` is the
vector `(2Ax + Dy + Fz + G, 2By + Dx + Ez + H, 2Cz + Ey + Fx + I)` scaled by a
non-negative factor, that vector is the gradient of the implicit equation (the
first-order coefficient of its expansion around the point), and that implicit
equation is the one whose roots `getIntersectionT` solves along the ray. -/
theorem c23_normal_is_surface_normal :
    (∀ (o : Base ℝ) (p : Point3 ℝ),
      Sphere.getNormal Real.sqrt o p
        = (p.sub o.reference_point).mul (1 / (p.sub o.reference_point).len Real.sqrt) ∧
      0 ≤ 1 / (p.sub o.reference_point).len Real.sqrt) ∧
    (∀ (a b c p : Point3 ℝ),
      dotProduct (Triangle.getNormal Real.sqrt a b c p) (b.sub a) = 0 ∧
      dotProduct (Triangle.getNormal Real.sqrt a b c p) (c.sub a) = 0) ∧
    (∀ p : Point3 ℝ, Floor.getNormal Real.sqrt p = ⟨0, 0, 1⟩) ∧
    (∀ (q : Quadric ℝ) (p : Point3 ℝ),
      GeneralQuadratic.gradient q p
        = ⟨2 * q.A * p.x + q.D * p.y + q.F * p.z + q.G,
           2 * q.B * p.y + q.D * p.x + q.E * p.z + q.H,
           2 * q.C * p.z + q.E * p.y + q.F * p.x + q.I⟩ ∧
      GeneralQuadratic.getNormal Real.sqrt q p
        = (GeneralQuadratic.gradient q p).mul
            (1 / (GeneralQuadratic.gradient q p).len Real.sqrt) ∧
      0 ≤ 1 / (GeneralQuadratic.gradient q p).len Real.sqrt ∧
      (∀ h : Point3 ℝ, GeneralQuadratic.surface q (p.add h) =
        GeneralQuadratic.surface q p + dotProduct (GeneralQuadratic.gradient q p) h
          + GeneralQuadratic.quadForm q h) ∧
      (∀ (ray : Ray ℝ) (s : ℝ),
        GeneralQuadratic.quadratic q ray s = GeneralQuadratic.surface q (ray.at s))) := by
  have hdiv : ∀ v : Point3 ℝ, v.normalize Real.sqrt = v.mul (1 / v.len Real.sqrt) := by
    intro v
    simp only [Point3.normalize, Point3.div, Point3.mul, Point3.len, Point3.normSq,
      Point3.mk.injEq]
    refine ⟨?_, ?_, ?_⟩ <;> rw [mul_one_div]
  have hpos : ∀ v : Point3 ℝ, 0 ≤ 1 / v.len Real.sqrt := by
    intro v
    simp only [Point3.len]
    exact div_nonneg zero_le_one (Real.sqrt_nonneg _)
  refine ⟨fun o p => ⟨hdiv _, hpos _⟩, fun a b c p => ?_, fun p => ?_,
    fun q p => ⟨rfl, hdiv _, hpos _, quadric_surface_expand q p,
      quadric_quadratic_eq_surface q⟩⟩
  · simp only [Triangle.getNormal, Point3.normalize, Point3.div, crossProduct, dotProduct,
      Point3.sub]
    constructor <;> ring
  · simp only [Floor.getNormal, Point3.normalize, Point3.div]
    norm_num

/-! ## C24: the checkerboard of `Floor::intersect` -/

/-- Whenever `Floor::intersect` goes on to shade, the member `color` holds the tile
colour of the intersection point. -/
theorem Floor_enter_tileColor (sqrt : ℝ → ℝ) (o : Base ℝ)
    (bd : Int → Int → Fin 256 × Fin 256 × Fin 256) (bh bw : ℝ) (ray : Ray ℝ) (t : ℝ)
    (p : Point3 ℝ) (self0 : Object ℝ) (c0 : Color ℝ)
    (h : Floor.enter sqrt o bd bh bw ray = .shade t p self0 c0) :
    p = ray.at (Floor.getIntersectionT sqrt o ray) ∧
    self0.base.color = Floor.tileColor o.length p := by
  simp only [Floor.enter] at h
  split_ifs at h with h1 h2
  · obtain ⟨_, hp, hs, _⟩ := Entry.shade.inj h
    subst hp; subst hs
    refine ⟨rfl, ?_⟩
    simp only [Object.base, Floor.tileColor, if_pos h2]
  · obtain ⟨_, hp, hs, _⟩ := Entry.shade.inj h
    subst hp; subst hs
    refine ⟨rfl, ?_⟩
    simp only [Object.base, Floor.tileColor, if_neg h2]

/-- Truncation of a negative number is its ceiling. -/
theorem toInt_of_neg (x : ℝ) (n : Int) (h0 : x < 0) (h1 : (n : ℝ) - 1 < x) (h2 : x ≤ n) :
    toInt x = n := by
  simp only [toInt]
  rw [if_neg (not_le.mpr h0), Int.ceil_eq_iff]
  exact ⟨h1, h2⟩

/-- Truncation of a non-negative number is its floor. -/
theorem toInt_eq_floor (x : ℝ) (h : 0 ≤ x) : toInt x = Int.floor x := by
  simp only [toInt, if_pos h]

/-- In the quadrant `x ≥ 0`, `y ≥ 0` the tile colour is the parity of
`floor(x/L) + floor(y/L)`. -/
theorem tileColor_first_quadrant (L : ℝ) (p : Point3 ℝ) (hx : 0 ≤ p.x / L) (hy : 0 ≤ p.y / L) :
    Floor.tileColor L p =
      if (Int.floor (p.x / L) + Int.floor (p.y / L)) % 2 = 1 then ⟨0, 0, 0⟩ else ⟨1, 1, 1⟩ := by
  have h1 : 0 ≤ Int.floor (p.x / L) := Int.floor_nonneg.mpr hx
  have h2 : 0 ≤ Int.floor (p.y / L) := Int.floor_nonneg.mpr hy
  simp only [Floor.tileColor, toInt_eq_floor _ hx, toInt_eq_floor _ hy]
  rw [Int.tmod_eq_emod (by omega) (by norm_num)]
  rcases Int.emod_two_eq (Int.floor (p.x / L) + Int.floor (p.y / L)) with h | h
  · rw [if_neg (by omega), if_neg (by omega)]
  · rw [if_pos (by omega), if_pos (by omega)]

/-- C24 (the code at the failing input). `int xCord = intersectionPoint.x / length`
truncates toward zero, so the tiles on both sides of each axis merge. For the floor of
width 100 and tile size 10: the points (-5, 5, 0) and (5, 5, 0) lie inside the square
in the edge-adjacent tiles with indices (-1, 0) and (0, 0), and both get white; the
points (-10, 5, 0) and (-5, 5, 0) lie in the same tile (-1, 0) and get black and white.
`intersect` on the rays from (-5, 5, 10) and (5, 5, 10) straight down leaves the floor
with base colour white both times. In the quadrant `x ≥ 0`, `y ≥ 0`, where truncation
is the floor, the property holds: same tile, same colour; edge-adjacent tiles, one
black and one white. -/
theorem c24_tiles_along_axes_merge :
    (Int.floor ((-5 : ℝ) / 10) = -1 ∧ Int.floor ((5 : ℝ) / 10) = 0 ∧
      Floor.tileColor (10 : ℝ) ⟨-5, 5, 0⟩ = ⟨1, 1, 1⟩ ∧
      Floor.tileColor (10 : ℝ) ⟨5, 5, 0⟩ = ⟨1, 1, 1⟩) ∧
    (Int.floor ((-10 : ℝ) / 10) = -1 ∧
      Floor.tileColor (10 : ℝ) ⟨-10, 5, 0⟩ = ⟨0, 0, 0⟩) ∧
    (∀ (cur : Color ℝ) (level : Int),
      ((intersect (demoEnv Real.sqrt 0 []) [(demoFloor : Object ℝ)] 0
          ⟨⟨-5, 5, 10⟩, ⟨0, 0, -1⟩⟩ cur level).objects.map (fun o => o.base.color))
        = [⟨1, 1, 1⟩] ∧
      ((intersect (demoEnv Real.sqrt 0 []) [(demoFloor : Object ℝ)] 0
          ⟨⟨5, 5, 10⟩, ⟨0, 0, -1⟩⟩ cur level).objects.map (fun o => o.base.color))
        = [⟨1, 1, 1⟩]) ∧
    (∀ (L : ℝ) (p1 p2 : Point3 ℝ), 0 ≤ p1.x / L → 0 ≤ p1.y / L → 0 ≤ p2.x / L → 0 ≤ p2.y / L →
      ((Int.floor (p1.x / L) = Int.floor (p2.x / L) ∧
          Int.floor (p1.y / L) = Int.floor (p2.y / L)) →
        Floor.tileColor L p1 = Floor.tileColor L p2) ∧
      ((|Int.floor (p1.x / L) - Int.floor (p2.x / L)| = 1 ∧
            Int.floor (p1.y / L) = Int.floor (p2.y / L)) ∨
          (Int.floor (p1.x / L) = Int.floor (p2.x / L) ∧
            |Int.floor (p1.y / L) - Int.floor (p2.y / L)| = 1) →
        (Floor.tileColor L p1 = ⟨0, 0, 0⟩ ∧ Floor.tileColor L p2 = ⟨1, 1, 1⟩) ∨
        (Floor.tileColor L p1 = ⟨1, 1, 1⟩ ∧ Floor.tileColor L p2 = ⟨0, 0, 0⟩))) := by
  have hI : toInt ((1 : ℝ) / 2) = 0 := toInt_unit _ (by norm_num) (by norm_num)
  have hJ : toInt (-((1 : ℝ) / 2)) = 0 :=
    toInt_of_neg _ 0 (by norm_num) (by norm_num) (by norm_num)
  have hK : toInt (-1 : ℝ) = -1 := toInt_of_neg _ (-1) (by norm_num) (by norm_num) (by norm_num)
  have hm0 : Int.tmod 0 2 = 0 := by decide
  have hm1 : Int.tmod (-1) 2 = -1 := by decide
  have c1 : Floor.tileColor (10 : ℝ) ⟨-5, 5, 0⟩ = ⟨1, 1, 1⟩ := by
    simp only [Floor.tileColor]
    norm_num [hI, hJ, hm0]
  have c2 : Floor.tileColor (10 : ℝ) ⟨5, 5, 0⟩ = ⟨1, 1, 1⟩ := by
    simp only [Floor.tileColor]
    norm_num [hI, hm0]
  have c3 : Floor.tileColor (10 : ℝ) ⟨-10, 5, 0⟩ = ⟨0, 0, 0⟩ := by
    simp only [Floor.tileColor]
    norm_num [hI, hK, hm1]
  have hobj : ∀ (x : ℝ) (cur : Color ℝ) (level : Int), -50 ≤ x → x ≤ 50 →
      Floor.tileColor (10 : ℝ) ⟨x, 5, 0⟩ = ⟨1, 1, 1⟩ →
      ((intersect (demoEnv Real.sqrt 0 []) [(demoFloor : Object ℝ)] 0
          ⟨⟨x, 5, 10⟩, ⟨0, 0, -1⟩⟩ cur level).objects.map (fun o => o.base.color))
        = [⟨1, 1, 1⟩] := by
    intro x cur level hx1 hx2 hc
    have hT : Floor.getIntersectionT Real.sqrt (demoBase (⟨-50, -50, 0⟩ : Point3 ℝ) 10)
        ⟨⟨x, 5, 10⟩, ⟨0, 0, -1⟩⟩ = 10 := by
      simp only [Floor.getIntersectionT, Floor.getNormal, Point3.normalize, Point3.div,
        dotProduct, demoBase]
      norm_num
    rcases intersect_cases (demoEnv Real.sqrt 0 []) [(demoFloor : Object ℝ)] 0
        ⟨⟨x, 5, 10⟩, ⟨0, 0, -1⟩⟩ cur level with
      ⟨t, hr, _⟩ | ⟨self, t, p, self0, c0, hself, hen, hr⟩
    · rw [hr]; rfl
    · simp only [List.getElem?_cons_zero, Option.some.injEq] at hself
      subst hself
      have hen' : Floor.enter Real.sqrt (demoBase (⟨-50, -50, 0⟩ : Point3 ℝ) 10)
          (fun _ _ => (255, 255, 255)) 1 1 ⟨⟨x, 5, 10⟩, ⟨0, 0, -1⟩⟩ = .shade t p self0 c0 := hen
      obtain ⟨hp, hcol⟩ := Floor_enter_tileColor _ _ _ _ _ _ _ _ _ _ hen'
      rw [hT] at hp
      have hp' : p = ⟨x, 5, 0⟩ := by
        rw [hp]
        simp only [Ray.at, Point3.add, Point3.mul]
        norm_num
      rw [hp'] at hcol
      have hlen : (demoBase (⟨-50, -50, 0⟩ : Point3 ℝ) 10).length = 10 := rfl
      rw [hlen, hc] at hcol
      rw [hr]
      simp only [lightLoop, demoEnv, List.foldl, List.set_cons_zero, List.map, hcol]
  refine ⟨⟨?_, ?_, c1, c2⟩, ⟨?_, c3⟩, fun cur level =>
    ⟨hobj (-5) cur level (by norm_num) (by norm_num) c1,
      hobj 5 cur level (by norm_num) (by norm_num) c2⟩, ?_⟩
  · rw [Int.floor_eq_iff]; norm_num
  · rw [Int.floor_eq_iff]; norm_num
  · rw [Int.floor_eq_iff]; norm_num
  · intro L p1 p2 hx1 hy1 hx2 hy2
    rw [tileColor_first_quadrant L p1 hx1 hy1, tileColor_first_quadrant L p2 hx2 hy2]
    constructor
    · rintro ⟨h1, h2⟩
      rw [h1, h2]
    · intro h
      have hpar : (Int.floor (p1.x / L) + Int.floor (p1.y / L)) % 2
          ≠ (Int.floor (p2.x / L) + Int.floor (p2.y / L)) % 2 := by
        rcases h with ⟨h1, h2⟩ | ⟨h1, h2⟩
        · rcases (abs_eq (by norm_num : (0 : Int) ≤ 1)).mp h1 with h | h <;> omega
        · rcases (abs_eq (by norm_num : (0 : Int) ≤ 1)).mp h2 with h | h <;> omega
      rcases Int.emod_two_eq (Int.floor (p1.x / L) + Int.floor (p1.y / L)) with e1 | e1 <;>
      rcases Int.emod_two_eq (Int.floor (p2.x / L) + Int.floor (p2.y / L)) with e2 | e2
      · omega
      · right; rw [if_neg (by omega), if_pos e2]; exact ⟨rfl, rfl⟩
      · left; rw [if_pos e1, if_neg (by omega)]; exact ⟨rfl, rfl⟩
      · omega

/-! ## C25: no light, no secondary ray -/

/-- Writing back the element already stored at an index leaves the list unchanged. -/
theorem List_set_getElem_some {β : Type} : ∀ (xs : List β) (i : Nat) (a : β),
    xs[i]? = some a → xs.set i a = xs
  | [], _, _, h => by simp at h
  | x :: xs, 0, a, h => by
    simp only [List.getElem?_cons_zero, Option.some.injEq] at h
    simp only [List.set_cons_zero, h]
  | x :: xs, i + 1, a, h => by
    simp only [List.getElem?_cons_succ] at h
    simp only [List.set_cons_succ, List_set_getElem_some xs i a h]

/-- A Sphere, Triangle or GeneralQuadratic with a positive intersection parameter,
entered at a level other than 0, goes on to shade from the ambient colour. -/
theorem Object.enter_plain_hit (sqrt : ℝ → ℝ) (self : Object ℝ) (ray : Ray ℝ) (level : Int)
    (hnf : self.isFloor = false) (hhit : 0 < self.getIntersectionT sqrt ray)
    (hlevel : level ≠ 0) :
    self.enter sqrt ray level =
      .shade (self.getIntersectionT sqrt ray) (ray.at (self.getIntersectionT sqrt ray)) self
        (ambientColor self.base) := by
  have plain : enterPlain sqrt self ray level =
      .shade (self.getIntersectionT sqrt ray) (ray.at (self.getIntersectionT sqrt ray)) self
        (ambientColor self.base) := by
    simp only [enterPlain, if_neg (not_le.mpr hhit), if_neg hlevel, Ray.at]
  cases self with
  | sphere o => exact plain
  | triangle o a b c => exact plain
  | generalQuadratic o q => exact plain
  | floor o bd bh bw => simp [Object.isFloor] at hnf

/-- Without recursion a light iteration leaves the scene untouched. -/
theorem lightIter_none_objects (env : Env ℝ) (idx : Nat) (self0 : Object ℝ) (ray : Ray ℝ)
    (level : Int) (p : Point3 ℝ) (st : LoopState ℝ) (light : Point3 ℝ) :
    (lightIter env none idx self0 ray level p st light).objects = st.objects := by
  rw [lightIter_none_eq]
  simp only [iterLocal]
  split_ifs <;> rfl

theorem foldl_lightIter_none_objects (env : Env ℝ) (idx : Nat) (self0 : Object ℝ) (ray : Ray ℝ)
    (level : Int) (p : Point3 ℝ) : ∀ (ls : List (Point3 ℝ)) (st : LoopState ℝ),
    (ls.foldl (lightIter env none idx self0 ray level p) st).objects = st.objects
  | [], _ => rfl
  | l :: ls, st => by
    rw [List.foldl_cons, foldl_lightIter_none_objects env idx self0 ray level p ls,
      lightIter_none_objects]

/-- The floor of the examples hit at its centre from `(0,0,9)`: white tile. -/
theorem demoFloor_enter_centre :
    Floor.enter Real.sqrt (demoBase (⟨-50, -50, 0⟩ : Point3 ℝ) 10) (fun _ _ => (255, 255, 255)) 1 1
      ⟨⟨0, 0, 9⟩, ⟨0, 0, -1⟩⟩ =
    .shade 9 ⟨0, 0, 0⟩ (demoFloor : Object ℝ) ⟨1 / 4, 1 / 4, 1 / 4⟩ := by
  have hT : Floor.getIntersectionT Real.sqrt (demoBase (⟨-50, -50, 0⟩ : Point3 ℝ) 10)
      ⟨⟨0, 0, 9⟩, ⟨0, 0, -1⟩⟩ = 9 := by
    simp only [Floor.getIntersectionT, Floor.getNormal, Point3.normalize, Point3.div,
      dotProduct, demoBase]
    norm_num
  have hI : toInt (0 : ℝ) = 0 := toInt_unit _ (by norm_num) (by norm_num)
  have hm : Int.tmod 0 2 = 0 := by decide
  have h255 : (((255 : Fin 256) : ℕ) : ℝ) = 255 := by
    rw [show ((255 : Fin 256) : ℕ) = 255 from rfl]; norm_num
  simp only [Floor.enter, hT]
  simp only [Point3.add, Point3.mul, demoBase, demoFloor]
  norm_num [hI, hm, h255]

/-- The nested call on the floor below the sphere, made at the last level: the
scene comes back unchanged and no further call is made. -/
theorem demo_nested_floor (ls : List (Point3 ℝ)) (cur : Color ℝ) :
    (intersect (demoEnv Real.sqrt 2 ls) [(demoSphere : Object ℝ), demoFloor] 1
      ⟨⟨0, 0, 9⟩, ⟨0, 0, -1⟩⟩ cur 2).objects = [demoSphere, demoFloor] := by
  rcases intersect_cases (demoEnv Real.sqrt 2 ls) [(demoSphere : Object ℝ), demoFloor] 1
      ⟨⟨0, 0, 9⟩, ⟨0, 0, -1⟩⟩ cur 2 with
    ⟨t, hr, _⟩ | ⟨self, t, p, self0, c0, hself, hen, hr⟩
  · rw [hr]
  · simp only [List.getElem?_cons_succ, List.getElem?_cons_zero, Option.some.injEq] at hself
    subst hself
    have hen' : Floor.enter Real.sqrt (demoBase (⟨-50, -50, 0⟩ : Point3 ℝ) 10)
        (fun _ _ => (255, 255, 255)) 1 1 ⟨⟨0, 0, 9⟩, ⟨0, 0, -1⟩⟩ = .shade t p self0 c0 := hen
    rw [demoFloor_enter_centre] at hen'
    obtain ⟨_, _, hs, _⟩ := Entry.shade.inj hen'
    subst hs
    rw [hr]
    simp only [lightLoop]
    rw [recurOf_none _ _ (by simp [demoEnv]), foldl_lightIter_none_objects]
    rfl

/-- One light iteration for the sphere of scenario 1 above the floor, light at
`(0,0,100)`, at level 1 of 2: the reflection ray (upwards) hits nothing, the
refraction ray (downwards) selects the floor, so exactly one nested call is logged
and the scene is handed on unchanged. -/
theorem demo_iter_trace (ls : List (Point3 ℝ)) (st : LoopState ℝ)
    (ho : st.objects = [demoSphere, demoFloor]) :
    (lightIter (demoEnv Real.sqrt 2 ls) (recurOf (demoEnv Real.sqrt 2 ls) 1) 0
        (demoSphere : Object ℝ) demoRay 1 ⟨0, 0, 10⟩ st ⟨0, 0, 100⟩).objects
      = [demoSphere, demoFloor] ∧
    (lightIter (demoEnv Real.sqrt 2 ls) (recurOf (demoEnv Real.sqrt 2 ls) 1) 0
        (demoSphere : Object ℝ) demoRay 1 ⟨0, 0, 10⟩ st ⟨0, 0, 100⟩).calls
      = st.calls ++ [(1, 2)] := by
  have h1 : Real.sqrt 8100 = 90 := sqrt_of_sq (by norm_num) (by norm_num)
  have h2 : Real.sqrt 100 = 10 := sqrt_of_sq (by norm_num) (by norm_num)
  have h4 : Real.sqrt 400 = 20 := sqrt_of_sq (by norm_num) (by norm_num)
  have hdir : ((⟨0, 0, 100⟩ : Point3 ℝ).sub ⟨0, 0, 10⟩).normalize Real.sqrt = ⟨0, 0, 1⟩ := by
    simp only [Point3.normalize, Point3.div, Point3.sub]
    norm_num [h1]
  have hn : (demoSphere : Object ℝ).shadeNormal Real.sqrt ⟨0, 0, 10⟩ ⟨0, 0, 1⟩ = ⟨0, 0, 1⟩ := by
    simp only [demoSphere, Object.shadeNormal, Sphere.getNormal, Point3.normalize, Point3.div,
      Point3.sub, demoBase]
    norm_num [h2]
  have hr : getReflection Real.sqrt (demoRay : Ray ℝ) ⟨0, 0, 1⟩ = ⟨0, 0, 1⟩ := by
    simp only [getReflection, demoRay, Point3.normalize, Point3.div, Point3.sub, Point3.mul,
      dotProduct]
    norm_num
  have hf : getRefraction Real.sqrt (3 / 2) (demoRay : Ray ℝ) ⟨0, 0, 1⟩ = ⟨0, 0, -1⟩ := by
    simp only [getRefraction, demoRay, Point3.normalize, Point3.div, Point3.sub, Point3.mul,
      dotProduct]
    norm_num
  have hreflRay : Ray.new Real.sqrt ((⟨0, 0, 10⟩ : Point3 ℝ).add ((⟨0, 0, 1⟩ : Point3 ℝ).mul 1))
      ⟨0, 0, 1⟩ = ⟨⟨0, 0, 11⟩, ⟨0, 0, 1⟩⟩ := by
    simp only [Ray.new, Point3.normalize, Point3.div, Point3.add, Point3.mul]
    norm_num
  have hrefrRay : Ray.new Real.sqrt
      ((⟨0, 0, 10⟩ : Point3 ℝ).add ((⟨0, 0, -1⟩ : Point3 ℝ).mul 1)) ⟨0, 0, -1⟩
      = ⟨⟨0, 0, 9⟩, ⟨0, 0, -1⟩⟩ := by
    simp only [Ray.new, Point3.normalize, Point3.div, Point3.add, Point3.mul]
    norm_num
  have hnear1 : (nearestHit Real.sqrt [(demoSphere : Object ℝ), demoFloor]
      ⟨⟨0, 0, 11⟩, ⟨0, 0, 1⟩⟩).1 = -1 := by
    simp only [nearestHit, List.map, demoSphere, demoFloor, Object.getIntersectionT,
      Sphere.getIntersectionT, Floor.getIntersectionT, Floor.getNormal, Point3.normalize,
      Point3.div, demoBase, dotProduct, Point3.sub, scanNearest, scanFrom, scanStep]
    norm_num [h4]
  have hnear2 : (nearestHit Real.sqrt [(demoSphere : Object ℝ), demoFloor]
      ⟨⟨0, 0, 9⟩, ⟨0, 0, -1⟩⟩).1 = 1 := by
    simp only [nearestHit, List.map, demoSphere, demoFloor, Object.getIntersectionT,
      Sphere.getIntersectionT, Floor.getIntersectionT, Floor.getNormal, Point3.normalize,
      Point3.div, demoBase, dotProduct, Point3.sub, scanNearest, scanFrom, scanStep]
    norm_num [h4]
  have hsq : (demoEnv Real.sqrt 2 ls).sqrt = Real.sqrt := rfl
  have key : ∀ st1 : LoopState ℝ, st1.objects = [demoSphere, demoFloor] →
      st1.calls = st.calls → ∀ w1 w2 : ℝ,
      (traceSecondary (demoEnv Real.sqrt 2 ls)
        (fun os k r => intersect (demoEnv Real.sqrt 2 ls) os k r ⟨0, 0, 0⟩ (1 + 1)) 1
        ⟨⟨0, 0, 9⟩, ⟨0, 0, -1⟩⟩ w2
        (traceSecondary (demoEnv Real.sqrt 2 ls)
          (fun os k r => intersect (demoEnv Real.sqrt 2 ls) os k r ⟨0, 0, 0⟩ (1 + 1)) 1
          ⟨⟨0, 0, 11⟩, ⟨0, 0, 1⟩⟩ w1 st1)).objects = [demoSphere, demoFloor] ∧
      (traceSecondary (demoEnv Real.sqrt 2 ls)
        (fun os k r => intersect (demoEnv Real.sqrt 2 ls) os k r ⟨0, 0, 0⟩ (1 + 1)) 1
        ⟨⟨0, 0, 9⟩, ⟨0, 0, -1⟩⟩ w2
        (traceSecondary (demoEnv Real.sqrt 2 ls)
          (fun os k r => intersect (demoEnv Real.sqrt 2 ls) os k r ⟨0, 0, 0⟩ (1 + 1)) 1
          ⟨⟨0, 0, 11⟩, ⟨0, 0, 1⟩⟩ w1 st1)).calls = st.calls ++ [(1, 2)] := by
    intro st1 ho1 hc w1 w2
    have e1 : traceSecondary (demoEnv Real.sqrt 2 ls)
          (fun os k r => intersect (demoEnv Real.sqrt 2 ls) os k r ⟨0, 0, 0⟩ (1 + 1)) 1
          ⟨⟨0, 0, 11⟩, ⟨0, 0, 1⟩⟩ w1 st1 = st1 := by
      simp only [traceSecondary, ho1]
      rw [hsq, hnear1]
      simp
    rw [e1]
    simp only [traceSecondary, ho1]
    rw [hsq, hnear2]
    rw [if_pos (by norm_num)]
    simp only [hc, intersect_level]
    rw [intersect_calls_nil _ _ _ _ _ _ (by simp [demoEnv])]
    refine ⟨?_, by norm_num⟩
    rw [show (1 : Int).toNat = 1 from rfl, show ((1 : Int) + 1) = 2 from rfl]
    exact demo_nested_floor ls _
  have hrec : recurOf (demoEnv Real.sqrt 2 ls) 1 =
      some (fun os k r => intersect (demoEnv Real.sqrt 2 ls) os k r ⟨0, 0, 0⟩ (1 + 1)) := by
    simp only [recurOf, demoEnv]
    rw [if_pos (by norm_num)]
  rw [hrec]
  simp only [lightIter, ho, List.getElem?_cons_zero, Option.getD_some]
  rw [hsq, hdir, hn, hr]
  rw [show (demoSphere : Object ℝ).base.refIdx = 3 / 2 from rfl, hf, hreflRay, hrefrRay]
  apply key
  · split_ifs <;> first | rfl | exact ho
  · split_ifs <;> rfl

/-- The same over `n` iterations for lights at `(0,0,100)`. -/
theorem demo_fold_trace (ls : List (Point3 ℝ)) : ∀ (n : Nat) (st : LoopState ℝ),
    st.objects = [demoSphere, demoFloor] →
    ((List.replicate n (⟨0, 0, 100⟩ : Point3 ℝ)).foldl
      (lightIter (demoEnv Real.sqrt 2 ls) (recurOf (demoEnv Real.sqrt 2 ls) 1) 0
        (demoSphere : Object ℝ) demoRay 1 ⟨0, 0, 10⟩) st).calls
      = st.calls ++ List.replicate n (1, 2)
  | 0, st, _ => by simp
  | n + 1, st, ho => by
    obtain ⟨h1, h2⟩ := demo_iter_trace ls st ho
    rw [List.replicate_succ, List.foldl_cons, demo_fold_trace ls n _ h1, h2,
      List.replicate_succ, List.append_assoc]
    rfl

/-- The sphere of scenario 1 above the floor, `n` lights at `(0,0,100)`, camera ray at
level 1 of 2: the refraction ray is traced once per light. -/
theorem demo_n_lights (n : Nat) (cur : Color ℝ) :
    (intersect (demoEnv Real.sqrt 2 (List.replicate n ⟨0, 0, 100⟩))
      [(demoSphere : Object ℝ), demoFloor] 0 demoRay cur 1).calls = List.replicate n (1, 2) := by
  rw [intersect_eq]
  simp only [List.getElem?_cons_zero]
  rw [show (demoEnv Real.sqrt 2 (List.replicate n (⟨0, 0, 100⟩ : Point3 ℝ))).sqrt = Real.sqrt
    from rfl, demoSphere_enter 1 (by norm_num)]
  have h := demo_fold_trace (List.replicate n ⟨0, 0, 100⟩) n
    ⟨⟨1 / 4, 1 / 4, 1 / 4⟩, [demoSphere, demoFloor], []⟩ rfl
  simp only [List.nil_append] at h
  exact h

/-- Without diffuse and specular coefficient the `if (flag)` block adds nothing. -/
theorem addLocal_dim (o : Base ℝ) (L n r d : Point3 ℝ) (cur : Color ℝ)
    (hd : o.co_efficients.diffuse = 0) (hs : o.co_efficients.specular = 0) :
    addLocal o L n r d cur = cur := by
  simp only [addLocal, diffuseTerm, specularTerm, hd, hs, mul_zero, zero_mul, add_zero]

/-- Then the state after the `if (flag)` block is the state before it. -/
theorem iterLocal_dim (env : Env ℝ) (idx : Nat) (self0 : Object ℝ) (ray : Ray ℝ)
    (p : Point3 ℝ) (st : LoopState ℝ) (light : Point3 ℝ)
    (hd : (iterSelf idx self0 st).base.co_efficients.diffuse = 0)
    (hs : (iterSelf idx self0 st).base.co_efficients.specular = 0) :
    iterLocal env idx self0 ray p st light = st := by
  simp only [iterLocal, addLocal_dim _ _ _ _ _ _ hd hs]
  split_ifs <;> rfl

/-- A Sphere, Triangle or GeneralQuadratic with diffuse and specular coefficient 0
and ambient colour in range, hit at the last level: whatever the lights are, the
call returns the ambient colour, makes no nested call and leaves the scene as it
was. -/
theorem intersect_dim_leaf (env : Env ℝ) (objs : List (Object ℝ)) (idx : Nat) (ray : Ray ℝ)
    (cur : Color ℝ) (level : Int) (self : Object ℝ)
    (hself : objs[idx]? = some self) (hnf : self.isFloor = false)
    (hhit : 0 < self.getIntersectionT env.sqrt ray) (hlevel : level ≠ 0)
    (hR : env.recursion_level ≤ level)
    (hd : self.base.co_efficients.diffuse = 0) (hs : self.base.co_efficients.specular = 0)
    (hamb : (ambientColor self.base).InUnit) :
    intersect env objs idx ray cur level =
      ⟨self.getIntersectionT env.sqrt ray, ambientColor self.base, objs, level, []⟩ := by
  have hen := Object.enter_plain_hit env.sqrt self ray level hnf hhit hlevel
  have hset := List_set_getElem_some objs idx self hself
  have hfix : ∀ (ls : List (Point3 ℝ)),
      ls.foldl (lightIter env none idx self ray level
          (ray.at (self.getIntersectionT env.sqrt ray)))
        ⟨ambientColor self.base, objs, []⟩ = ⟨ambientColor self.base, objs, []⟩ := by
    intro ls
    induction ls with
    | nil => rfl
    | cons l ls ih =>
      rw [List.foldl_cons]
      have hself' : iterSelf idx self (⟨ambientColor self.base, objs, []⟩ : LoopState ℝ)
          = self := by
        simp only [iterSelf, hself, Option.getD_some]
      have h1 : lightIter env none idx self ray level
          (ray.at (self.getIntersectionT env.sqrt ray))
          ⟨ambientColor self.base, objs, []⟩ l = ⟨ambientColor self.base, objs, []⟩ := by
        rw [lightIter_none_eq, iterLocal_dim _ _ _ _ _ _ _ (by rw [hself']; exact hd)
          (by rw [hself']; exact hs)]
        simp only [clampColor_id _ hamb]
      rw [h1, ih]
  rw [intersect_eq]
  simp only [hself, hen, hset, lightLoop, recurOf_none env level hR, hfix]

/-- The reflection ray of `dimRay` at the top of the first sphere goes straight up
from `(0,0,11)`. -/
theorem dim_reflectionRay :
    reflectionRayOf Real.sqrt (dimRay : Ray ℝ) ⟨0, 0, 1⟩ ⟨0, 0, 10⟩
      = ⟨⟨0, 0, 11⟩, ⟨0, 0, 1⟩⟩ := by
  simp only [reflectionRayOf, getReflection, dimRay, Ray.new, Point3.normalize, Point3.div,
    Point3.sub, Point3.mul, Point3.add, dotProduct]
  norm_num

/-- With `refIdx = 1` the refraction ray continues straight down from `(0,0,9)`. -/
theorem dim_refractionRay :
    refractionRayOf Real.sqrt 1 (dimRay : Ray ℝ) ⟨0, 0, 1⟩ ⟨0, 0, 10⟩
      = ⟨⟨0, 0, 9⟩, ⟨0, 0, -1⟩⟩ := by
  simp only [refractionRayOf, getRefraction, dimRay, Ray.new, Point3.normalize, Point3.div,
    Point3.sub, Point3.mul, Point3.add, dotProduct]
  norm_num

/-- The reflection ray reaches the second sphere (parameter 39). -/
theorem dim_nearest_up :
    nearestHit Real.sqrt (dimScene : List (Object ℝ)) ⟨⟨0, 0, 11⟩, ⟨0, 0, 1⟩⟩ = (1, 39) := by
  have h4 : Real.sqrt 400 = 20 := sqrt_of_sq (by norm_num) (by norm_num)
  simp only [nearestHit, dimScene, List.map, Object.getIntersectionT,
    Sphere.getIntersectionT, dimBase, dotProduct, Point3.sub, scanNearest, scanFrom, scanStep]
  norm_num [h4]

/-- The refraction ray reaches the third sphere (parameter 49). -/
theorem dim_nearest_down :
    nearestHit Real.sqrt (dimScene : List (Object ℝ)) ⟨⟨0, 0, 9⟩, ⟨0, 0, -1⟩⟩ = (2, 49) := by
  have h4 : Real.sqrt 400 = 20 := sqrt_of_sq (by norm_num) (by norm_num)
  simp only [nearestHit, dimScene, List.map, Object.getIntersectionT,
    Sphere.getIntersectionT, dimBase, dotProduct, Point3.sub, scanNearest, scanFrom, scanStep]
  norm_num [h4]

/-- The nested call on the second sphere at the last level returns its ambient
colour `1/8`. -/
theorem dim_leaf_up (ls : List (Point3 ℝ)) (cur : Color ℝ) :
    intersect (demoEnv Real.sqrt 2 ls) (dimScene : List (Object ℝ)) 1
      ⟨⟨0, 0, 11⟩, ⟨0, 0, 1⟩⟩ cur 2 = ⟨39, ⟨1 / 8, 1 / 8, 1 / 8⟩, dimScene, 2, []⟩ := by
  have h4 : Real.sqrt 400 = 20 := sqrt_of_sq (by norm_num) (by norm_num)
  have hT : (Object.sphere (dimBase (⟨0, 0, 60⟩ : Point3 ℝ) 10)).getIntersectionT
      (demoEnv Real.sqrt 2 ls).sqrt ⟨⟨0, 0, 11⟩, ⟨0, 0, 1⟩⟩ = 39 := by
    simp only [Object.getIntersectionT, Sphere.getIntersectionT, demoEnv, dimBase, dotProduct,
      Point3.sub]
    norm_num [h4]
  have h := intersect_dim_leaf (demoEnv Real.sqrt 2 ls) dimScene 1 ⟨⟨0, 0, 11⟩, ⟨0, 0, 1⟩⟩ cur 2
    (.sphere (dimBase ⟨0, 0, 60⟩ 10)) rfl rfl (by rw [hT]; norm_num) (by norm_num)
    (le_refl _) rfl rfl
    (by simp only [ambientColor, Object.base, dimBase, Color.InUnit]; norm_num)
  rw [h, hT]
  simp only [ambientColor, Object.base, dimBase]
  norm_num

/-- The nested call on the third sphere at the last level returns its ambient
colour `1/8`. -/
theorem dim_leaf_down (ls : List (Point3 ℝ)) (cur : Color ℝ) :
    intersect (demoEnv Real.sqrt 2 ls) (dimScene : List (Object ℝ)) 2
      ⟨⟨0, 0, 9⟩, ⟨0, 0, -1⟩⟩ cur 2 = ⟨49, ⟨1 / 8, 1 / 8, 1 / 8⟩, dimScene, 2, []⟩ := by
  have h4 : Real.sqrt 400 = 20 := sqrt_of_sq (by norm_num) (by norm_num)
  have hT : (Object.sphere (dimBase (⟨0, 0, -50⟩ : Point3 ℝ) 10)).getIntersectionT
      (demoEnv Real.sqrt 2 ls).sqrt ⟨⟨0, 0, 9⟩, ⟨0, 0, -1⟩⟩ = 49 := by
    simp only [Object.getIntersectionT, Sphere.getIntersectionT, demoEnv, dimBase, dotProduct,
      Point3.sub]
    norm_num [h4]
  have h := intersect_dim_leaf (demoEnv Real.sqrt 2 ls) dimScene 2 ⟨⟨0, 0, 9⟩, ⟨0, 0, -1⟩⟩ cur 2
    (.sphere (dimBase ⟨0, 0, -50⟩ 10)) rfl rfl (by rw [hT]; norm_num) (by norm_num)
    (le_refl _) rfl rfl
    (by simp only [ambientColor, Object.base, dimBase, Color.InUnit]; norm_num)
  rw [h, hT]
  simp only [ambientColor, Object.base, dimBase]
  norm_num

/-- One light iteration for the first sphere of `dimScene` at level 1 of 2, for any
light: the local terms add nothing, the reflection ray adds the colour returned by
the second sphere times the reflection coefficient `1/2`, the refraction ray adds
the colour returned by the third sphere times `refIdx = 1`; two nested calls are
logged. -/
theorem dim_iter (ls : List (Point3 ℝ)) (st : LoopState ℝ) (light : Point3 ℝ)
    (ho : st.objects = dimScene) :
    lightIter (demoEnv Real.sqrt 2 ls) (recurOf (demoEnv Real.sqrt 2 ls) 1) 0
        (.sphere (dimBase ⟨0, 0, 0⟩ 10)) dimRay 1 ⟨0, 0, 10⟩ st light
      = ⟨clampColor ⟨st.color.c0 + 1 / 8 * (1 / 2) + 1 / 8 * 1,
            st.color.c1 + 1 / 8 * (1 / 2) + 1 / 8 * 1,
            st.color.c2 + 1 / 8 * (1 / 2) + 1 / 8 * 1⟩,
          dimScene, st.calls ++ [(1, 2), (1, 2)]⟩ := by
  have h2 : Real.sqrt 100 = 10 := sqrt_of_sq (by norm_num) (by norm_num)
  have hsq : (demoEnv Real.sqrt 2 ls).sqrt = Real.sqrt := rfl
  have hrec : recurOf (demoEnv Real.sqrt 2 ls) 1 =
      some (fun os k r => intersect (demoEnv Real.sqrt 2 ls) os k r ⟨0, 0, 0⟩ (1 + 1)) := by
    simp only [recurOf, demoEnv]
    rw [if_pos (by norm_num)]
  have hself : iterSelf 0 (.sphere (dimBase ⟨0, 0, 0⟩ 10)) st
      = .sphere (dimBase (⟨0, 0, 0⟩ : Point3 ℝ) 10) := by
    simp only [iterSelf, ho, dimScene, List.getElem?_cons_zero, Option.getD_some]
  have hn : iterNormal (demoEnv Real.sqrt 2 ls) 0 (.sphere (dimBase ⟨0, 0, 0⟩ 10))
      ⟨0, 0, 10⟩ st light = ⟨0, 0, 1⟩ := by
    simp only [iterNormal]
    rw [hself]
    simp only [Object.shadeNormal, Sphere.getNormal, Point3.normalize,
      Point3.div, Point3.sub, dimBase, demoEnv]
    norm_num [h2]
  have hloc : iterLocal (demoEnv Real.sqrt 2 ls) 0 (.sphere (dimBase ⟨0, 0, 0⟩ 10)) dimRay
      ⟨0, 0, 10⟩ st light = st :=
    iterLocal_dim _ _ _ _ _ _ _ (by rw [hself]; rfl) (by rw [hself]; rfl)
  have hrefl : (Object.sphere (dimBase (⟨0, 0, 0⟩ : Point3 ℝ) 10)).base.co_efficients.reflection
      = 1 / 2 := rfl
  have hidx : (Object.sphere (dimBase (⟨0, 0, 0⟩ : Point3 ℝ) 10)).base.refIdx = 1 := rfl
  have e1 : traceSecondary (demoEnv Real.sqrt 2 ls)
      (fun os k r => intersect (demoEnv Real.sqrt 2 ls) os k r ⟨0, 0, 0⟩ (1 + 1)) 1
      ⟨⟨0, 0, 11⟩, ⟨0, 0, 1⟩⟩ (1 / 2) st
      = ⟨st.color.addScaled ⟨1 / 8, 1 / 8, 1 / 8⟩ (1 / 2), dimScene, st.calls ++ [(1, 2)]⟩ := by
    simp only [traceSecondary, hsq, ho, dim_nearest_up]
    rw [if_pos (by norm_num)]
    simp only [show (1 : Int).toNat = 1 from rfl, show ((1 : Int) + 1) = 2 from rfl,
      dim_leaf_up]
  have e2 : ∀ st2 : LoopState ℝ, st2.objects = dimScene →
      traceSecondary (demoEnv Real.sqrt 2 ls)
        (fun os k r => intersect (demoEnv Real.sqrt 2 ls) os k r ⟨0, 0, 0⟩ (1 + 1)) 1
        ⟨⟨0, 0, 9⟩, ⟨0, 0, -1⟩⟩ 1 st2
      = ⟨st2.color.addScaled ⟨1 / 8, 1 / 8, 1 / 8⟩ 1, dimScene, st2.calls ++ [(1, 2)]⟩ := by
    intro st2 ho2
    simp only [traceSecondary, hsq, ho2, dim_nearest_down]
    rw [if_pos (by norm_num)]
    simp only [show (2 : Int).toNat = 2 from rfl, show ((1 : Int) + 1) = 2 from rfl,
      dim_leaf_down]
  rw [hrec, lightIter_some_eq]
  simp only [iterRefract, iterReflect, hn, hself, hloc, hsq, hrefl, hidx, dim_reflectionRay,
    dim_refractionRay]
  rw [e1, e2 _ rfl]
  simp only [Color.addScaled, List.append_assoc, List.singleton_append]

/-- The clamp after adding `1/8 * 1/2 + 1/8 * 1 = 3/16` to a channel that holds
`min 1 x`. -/
theorem clampChannel_min_step (x : ℝ) (hx : 0 ≤ x) :
    clampChannel (min 1 x + 1 / 8 * (1 / 2) + 1 / 8 * 1) = min 1 (x + 3 / 16) := by
  simp only [clampChannel]
  rcases le_total 1 x with h | h
  · rw [min_eq_left h, min_eq_left (by linarith), if_pos (by norm_num)]
  · rw [min_eq_right h]
    by_cases h1 : x + 1 / 8 * (1 / 2) + 1 / 8 * 1 > 1
    · rw [if_pos h1, min_eq_left (by linarith)]
    · rw [if_neg h1, if_neg (by linarith), min_eq_right (by linarith)]
      ring

/-- The light loop for the first sphere of `dimScene` at level 1 of 2, over any list
of lights: every light adds `3/16` to each channel (then clamps) and logs two
nested calls. -/
theorem dim_fold (ls : List (Point3 ℝ)) : ∀ (lights : List (Point3 ℝ)) (x : ℝ)
    (cs : List (Int × Int)), 0 ≤ x →
    lights.foldl (lightIter (demoEnv Real.sqrt 2 ls) (recurOf (demoEnv Real.sqrt 2 ls) 1) 0
        (.sphere (dimBase ⟨0, 0, 0⟩ 10)) dimRay 1 ⟨0, 0, 10⟩)
      ⟨⟨min 1 x, min 1 x, min 1 x⟩, dimScene, cs⟩
    = ⟨⟨min 1 (x + lights.length * (3 / 16)), min 1 (x + lights.length * (3 / 16)),
          min 1 (x + lights.length * (3 / 16))⟩,
        dimScene, cs ++ List.replicate (2 * lights.length) (1, 2)⟩
  | [], x, cs, _ => by simp
  | l :: lights, x, cs, hx => by
    rw [List.foldl_cons, dim_iter ls _ l rfl]
    simp only [clampColor, clampChannel_min_step x hx]
    rw [dim_fold ls lights (x + 3 / 16) _ (by linarith)]
    have hlen : 2 * (l :: lights).length = 2 * lights.length + 1 + 1 := by
      simp only [List.length_cons]; ring
    rw [hlen, List.replicate_succ, List.replicate_succ]
    simp only [List.length_cons, Nat.cast_add, Nat.cast_one, List.append_assoc,
      List.cons_append, List.nil_append]
    have harith : x + 3 / 16 + (lights.length : ℝ) * (3 / 16)
        = x + ((lights.length : ℝ) + 1) * (3 / 16) := by ring
    rw [harith]

/-- The first sphere of `dimScene` under any list of lights, level 1 of 2: the
reflected and the refracted colour are added once per light. -/
theorem dim_lights (lights : List (Point3 ℝ)) (cur : Color ℝ) :
    intersect (demoEnv Real.sqrt 2 lights) (dimScene : List (Object ℝ)) 0 dimRay cur 1
      = ⟨10,
          ⟨min 1 (1 / 8 + lights.length * (1 / 8 * (1 / 2) + 1 / 8 * 1)),
            min 1 (1 / 8 + lights.length * (1 / 8 * (1 / 2) + 1 / 8 * 1)),
            min 1 (1 / 8 + lights.length * (1 / 8 * (1 / 2) + 1 / 8 * 1))⟩,
          dimScene, 1, List.replicate (2 * lights.length) (1, 2)⟩ := by
  have h4 : Real.sqrt 400 = 20 := sqrt_of_sq (by norm_num) (by norm_num)
  have hT : Sphere.getIntersectionT Real.sqrt (dimBase (⟨0, 0, 0⟩ : Point3 ℝ) 10) dimRay
      = 10 := by
    simp only [Sphere.getIntersectionT, dimBase, dimRay, dotProduct, Point3.sub]
    norm_num [h4]
  have hen : (Object.sphere (dimBase (⟨0, 0, 0⟩ : Point3 ℝ) 10)).enter Real.sqrt dimRay 1 =
      .shade 10 ⟨0, 0, 10⟩ (.sphere (dimBase ⟨0, 0, 0⟩ 10)) ⟨1 / 8, 1 / 8, 1 / 8⟩ := by
    simp only [Object.enter, enterPlain, Object.getIntersectionT, hT, ambientColor,
      Object.base]
    simp only [dimRay, dimBase, Point3.add, Point3.mul]
    norm_num
  have h18 : ((1 : ℝ) / 8) = min 1 (1 / 8) := by
    rw [min_eq_right (by norm_num)]
  have hw : ((1 : ℝ) / 8 * (1 / 2) + 1 / 8 * 1) = 3 / 16 := by norm_num
  rw [intersect_eq]
  simp only [dimScene, List.getElem?_cons_zero]
  rw [show (demoEnv Real.sqrt 2 lights).sqrt = Real.sqrt from rfl, hen]
  simp only [List.set_cons_zero, lightLoop]
  rw [show (demoEnv Real.sqrt 2 lights).lights = lights from rfl]
  have h := dim_fold lights lights (1 / 8) [] (by norm_num)
  rw [← h18] at h
  simp only [dimScene, List.nil_append] at h
  rw [h, hw]

/-- C25.  For a Sphere, Triangle or GeneralQuadratic `objects[idx]` whose
intersection parameter for the ray is positive, entered at `level ≥ 1`:
with an empty light list `intersect` returns that parameter and leaves exactly
`color[k] * co_efficients[AMBIENT]` in the colour array, makes no nested call and
leaves the scene as it was, whatever `recursion_level` is; and when
`level < recursion_level` the result is the fold over `lights` of the light iteration,
each iteration tracing the reflection ray and the refraction ray
(`iterRefract` on top of `iterReflect`) and ending with the clamp.
Traced `n` times: for the sphere of scenario 1 above the floor and `n` lights at
`(0,0,100)`, at level 1 of 2, the call log holds exactly `n` nested calls, one per
light (the refraction ray reaching the floor).
Added `n` times: for three spheres on the z-axis with ambient `1/8`, no diffuse or
specular term, reflection coefficient `1/2` and `refIdx = 1`, and any list of `n`
lights, the call on the sphere about the origin at level 1 of 2 logs `2n` nested calls and
returns in each channel `min(1, 1/8 + n * (1/8 * 1/2 + 1/8 * 1))`: the ambient term
plus, once per light, the reflected colour `1/8` times the reflection coefficient
and the refracted colour `1/8` times `refIdx`, clamped at 1. -/
theorem c25_no_light_no_secondary_ray (env : Env ℝ) (objs : List (Object ℝ)) (idx : Nat)
    (ray : Ray ℝ) (cur : Color ℝ) (level : Int) (self : Object ℝ)
    (hself : objs[idx]? = some self) (hnf : self.isFloor = false)
    (hhit : 0 < self.getIntersectionT env.sqrt ray) (hlevel : 1 ≤ level) :
    (env.lights = [] →
      intersect env objs idx ray cur level =
        ⟨self.getIntersectionT env.sqrt ray, ambientColor self.base, objs, level, []⟩) ∧
    (level < env.recursion_level →
      intersect env objs idx ray cur level =
        ⟨self.getIntersectionT env.sqrt ray,
          (env.lights.foldl (fun st light =>
              { iterRefract env (fun os k r => intersect env os k r env.junk (level + 1))
                  idx self ray level (ray.at (self.getIntersectionT env.sqrt ray)) st light with
                color := clampColor (iterRefract env
                  (fun os k r => intersect env os k r env.junk (level + 1))
                  idx self ray level (ray.at (self.getIntersectionT env.sqrt ray)) st light).color })
            ⟨ambientColor self.base, objs, []⟩).color,
          (env.lights.foldl (fun st light =>
              { iterRefract env (fun os k r => intersect env os k r env.junk (level + 1))
                  idx self ray level (ray.at (self.getIntersectionT env.sqrt ray)) st light with
                color := clampColor (iterRefract env
                  (fun os k r => intersect env os k r env.junk (level + 1))
                  idx self ray level (ray.at (self.getIntersectionT env.sqrt ray)) st light).color })
            ⟨ambientColor self.base, objs, []⟩).objects,
          level,
          (env.lights.foldl (fun st light =>
              { iterRefract env (fun os k r => intersect env os k r env.junk (level + 1))
                  idx self ray level (ray.at (self.getIntersectionT env.sqrt ray)) st light with
                color := clampColor (iterRefract env
                  (fun os k r => intersect env os k r env.junk (level + 1))
                  idx self ray level (ray.at (self.getIntersectionT env.sqrt ray)) st light).color })
            ⟨ambientColor self.base, objs, []⟩).calls⟩) ∧
    (∀ (n : Nat) (c : Color ℝ),
      (intersect (demoEnv Real.sqrt 2 (List.replicate n ⟨0, 0, 100⟩))
        [(demoSphere : Object ℝ), demoFloor] 0 demoRay c 1).calls = List.replicate n (1, 2)) ∧
    (∀ (lights : List (Point3 ℝ)) (c : Color ℝ),
      intersect (demoEnv Real.sqrt 2 lights) (dimScene : List (Object ℝ)) 0 dimRay c 1
        = ⟨10,
            ⟨min 1 (1 / 8 + lights.length * (1 / 8 * (1 / 2) + 1 / 8 * 1)),
              min 1 (1 / 8 + lights.length * (1 / 8 * (1 / 2) + 1 / 8 * 1)),
              min 1 (1 / 8 + lights.length * (1 / 8 * (1 / 2) + 1 / 8 * 1))⟩,
            dimScene, 1, List.replicate (2 * lights.length) (1, 2)⟩) := by
  have hen := Object.enter_plain_hit env.sqrt self ray level hnf hhit (by omega)
  have hset := List_set_getElem_some objs idx self hself
  rcases intersect_cases env objs idx ray cur level with
    ⟨t, _, hcase⟩ | ⟨self', t, p, self0, c0, hself', hen', hr⟩
  · exfalso
    rcases hcase with ⟨hnone, _⟩ | ⟨self', hself', hret⟩
    · rw [hself] at hnone
      exact Option.noConfusion hnone
    · rw [hself] at hself'
      obtain rfl := Option.some.inj hself'
      rw [hen] at hret
      exact Entry.noConfusion hret
  · rw [hself] at hself'
    obtain rfl := Option.some.inj hself'
    rw [hen] at hen'
    obtain ⟨rfl, rfl, rfl, rfl⟩ := Entry.shade.inj hen'
    rw [hset] at hr
    refine ⟨?_, ?_, demo_n_lights, dim_lights⟩
    · intro hl
      rw [hr]
      simp only [lightLoop, hl, List.foldl]
    · intro hlt
      rw [hr]
      have hrec : recurOf env level =
          some (fun os k r => intersect env os k r env.junk (level + 1)) := by
        simp only [recurOf, if_pos hlt]
      simp only [lightLoop, hrec]
      rfl

/-- C25 (witness): the sphere of scenario 1 above the floor, no light, level 1 of 2. -/
theorem c25_no_light_no_secondary_ray_witness :
    intersect (demoEnv Real.sqrt 2 []) [(demoSphere : Object ℝ), demoFloor] 0 demoRay
        ⟨0, 0, 0⟩ 1 =
      ⟨(demoSphere : Object ℝ).getIntersectionT Real.sqrt demoRay,
        ambientColor (demoSphere : Object ℝ).base, [demoSphere, demoFloor], 1, []⟩ :=
  (c25_no_light_no_secondary_ray (demoEnv Real.sqrt 2 []) [demoSphere, demoFloor] 0 demoRay
    ⟨0, 0, 0⟩ 1 demoSphere rfl rfl
    (by
      rw [show (demoSphere : Object ℝ).getIntersectionT (demoEnv Real.sqrt 2 []).sqrt demoRay
        = Sphere.getIntersectionT Real.sqrt (demoBase (⟨0, 0, 0⟩ : Point3 ℝ) 10) demoRay from rfl,
        demoSphere_T]
      norm_num)
    (by norm_num)).1 rfl

/-! ## C26: the nested call on a selected object -/

/-- The camera ray meets the far sphere at parameter 170. -/
theorem demoFar_T : Sphere.getIntersectionT Real.sqrt (demoBase (⟨300, 0, 20⟩ : Point3 ℝ) 10)
    demoFarRay = 170 := by
  have h : Real.sqrt 400 = 20 := sqrt_of_sq (by norm_num) (by norm_num)
  simp only [Sphere.getIntersectionT, demoBase, demoFarRay, dotProduct, Point3.sub]
  norm_num [h]

/-- The opening of `Sphere::intersect` for the far sphere: hit point `(300,0,30)`. -/
theorem demoFar_enter (level : Int) (hl : level ≠ 0) :
    (demoFarSphere : Object ℝ).enter Real.sqrt demoFarRay level =
      .shade 170 ⟨300, 0, 30⟩ demoFarSphere ⟨1 / 4, 1 / 4, 1 / 4⟩ := by
  simp only [demoFarSphere, Object.enter, enterPlain, Object.getIntersectionT, demoFar_T,
    if_neg hl, ambientColor, Object.base]
  simp only [demoFarRay, demoBase, Point3.add, Point3.mul]
  norm_num

/-- The refraction ray below the far sphere: the scan skips the sphere (parameter
`-1`) and selects the floor with the plane parameter 29. -/
theorem demoFar_nearest :
    nearestHit Real.sqrt [(demoFarSphere : Object ℝ), demoFloor] ⟨⟨300, 0, 29⟩, ⟨0, 0, -1⟩⟩
      = (1, 29) := by
  have h4 : Real.sqrt 400 = 20 := sqrt_of_sq (by norm_num) (by norm_num)
  simp only [nearestHit, List.map, demoFarSphere, demoFloor, Object.getIntersectionT,
    Sphere.getIntersectionT, Floor.getIntersectionT, Floor.getNormal, Point3.normalize,
    Point3.div, demoBase, dotProduct, Point3.sub, scanNearest, scanFrom, scanStep]
  norm_num [h4]

/-- The reflection ray above the far sphere selects nothing. -/
theorem demoFar_nearest_up :
    (nearestHit Real.sqrt [(demoFarSphere : Object ℝ), demoFloor] ⟨⟨300, 0, 31⟩, ⟨0, 0, 1⟩⟩).1
      = -1 := by
  have h4 : Real.sqrt 400 = 20 := sqrt_of_sq (by norm_num) (by norm_num)
  simp only [nearestHit, List.map, demoFarSphere, demoFloor, Object.getIntersectionT,
    Sphere.getIntersectionT, Floor.getIntersectionT, Floor.getNormal, Point3.normalize,
    Point3.div, demoBase, dotProduct, Point3.sub, scanNearest, scanFrom, scanStep]
  norm_num [h4]

/-- The nested call on the selected floor: the point `(300,0,0)` is outside the
square, the call returns `-1` and hands the colour array back as it got it. -/
theorem demoFar_nested (J cur : Color ℝ) (level : Int) :
    intersect (demoJunkEnv Real.sqrt J) [(demoFarSphere : Object ℝ), demoFloor] 1
      ⟨⟨300, 0, 29⟩, ⟨0, 0, -1⟩⟩ cur level
      = ⟨-1, cur, [demoFarSphere, demoFloor], level, []⟩ := by
  have hT : Floor.getIntersectionT Real.sqrt (demoBase (⟨-50, -50, 0⟩ : Point3 ℝ) 10)
      ⟨⟨300, 0, 29⟩, ⟨0, 0, -1⟩⟩ = 29 := by
    simp only [Floor.getIntersectionT, Floor.getNormal, Point3.normalize, Point3.div,
      dotProduct, demoBase]
    norm_num
  have hen : (demoFloor : Object ℝ).enter Real.sqrt ⟨⟨300, 0, 29⟩, ⟨0, 0, -1⟩⟩ level
      = .ret (-1) := by
    simp only [demoFloor, Object.enter, Floor.enter, hT]
    simp only [Point3.add, Point3.mul, demoBase]
    norm_num
  rw [intersect_eq]
  simp only [List.getElem?_cons_succ, List.getElem?_cons_zero]
  rw [show (demoJunkEnv Real.sqrt J).sqrt = Real.sqrt from rfl, hen]

/-- The shadow loop sets `flag` for the light at `(300,0,100)`. -/
theorem demoFar_shadowFlag :
    shadowFlag Real.sqrt [(demoFarSphere : Object ℝ), demoFloor] ⟨⟨300, 0, 31⟩, ⟨0, 0, 1⟩⟩ 70
      = true := by
  have h : Real.sqrt 400 = 20 := sqrt_of_sq (by norm_num) (by norm_num)
  simp only [shadowFlag, List.any, demoFarSphere, Object.getIntersectionT,
    Sphere.getIntersectionT, demoBase, dotProduct, Point3.sub]
  norm_num [h]

/-- The camera ray on the far sphere at level 1 of 2: the colour left in the
caller's array contains the uninitialised array scaled by `refIdx = 3/2`. -/
theorem demoFar_outer (J cur : Color ℝ) :
    intersect (demoJunkEnv Real.sqrt J) [(demoFarSphere : Object ℝ), demoFloor] 0
      demoFarRay cur 1
      = ⟨170, clampColor ⟨1 / 2 + J.c0 * (3 / 2), 1 / 2 + J.c1 * (3 / 2), 1 / 2 + J.c2 * (3 / 2)⟩,
          [demoFarSphere, demoFloor], 1, [(1, 2)]⟩ := by
  have h1 : Real.sqrt 4900 = 70 := sqrt_of_sq (by norm_num) (by norm_num)
  have h2 : Real.sqrt 100 = 10 := sqrt_of_sq (by norm_num) (by norm_num)
  have hdir : ((⟨300, 0, 100⟩ : Point3 ℝ).sub ⟨300, 0, 30⟩).normalize Real.sqrt = ⟨0, 0, 1⟩ := by
    simp only [Point3.normalize, Point3.div, Point3.sub]
    norm_num [h1]
  have hlen : Real.sqrt (((⟨300, 0, 100⟩ : Point3 ℝ).sub ⟨300, 0, 30⟩).x
      * ((⟨300, 0, 100⟩ : Point3 ℝ).sub ⟨300, 0, 30⟩).x
      + ((⟨300, 0, 100⟩ : Point3 ℝ).sub ⟨300, 0, 30⟩).y
        * ((⟨300, 0, 100⟩ : Point3 ℝ).sub ⟨300, 0, 30⟩).y
      + ((⟨300, 0, 100⟩ : Point3 ℝ).sub ⟨300, 0, 30⟩).z
        * ((⟨300, 0, 100⟩ : Point3 ℝ).sub ⟨300, 0, 30⟩).z) = 70 := by
    simp only [Point3.sub]
    norm_num [h1]
  have hn : (demoFarSphere : Object ℝ).shadeNormal Real.sqrt ⟨300, 0, 30⟩ ⟨0, 0, 1⟩
      = ⟨0, 0, 1⟩ := by
    simp only [demoFarSphere, Object.shadeNormal, Sphere.getNormal, Point3.normalize,
      Point3.div, Point3.sub, demoBase]
    norm_num [h2]
  have hr : getReflection Real.sqrt (demoFarRay : Ray ℝ) ⟨0, 0, 1⟩ = ⟨0, 0, 1⟩ := by
    simp only [getReflection, demoFarRay, Point3.normalize, Point3.div, Point3.sub, Point3.mul,
      dotProduct]
    norm_num
  have hf : getRefraction Real.sqrt (3 / 2) (demoFarRay : Ray ℝ) ⟨0, 0, 1⟩ = ⟨0, 0, -1⟩ := by
    simp only [getRefraction, demoFarRay, Point3.normalize, Point3.div, Point3.sub, Point3.mul,
      dotProduct]
    norm_num
  have hup : Ray.new Real.sqrt ((⟨300, 0, 30⟩ : Point3 ℝ).add ((⟨0, 0, 1⟩ : Point3 ℝ).mul 1))
      ⟨0, 0, 1⟩ = ⟨⟨300, 0, 31⟩, ⟨0, 0, 1⟩⟩ := by
    simp only [Ray.new, Point3.normalize, Point3.div, Point3.add, Point3.mul]
    norm_num
  have hdown : Ray.new Real.sqrt
      ((⟨300, 0, 30⟩ : Point3 ℝ).add ((⟨0, 0, -1⟩ : Point3 ℝ).mul 1)) ⟨0, 0, -1⟩
      = ⟨⟨300, 0, 29⟩, ⟨0, 0, -1⟩⟩ := by
    simp only [Ray.new, Point3.normalize, Point3.div, Point3.add, Point3.mul]
    norm_num
  have hsq : (demoJunkEnv Real.sqrt J).sqrt = Real.sqrt := rfl
  have hrec : recurOf (demoJunkEnv Real.sqrt J) 1 =
      some (fun os k r => intersect (demoJunkEnv Real.sqrt J) os k r J (1 + 1)) := by
    simp only [recurOf, demoJunkEnv]
    rw [if_pos (by norm_num)]
  have hloc : addLocal (demoFarSphere : Object ℝ).base ⟨0, 0, 1⟩ ⟨0, 0, 1⟩ ⟨0, 0, 1⟩
      (demoFarRay : Ray ℝ).dir ⟨1 / 4, 1 / 4, 1 / 4⟩ = ⟨1 / 2, 1 / 2, 1 / 2⟩ := by
    simp only [addLocal, diffuseTerm, specularTerm, demoFarSphere, Object.base, demoBase,
      demoFarRay, dotProduct]
    norm_num
  rw [intersect_eq]
  simp only [List.getElem?_cons_zero]
  rw [hsq, demoFar_enter 1 (by norm_num)]
  simp only
  rw [lightLoop_single _ _ _ _ _ _ _ ⟨300, 0, 100⟩ rfl, hrec]
  simp only [lightIter, List.set_cons_zero, List.getElem?_cons_zero, Option.getD_some]
  rw [hsq, hdir, hlen, hn, hr]
  rw [show (demoFarSphere : Object ℝ).base.refIdx = 3 / 2 from rfl, hf, hup, hdown,
    demoFar_shadowFlag]
  simp only [if_true, hloc]
  simp only [traceSecondary, hsq, demoFar_nearest_up, ne_eq, not_true_eq_false, if_false,
    demoFar_nearest]
  simp only [show (1 : Int).toNat = 1 from rfl, demoFar_nested, Color.addScaled,
    List.nil_append]
  norm_num

/-- When the opening of `intersect` goes on to shade, the call returns the
parameter of the opening and its result does not depend on the content of the
colour array handed in: all three channels are written. -/
theorem intersect_shade_writes (env : Env ℝ) (objs : List (Object ℝ)) (idx : Nat) (ray : Ray ℝ)
    (level : Int) (self : Object ℝ) (t : ℝ) (p : Point3 ℝ) (self0 : Object ℝ) (c0 : Color ℝ)
    (hself : objs[idx]? = some self) (hen : self.enter env.sqrt ray level = .shade t p self0 c0)
    (cur cur' : Color ℝ) :
    (intersect env objs idx ray cur level).t = t ∧
    intersect env objs idx ray cur' level = intersect env objs idx ray cur level := by
  rw [intersect_eq env objs idx ray cur level, intersect_eq env objs idx ray cur' level]
  simp only [hself, hen, and_self]

/-- C26 (the code at the failing input).  Scene: sphere of radius 10 about
`(300,0,20)` and the floor of width 100 (square `[-50,50] x [-50,50]`), light at
`(300,0,100)`, camera ray from `(300,0,200)` straight down, level 1 with
`recursion_level = 2`, the uninitialised arrays holding `J`.  The refraction ray
starts at `(300,0,29)` with direction `(0,0,-1)`; the nearest-hit loop skips the
sphere and selects the floor (`nearest = 1`, `minT = 29`, the floor's positive
`getIntersectionT`).  The nested call on the floor at level 2 returns `-1` and hands
the colour array back unwritten; the caller adds that array times `refIdx`, so the
colour it returns is `clamp(1/2 + J[k] * 3/2)`: it depends on `J`.  For the other
variants the property holds: a Sphere, Triangle or GeneralQuadratic with positive
`getIntersectionT`, called at `level + 1 ≠ 0`, returns that positive value and a
result that does not depend on the array handed in; so does a Floor whose hit
point passes the bounds test. -/
theorem c26_selected_floor_leaves_array_unwritten :
    (nearestHit Real.sqrt [(demoFarSphere : Object ℝ), demoFloor]
        ⟨⟨300, 0, 29⟩, ⟨0, 0, -1⟩⟩ = (1, 29) ∧
      (demoFloor : Object ℝ).getIntersectionT Real.sqrt ⟨⟨300, 0, 29⟩, ⟨0, 0, -1⟩⟩ = 29) ∧
    (∀ J cur : Color ℝ,
      intersect (demoJunkEnv Real.sqrt J) [(demoFarSphere : Object ℝ), demoFloor] 1
        ⟨⟨300, 0, 29⟩, ⟨0, 0, -1⟩⟩ cur 2
        = ⟨-1, cur, [demoFarSphere, demoFloor], 2, []⟩) ∧
    (∀ J cur : Color ℝ,
      intersect (demoJunkEnv Real.sqrt J) [(demoFarSphere : Object ℝ), demoFloor] 0
        demoFarRay cur 1
        = ⟨170,
            clampColor ⟨1 / 2 + J.c0 * (3 / 2), 1 / 2 + J.c1 * (3 / 2), 1 / 2 + J.c2 * (3 / 2)⟩,
            [demoFarSphere, demoFloor], 1, [(1, 2)]⟩) ∧
    ((intersect (demoJunkEnv Real.sqrt ⟨0, 0, 0⟩) [(demoFarSphere : Object ℝ), demoFloor] 0
        demoFarRay ⟨0, 0, 0⟩ 1).color = ⟨1 / 2, 1 / 2, 1 / 2⟩ ∧
      (intersect (demoJunkEnv Real.sqrt ⟨1, 1, 1⟩) [(demoFarSphere : Object ℝ), demoFloor] 0
        demoFarRay ⟨0, 0, 0⟩ 1).color = ⟨1, 1, 1⟩) ∧
    (∀ (env : Env ℝ) (objs : List (Object ℝ)) (k : Nat) (ray : Ray ℝ) (level : Int)
        (self : Object ℝ), objs[k]? = some self → self.isFloor = false →
        0 < self.getIntersectionT env.sqrt ray → level + 1 ≠ 0 →
        ∀ cur cur2 : Color ℝ,
          (intersect env objs k ray cur (level + 1)).t = self.getIntersectionT env.sqrt ray ∧
          0 < (intersect env objs k ray cur (level + 1)).t ∧
          intersect env objs k ray cur2 (level + 1) = intersect env objs k ray cur (level + 1)) ∧
    (∀ (env : Env ℝ) (objs : List (Object ℝ)) (k : Nat) (ray : Ray ℝ) (level : Int)
        (o : Base ℝ) (bd : Int → Int → Fin 256 × Fin 256 × Fin 256) (bh bw : ℝ),
        objs[k]? = some (.floor o bd bh bw) →
        0 < Floor.getIntersectionT env.sqrt o ray →
        ¬ (o.reference_point.x > (ray.at (Floor.getIntersectionT env.sqrt o ray)).x ∨
            (ray.at (Floor.getIntersectionT env.sqrt o ray)).x > o.reference_point.x * (-1) ∨
            o.reference_point.y > (ray.at (Floor.getIntersectionT env.sqrt o ray)).y ∨
            (ray.at (Floor.getIntersectionT env.sqrt o ray)).y > o.reference_point.y * (-1)) →
        ∀ cur cur2 : Color ℝ,
          (intersect env objs k ray cur (level + 1)).t = Floor.getIntersectionT env.sqrt o ray ∧
          0 < (intersect env objs k ray cur (level + 1)).t ∧
          intersect env objs k ray cur2 (level + 1) = intersect env objs k ray cur (level + 1)) := by
  refine ⟨⟨demoFar_nearest, ?_⟩, fun J cur => demoFar_nested J cur 2, demoFar_outer, ⟨?_, ?_⟩,
    ?_, ?_⟩
  · simp only [demoFloor, Object.getIntersectionT, Floor.getIntersectionT, Floor.getNormal,
      Point3.normalize, Point3.div, dotProduct, demoBase]
    norm_num
  · rw [demoFar_outer]
    simp only [clampColor, clampChannel]
    norm_num
  · rw [demoFar_outer]
    simp only [clampColor, clampChannel]
    norm_num
  · intro env objs k ray level self hself hnf hhit hlevel cur cur2
    have hen := Object.enter_plain_hit env.sqrt self ray (level + 1) hnf hhit hlevel
    obtain ⟨h1, h2⟩ := intersect_shade_writes env objs k ray (level + 1) self _ _ _ _ hself hen
      cur cur2
    exact ⟨h1, by rw [h1]; exact hhit, h2⟩
  · intro env objs k ray level o bd bh bw hself hhit hin cur cur2
    have hen : (Object.floor o bd bh bw).enter env.sqrt ray (level + 1) =
        Floor.enter env.sqrt o bd bh bw ray := rfl
    have hsh : ∃ p self0 c0, Floor.enter env.sqrt o bd bh bw ray =
        .shade (Floor.getIntersectionT env.sqrt o ray) p self0 c0 := by
      simp only [Ray.at] at hin
      simp only [Floor.enter]
      rw [if_neg hin]
      exact ⟨_, _, _, rfl⟩
    obtain ⟨p, self0, c0, hsh⟩ := hsh
    rw [hsh] at hen
    obtain ⟨h1, h2⟩ := intersect_shade_writes env objs k ray (level + 1) _ _ _ _ _ hself hen
      cur cur2
    exact ⟨h1, by rw [h1]; exact hhit, h2⟩

/-! ## C18: tangent rays, in exact and in double arithmetic -/

/-- Zero is a `double`. -/
theorem roundDouble_zero : roundDouble (0 : ℝ) = 0 := by
  simp only [roundDouble, if_true]

/-- A number strictly within half a unit of the integer `f` rounds to `f`. -/
theorem roundHalfEven_near (q : ℝ) (f : Int) (hlo : (f : ℝ) - 1 / 2 < q)
    (hhi : q < (f : ℝ) + 1 / 2) : roundHalfEven q = f := by
  simp only [roundHalfEven]
  by_cases h : (f : ℝ) ≤ q
  · have hf : Int.floor q = f := by
      rw [Int.floor_eq_iff]; constructor <;> linarith
    rw [hf, if_pos (by linarith)]
  · push_neg at h
    have hf : Int.floor q = f - 1 := by
      rw [Int.floor_eq_iff]; push_cast; constructor <;> linarith
    rw [hf]
    push_cast
    rw [if_neg (by linarith), if_pos (by linarith)]
    ring

/-- A number exactly half way between `g` and `g + 1` rounds to the even one. -/
theorem roundHalfEven_tie (q : ℝ) (g f : Int) (hq : q = (g : ℝ) + 1 / 2)
    (hf : (g % 2 = 0 ∧ f = g) ∨ (g % 2 = 1 ∧ f = g + 1)) : roundHalfEven q = f := by
  have hfl : Int.floor q = g := by
    rw [Int.floor_eq_iff]; constructor <;> linarith
  simp only [roundHalfEven, hfl]
  rw [if_neg (by linarith), if_neg (by linarith)]
  rcases hf with ⟨h1, h2⟩ | ⟨h1, h2⟩
  · rw [if_pos h1, h2]
  · rw [if_neg (by omega), h2]

/-- The binade of a non-zero number. -/
theorem log_two_eq (x : ℝ) (e : Int) (h1 : (2 : ℝ) ^ e ≤ |x|) (h2 : |x| < (2 : ℝ) ^ (e + 1)) :
    Int.log 2 |x| = e := by
  have hpos : 0 < |x| := lt_of_lt_of_le (by positivity) h1
  have a1 : e ≤ Int.log 2 |x| :=
    (Int.zpow_le_iff_le_log (by norm_num) hpos).mp (by exact_mod_cast h1)
  have a2 : Int.log 2 |x| < e + 1 :=
    (Int.lt_zpow_iff_log_lt (by norm_num) hpos).mp (by exact_mod_cast h2)
  omega

/-- Evaluation of `roundDouble` away from a tie: for `2^e ≤ |x| < 2^(e+1)` and
`x / 2^(e-52)` strictly within half a unit of `f`, the result is `f * 2^(e-52)`. -/
theorem roundDouble_near (x : ℝ) (e f : Int) (v : ℝ) (h1 : (2 : ℝ) ^ e ≤ |x|)
    (h2 : |x| < (2 : ℝ) ^ (e + 1))
    (hlo : (f : ℝ) - 1 / 2 < x / (2 : ℝ) ^ (e - 52))
    (hhi : x / (2 : ℝ) ^ (e - 52) < (f : ℝ) + 1 / 2)
    (hv : (f : ℝ) * (2 : ℝ) ^ (e - 52) = v) :
    roundDouble x = v := by
  have hpos : 0 < |x| := lt_of_lt_of_le (by positivity) h1
  have hx : x ≠ 0 := abs_pos.mp hpos
  simp only [roundDouble, if_neg hx, log_two_eq x e h1 h2, roundHalfEven_near _ f hlo hhi, hv]

/-- The same for a positive number, without absolute values. -/
theorem roundDouble_pos (x : ℝ) (e f : Int) (v : ℝ) (h1 : (2 : ℝ) ^ e ≤ x)
    (h2 : x < (2 : ℝ) ^ (e + 1))
    (hlo : (f : ℝ) - 1 / 2 < x / (2 : ℝ) ^ (e - 52))
    (hhi : x / (2 : ℝ) ^ (e - 52) < (f : ℝ) + 1 / 2)
    (hv : (f : ℝ) * (2 : ℝ) ^ (e - 52) = v) :
    roundDouble x = v := by
  have hx : 0 < x := lt_of_lt_of_le (by positivity) h1
  exact roundDouble_near x e f v (by rw [abs_of_pos hx]; exact h1)
    (by rw [abs_of_pos hx]; exact h2) hlo hhi hv

/-- The same for a negative number, without absolute values. -/
theorem roundDouble_neg (x : ℝ) (e f : Int) (v : ℝ) (h1 : (2 : ℝ) ^ e ≤ -x)
    (h2 : -x < (2 : ℝ) ^ (e + 1))
    (hlo : (f : ℝ) - 1 / 2 < x / (2 : ℝ) ^ (e - 52))
    (hhi : x / (2 : ℝ) ^ (e - 52) < (f : ℝ) + 1 / 2)
    (hv : (f : ℝ) * (2 : ℝ) ^ (e - 52) = v) :
    roundDouble x = v := by
  have hx : x < 0 := by
    have : 0 < -x := lt_of_lt_of_le (by positivity) h1
    linarith
  exact roundDouble_near x e f v (by rw [abs_of_neg hx]; exact h1)
    (by rw [abs_of_neg hx]; exact h2) hlo hhi hv

/-- Evaluation of `roundDouble` at a tie. -/
theorem roundDouble_tie (x : ℝ) (e g f : Int) (v : ℝ) (h1 : (2 : ℝ) ^ e ≤ |x|)
    (h2 : |x| < (2 : ℝ) ^ (e + 1))
    (hq : x / (2 : ℝ) ^ (e - 52) = (g : ℝ) + 1 / 2)
    (hf : (g % 2 = 0 ∧ f = g) ∨ (g % 2 = 1 ∧ f = g + 1))
    (hv : (f : ℝ) * (2 : ℝ) ^ (e - 52) = v) :
    roundDouble x = v := by
  have hpos : 0 < |x| := lt_of_lt_of_le (by positivity) h1
  have hx : x ≠ 0 := abs_pos.mp hpos
  simp only [roundDouble, if_neg hx, log_two_eq x e h1 h2, roundHalfEven_tie _ g f hq hf, hv]

/-- With `rnd = id` the rounded computation is `Sphere.getIntersectionT`. -/
theorem getIntersectionTRounded_id (sqrt : ℝ → ℝ) (o : Base ℝ) (ray : Ray ℝ) :
    Sphere.getIntersectionTRounded id sqrt o ray = Sphere.getIntersectionT sqrt o ray := rfl

/-- In `double`, the constructor `Ray((7,0,17), (5,0,-12))` stores `demoTangentRay`. -/
theorem demoTangentRay_stored :
    Ray.newRounded roundDouble Real.sqrt (⟨7, 0, 17⟩ : Point3 ℝ) ⟨5, 0, -12⟩ = demoTangentRay := by
  have hs : Real.sqrt 169 = 13 := sqrt_of_sq (by norm_num) (by norm_num)
  have hn1 : roundDouble ((5 * 5 : ℝ)) = 25 :=
    roundDouble_pos _ (4) (7036874417766400) _ (by norm_num) (by norm_num) (by norm_num) (by norm_num)
      (by norm_num)
  have hn2 : roundDouble ((0 * 0 : ℝ)) = 0 := by
    rw [show ((0 * 0 : ℝ)) = 0 by norm_num]
    exact roundDouble_zero
  have hn3 : roundDouble ((25 + 0 : ℝ)) = 25 :=
    roundDouble_pos _ (4) (7036874417766400) _ (by norm_num) (by norm_num) (by norm_num) (by norm_num)
      (by norm_num)
  have hn4 : roundDouble (((-12) * (-12) : ℝ)) = 144 :=
    roundDouble_pos _ (7) (5066549580791808) _ (by norm_num) (by norm_num) (by norm_num) (by norm_num)
      (by norm_num)
  have hn5 : roundDouble ((25 + 144 : ℝ)) = 169 :=
    roundDouble_pos _ (7) (5946158883012608) _ (by norm_num) (by norm_num) (by norm_num) (by norm_num)
      (by norm_num)
  have hn6 : roundDouble ((13 : ℝ)) = 13 :=
    roundDouble_pos _ (3) (7318349394477056) _ (by norm_num) (by norm_num) (by norm_num) (by norm_num)
      (by norm_num)
  have hn7 : roundDouble ((5 / 13 : ℝ)) = 6928614811339225 / 2 ^ 54 :=
    roundDouble_pos _ (-2) (6928614811339225) _ (by norm_num) (by norm_num) (by norm_num) (by norm_num)
      (by norm_num)
  have hn8 : roundDouble ((0 / 13 : ℝ)) = 0 := by
    rw [show ((0 / 13 : ℝ)) = 0 by norm_num]
    exact roundDouble_zero
  have hn9 : roundDouble (((-12) / 13 : ℝ)) = -(4157168886803535 / 2 ^ 52) :=
    roundDouble_neg _ (-1) (-8314337773607070) _ (by norm_num) (by norm_num) (by norm_num) (by norm_num)
      (by norm_num)
  simp only [Ray.newRounded, Point3.normalizeRounded, demoTangentRay, hn1, hn2, hn3, hn4, hn5, hn6, hn7, hn8, hn9, hs]

/-- In `double`, the locals `a`, `b`, `c`, `d` of `Sphere::getIntersectionT` for the
sphere of radius 13 and the stored tangent ray: `a = 1 + 2^-52`, `b = -26`,
`c = 169`, `d = -2^-43`. -/
theorem demoTangent_locals :
    Sphere.coefARounded roundDouble (demoTangentRay : Ray ℝ) = 4503599627370497 / 2 ^ 52 ∧
    Sphere.coefBRounded roundDouble demoSphere13 (demoTangentRay : Ray ℝ) = -26 ∧
    Sphere.coefCRounded roundDouble demoSphere13 (demoTangentRay : Ray ℝ) = 169 ∧
    Sphere.discrRounded roundDouble demoSphere13 (demoTangentRay : Ray ℝ) = -(1 / 2 ^ 43) := by
  have hd1 : roundDouble ((7 - 0 : ℝ)) = 7 :=
    roundDouble_pos _ (2) (7881299347898368) _ (by norm_num) (by norm_num) (by norm_num) (by norm_num)
      (by norm_num)
  have hd2 : roundDouble ((0 - 0 : ℝ)) = 0 := by
    rw [show ((0 - 0 : ℝ)) = 0 by norm_num]
    exact roundDouble_zero
  have hd3 : roundDouble ((17 - 0 : ℝ)) = 17 :=
    roundDouble_pos _ (4) (4785074604081152) _ (by norm_num) (by norm_num) (by norm_num) (by norm_num)
      (by norm_num)
  have hd4 : roundDouble (((6928614811339225 / 2 ^ 54) * (6928614811339225 / 2 ^ 54) : ℝ)) = 5329703701030173 / 2 ^ 55 :=
    roundDouble_pos _ (-3) (5329703701030173) _ (by norm_num) (by norm_num) (by norm_num) (by norm_num)
      (by norm_num)
  have hd5 : roundDouble ((0 * 0 : ℝ)) = 0 := by
    rw [show ((0 * 0 : ℝ)) = 0 by norm_num]
    exact roundDouble_zero
  have hd6 : roundDouble (((5329703701030173 / 2 ^ 55) + 0 : ℝ)) = 5329703701030173 / 2 ^ 55 :=
    roundDouble_pos _ (-3) (5329703701030173) _ (by norm_num) (by norm_num) (by norm_num) (by norm_num)
      (by norm_num)
  have hd7 : roundDouble (((-(4157168886803535 / 2 ^ 52)) * (-(4157168886803535 / 2 ^ 52)) : ℝ)) = 3837386664741725 / 2 ^ 52 :=
    roundDouble_pos _ (-1) (7674773329483450) _ (by norm_num) (by norm_num) (by norm_num) (by norm_num)
      (by norm_num)
  have hd8 : roundDouble (((5329703701030173 / 2 ^ 55) + (3837386664741725 / 2 ^ 52) : ℝ)) = 4503599627370497 / 2 ^ 52 :=
    roundDouble_pos _ (0) (4503599627370497) _ (by norm_num) (by norm_num) (by norm_num) (by norm_num)
      (by norm_num)
  have hd9 : roundDouble (((6928614811339225 / 2 ^ 54) * 7 : ℝ)) = 3031268979960911 / 2 ^ 50 :=
    roundDouble_pos _ (1) (6062537959921822) _ (by norm_num) (by norm_num) (by norm_num) (by norm_num)
      (by norm_num)
  have hd10 : roundDouble (((3031268979960911 / 2 ^ 50) + 0 : ℝ)) = 3031268979960911 / 2 ^ 50 :=
    roundDouble_pos _ (1) (6062537959921822) _ (by norm_num) (by norm_num) (by norm_num) (by norm_num)
      (by norm_num)
  have hd11 : roundDouble (((-(4157168886803535 / 2 ^ 52)) * 17 : ℝ)) = -(1104247985557189 / 2 ^ 46) :=
    roundDouble_neg _ (3) (-8833983884457512) _ (by norm_num) (by norm_num) (by norm_num) (by norm_num)
      (by norm_num)
  have hd12 : roundDouble (((3031268979960911 / 2 ^ 50) + (-(1104247985557189 / 2 ^ 46)) : ℝ)) = -13 :=
    roundDouble_tie _ (3) (-7318349394477057) (-7318349394477056) _ (by rw [abs_of_neg (by norm_num)]; norm_num)
      (by rw [abs_of_neg (by norm_num)]; norm_num) (by norm_num) (Or.inr ⟨by decide, by norm_num⟩) (by norm_num)
  have hd13 : roundDouble ((2 * (-13) : ℝ)) = -26 :=
    roundDouble_neg _ (4) (-7318349394477056) _ (by norm_num) (by norm_num) (by norm_num) (by norm_num)
      (by norm_num)
  have hd14 : roundDouble ((7 * 7 : ℝ)) = 49 :=
    roundDouble_pos _ (5) (6896136929411072) _ (by norm_num) (by norm_num) (by norm_num) (by norm_num)
      (by norm_num)
  have hd15 : roundDouble ((49 + 0 : ℝ)) = 49 :=
    roundDouble_pos _ (5) (6896136929411072) _ (by norm_num) (by norm_num) (by norm_num) (by norm_num)
      (by norm_num)
  have hd16 : roundDouble ((17 * 17 : ℝ)) = 289 :=
    roundDouble_pos _ (8) (5084141766836224) _ (by norm_num) (by norm_num) (by norm_num) (by norm_num)
      (by norm_num)
  have hd17 : roundDouble ((49 + 289 : ℝ)) = 338 :=
    roundDouble_pos _ (8) (5946158883012608) _ (by norm_num) (by norm_num) (by norm_num) (by norm_num)
      (by norm_num)
  have hd18 : roundDouble ((13 * 13 : ℝ)) = 169 :=
    roundDouble_pos _ (7) (5946158883012608) _ (by norm_num) (by norm_num) (by norm_num) (by norm_num)
      (by norm_num)
  have hd19 : roundDouble ((338 - 169 : ℝ)) = 169 :=
    roundDouble_pos _ (7) (5946158883012608) _ (by norm_num) (by norm_num) (by norm_num) (by norm_num)
      (by norm_num)
  have hd20 : roundDouble (((-26) * (-26) : ℝ)) = 676 :=
    roundDouble_pos _ (9) (5946158883012608) _ (by norm_num) (by norm_num) (by norm_num) (by norm_num)
      (by norm_num)
  have hd21 : roundDouble ((4 * (4503599627370497 / 2 ^ 52) : ℝ)) = 4503599627370497 / 2 ^ 50 :=
    roundDouble_pos _ (2) (4503599627370497) _ (by norm_num) (by norm_num) (by norm_num) (by norm_num)
      (by norm_num)
  have hd22 : roundDouble (((4503599627370497 / 2 ^ 50) * 169 : ℝ)) = 5946158883012609 / 2 ^ 43 :=
    roundDouble_pos _ (9) (5946158883012609) _ (by norm_num) (by norm_num) (by norm_num) (by norm_num)
      (by norm_num)
  have hd23 : roundDouble ((676 - (5946158883012609 / 2 ^ 43) : ℝ)) = -(1 / 2 ^ 43) :=
    roundDouble_neg _ (-43) (-4503599627370496) _ (by norm_num) (by norm_num) (by norm_num) (by norm_num)
      (by norm_num)
  have ha : Sphere.coefARounded roundDouble (demoTangentRay : Ray ℝ)
      = 4503599627370497 / 2 ^ 52 := by
    simp only [Sphere.coefARounded, dotProductRounded, demoTangentRay, hd1, hd2, hd3, hd4, hd5, hd6, hd7, hd8, hd9, hd10, hd11, hd12, hd13, hd14, hd15, hd16, hd17, hd18, hd19, hd20, hd21, hd22, hd23]
  have hb : Sphere.coefBRounded roundDouble demoSphere13 (demoTangentRay : Ray ℝ) = -26 := by
    simp only [Sphere.coefBRounded, dotProductRounded, Point3.subRounded, demoTangentRay,
      demoSphere13, demoBase, hd1, hd2, hd3, hd4, hd5, hd6, hd7, hd8, hd9, hd10, hd11, hd12, hd13, hd14, hd15, hd16, hd17, hd18, hd19, hd20, hd21, hd22, hd23]
  have hc : Sphere.coefCRounded roundDouble demoSphere13 (demoTangentRay : Ray ℝ) = 169 := by
    simp only [Sphere.coefCRounded, dotProductRounded, Point3.subRounded, demoTangentRay,
      demoSphere13, demoBase, hd1, hd2, hd3, hd4, hd5, hd6, hd7, hd8, hd9, hd10, hd11, hd12, hd13, hd14, hd15, hd16, hd17, hd18, hd19, hd20, hd21, hd22, hd23]
  refine ⟨ha, hb, hc, ?_⟩
  simp only [Sphere.discrRounded, ha, hb, hc, hd1, hd2, hd3, hd4, hd5, hd6, hd7, hd8, hd9, hd10, hd11, hd12, hd13, hd14, hd15, hd16, hd17, hd18, hd19, hd20, hd21, hd22, hd23]

/-- In `double`, the discriminant of the grazing ray from `(10,0,200)` straight down
on the sphere of radius 10 is computed as exactly 0 (all intermediate values are
small integers). -/
theorem demoGrazing_discr :
    Sphere.discrRounded roundDouble (demoBase (⟨0, 0, 0⟩ : Point3 ℝ) 10)
      ⟨⟨10, 0, 200⟩, ⟨0, 0, -1⟩⟩ = 0 := by
  have hw1 : roundDouble ((10 - 0 : ℝ)) = 10 :=
    roundDouble_pos _ (3) (5629499534213120) _ (by norm_num) (by norm_num) (by norm_num) (by norm_num)
      (by norm_num)
  have hw2 : roundDouble ((0 - 0 : ℝ)) = 0 := by
    rw [show ((0 - 0 : ℝ)) = 0 by norm_num]
    exact roundDouble_zero
  have hw3 : roundDouble ((200 - 0 : ℝ)) = 200 :=
    roundDouble_pos _ (7) (7036874417766400) _ (by norm_num) (by norm_num) (by norm_num) (by norm_num)
      (by norm_num)
  have hw4 : roundDouble ((0 * 0 : ℝ)) = 0 := by
    rw [show ((0 * 0 : ℝ)) = 0 by norm_num]
    exact roundDouble_zero
  have hw5 : roundDouble ((0 + 0 : ℝ)) = 0 := by
    rw [show ((0 + 0 : ℝ)) = 0 by norm_num]
    exact roundDouble_zero
  have hw6 : roundDouble (((-1) * (-1) : ℝ)) = 1 :=
    roundDouble_pos _ (0) (4503599627370496) _ (by norm_num) (by norm_num) (by norm_num) (by norm_num)
      (by norm_num)
  have hw7 : roundDouble ((0 + 1 : ℝ)) = 1 :=
    roundDouble_pos _ (0) (4503599627370496) _ (by norm_num) (by norm_num) (by norm_num) (by norm_num)
      (by norm_num)
  have hw8 : roundDouble ((0 * 10 : ℝ)) = 0 := by
    rw [show ((0 * 10 : ℝ)) = 0 by norm_num]
    exact roundDouble_zero
  have hw9 : roundDouble (((-1) * 200 : ℝ)) = -200 :=
    roundDouble_neg _ (7) (-7036874417766400) _ (by norm_num) (by norm_num) (by norm_num) (by norm_num)
      (by norm_num)
  have hw10 : roundDouble ((0 + (-200) : ℝ)) = -200 :=
    roundDouble_neg _ (7) (-7036874417766400) _ (by norm_num) (by norm_num) (by norm_num) (by norm_num)
      (by norm_num)
  have hw11 : roundDouble ((2 * (-200) : ℝ)) = -400 :=
    roundDouble_neg _ (8) (-7036874417766400) _ (by norm_num) (by norm_num) (by norm_num) (by norm_num)
      (by norm_num)
  have hw12 : roundDouble ((10 * 10 : ℝ)) = 100 :=
    roundDouble_pos _ (6) (7036874417766400) _ (by norm_num) (by norm_num) (by norm_num) (by norm_num)
      (by norm_num)
  have hw13 : roundDouble ((100 + 0 : ℝ)) = 100 :=
    roundDouble_pos _ (6) (7036874417766400) _ (by norm_num) (by norm_num) (by norm_num) (by norm_num)
      (by norm_num)
  have hw14 : roundDouble ((200 * 200 : ℝ)) = 40000 :=
    roundDouble_pos _ (15) (5497558138880000) _ (by norm_num) (by norm_num) (by norm_num) (by norm_num)
      (by norm_num)
  have hw15 : roundDouble ((100 + 40000 : ℝ)) = 40100 :=
    roundDouble_pos _ (15) (5511302034227200) _ (by norm_num) (by norm_num) (by norm_num) (by norm_num)
      (by norm_num)
  have hw16 : roundDouble ((40100 - 100 : ℝ)) = 40000 :=
    roundDouble_pos _ (15) (5497558138880000) _ (by norm_num) (by norm_num) (by norm_num) (by norm_num)
      (by norm_num)
  have hw17 : roundDouble (((-400) * (-400) : ℝ)) = 160000 :=
    roundDouble_pos _ (17) (5497558138880000) _ (by norm_num) (by norm_num) (by norm_num) (by norm_num)
      (by norm_num)
  have hw18 : roundDouble ((4 * 1 : ℝ)) = 4 :=
    roundDouble_pos _ (2) (4503599627370496) _ (by norm_num) (by norm_num) (by norm_num) (by norm_num)
      (by norm_num)
  have hw19 : roundDouble ((4 * 40000 : ℝ)) = 160000 :=
    roundDouble_pos _ (17) (5497558138880000) _ (by norm_num) (by norm_num) (by norm_num) (by norm_num)
      (by norm_num)
  have hw20 : roundDouble ((160000 - 160000 : ℝ)) = 0 := by
    rw [show ((160000 - 160000 : ℝ)) = 0 by norm_num]
    exact roundDouble_zero
  simp only [Sphere.discrRounded, Sphere.coefARounded, Sphere.coefBRounded,
    Sphere.coefCRounded, dotProductRounded, Point3.subRounded, demoBase, hw1, hw2, hw3, hw4, hw5, hw6, hw7, hw8, hw9, hw10, hw11, hw12, hw13, hw14, hw15, hw16, hw17, hw18, hw19, hw20]

/-- C18 (counterexample).  Sphere of radius 13 about the origin and
`Ray((7,0,17), (5,0,-12))`, whose line touches the sphere at `(12,0,5)`.  In `double`
the constructor stores the direction `(5m, 0, -12m) / 2^54` with
`m = 1385722962267845`, still exactly parallel to `(5,0,-12)`: the stored ray is
tangent, its exact discriminant is 0 and in exact arithmetic the code returns the
repeated root `2^54 / m` (about 13).  Computed in `double`, `a = 1 + 2^-52`,
`b = -26`, `c = 169` and `d = 676 - round(4a * 169) = -2^-43 < 0`, so
`Sphere::getIntersectionT` takes `return -1`: it reports no hit. -/
theorem c18_tangent_ray_rounds_to_miss_counterexample :
    Ray.newRounded roundDouble Real.sqrt (⟨7, 0, 17⟩ : Point3 ℝ) ⟨5, 0, -12⟩ = demoTangentRay ∧
    Sphere.discr demoSphere13 (demoTangentRay : Ray ℝ) = 0 ∧
    Sphere.getIntersectionT Real.sqrt demoSphere13 (demoTangentRay : Ray ℝ)
      = 2 ^ 54 / 1385722962267845 ∧
    Sphere.discrRounded roundDouble demoSphere13 (demoTangentRay : Ray ℝ) = -(1 / 2 ^ 43) ∧
    Sphere.getIntersectionTRounded roundDouble Real.sqrt demoSphere13 (demoTangentRay : Ray ℝ)
      = -1 := by
  have hd0 : Sphere.discr demoSphere13 (demoTangentRay : Ray ℝ) = 0 := by
    simp only [Sphere.discr, Sphere.coefA, Sphere.coefB, Sphere.coefC, demoSphere13, demoBase,
      demoTangentRay, dotProduct, Point3.sub]
    norm_num
  obtain ⟨_, _, _, hd⟩ := demoTangent_locals
  refine ⟨demoTangentRay_stored, hd0, ?_, hd, ?_⟩
  · rw [sphere_T_of_discr_nonneg demoSphere13 demoTangentRay (le_of_eq hd0.symm), hd0,
      Real.sqrt_zero]
    simp only [Sphere.coefA, Sphere.coefB, demoSphere13, demoBase, demoTangentRay, dotProduct,
      Point3.sub]
    norm_num
  · simp only [Sphere.getIntersectionTRounded, hd]
    rw [if_pos (by norm_num)]

/-- C18 (amended).  Whenever the discriminant that `Sphere::getIntersectionT`
computes is exactly 0, the function does not report no-hit: `sqrt(d)` is 0, `t1` and
`t2` are the same value, and it returns `-b / (2a)` as the code computes it.  This
holds for every rounding `rnd` of the arithmetic that leaves 0 unchanged, in
particular for `double` (`roundDouble`) and for exact arithmetic (`id`).  In exact
arithmetic the computed discriminant is 0 exactly for the tangent rays, and the
value returned is then a root of the quadratic and, for a non-zero direction, its
only root. -/
theorem c18_tangent_repeated_root (rnd sqrt : ℝ → ℝ) (o : Base ℝ) (ray : Ray ℝ)
    (hrnd : rnd 0 = 0) (hsqrt : sqrt 0 = 0)
    (htan : Sphere.discrRounded rnd o ray = 0) :
    Sphere.getIntersectionTRounded rnd sqrt o ray
      = rnd (rnd (-Sphere.coefBRounded rnd o ray) / rnd (2 * Sphere.coefARounded rnd ray)) ∧
    (Sphere.discr o ray = 0 →
      Sphere.getIntersectionTRounded id Real.sqrt o ray
        = -Sphere.coefB o ray / (2 * Sphere.coefA ray) ∧
      (Sphere.coefA ray ≠ 0 →
        Sphere.quadratic o ray (Sphere.getIntersectionTRounded id Real.sqrt o ray) = 0 ∧
        ∀ s, Sphere.quadratic o ray s = 0 →
          s = Sphere.getIntersectionTRounded id Real.sqrt o ray)) := by
  constructor
  · simp only [Sphere.getIntersectionTRounded, htan, hsqrt, hrnd, lt_irrefl, if_false,
      add_zero, sub_zero, gt_iff_lt]
  · intro htan0
    rw [getIntersectionTRounded_id]
    have hT : Sphere.getIntersectionT Real.sqrt o ray
        = -Sphere.coefB o ray / (2 * Sphere.coefA ray) := by
      rw [sphere_T_of_discr_nonneg o ray (le_of_eq htan0.symm), htan0, Real.sqrt_zero]
      simp
    refine ⟨hT, fun ha => ?_⟩
    rw [hT]
    simp only [Sphere.discr] at htan0
    have hq : ∀ s, Sphere.quadratic o ray s
        = Sphere.coefA ray * s ^ 2 + Sphere.coefB o ray * s + Sphere.coefC o ray := fun s => rfl
    constructor
    · rw [hq]
      have key : ∀ a b c : ℝ, a ≠ 0 → a * (-b / (2 * a)) ^ 2 + b * (-b / (2 * a)) + c
          = -(b * b - 4 * a * c) / (4 * a) := by
        intro a b c h
        field_simp
        ring
      rw [key _ _ _ ha, htan0]
      simp
    · intro s hs
      rw [hq] at hs
      have h2 : (2 * Sphere.coefA ray * s + Sphere.coefB o ray) ^ 2 = 0 := by
        linear_combination (4 * Sphere.coefA ray) * hs + htan0
      have h3 := pow_eq_zero_iff (two_ne_zero) |>.mp h2
      field_simp
      linear_combination h3

/-- C18 (witness): in `double`, the ray from `(10,0,200)` straight down grazes the
sphere of radius 10 about the origin; the computed discriminant is exactly 0. -/
theorem c18_tangent_repeated_root_witness :
    Sphere.getIntersectionTRounded roundDouble Real.sqrt (demoBase (⟨0, 0, 0⟩ : Point3 ℝ) 10)
        ⟨⟨10, 0, 200⟩, ⟨0, 0, -1⟩⟩
      = roundDouble (roundDouble (-Sphere.coefBRounded roundDouble
            (demoBase (⟨0, 0, 0⟩ : Point3 ℝ) 10) ⟨⟨10, 0, 200⟩, ⟨0, 0, -1⟩⟩)
          / roundDouble (2 * Sphere.coefARounded roundDouble
            (⟨⟨10, 0, 200⟩, ⟨0, 0, -1⟩⟩ : Ray ℝ))) :=
  (c18_tangent_repeated_root roundDouble Real.sqrt (demoBase ⟨0, 0, 0⟩ 10)
    ⟨⟨10, 0, 200⟩, ⟨0, 0, -1⟩⟩ roundDouble_zero Real.sqrt_zero demoGrazing_discr).1

end RayTracing
